import Mathlib

/-!
# Distortion effect (`src/effects/Distortion.cpp`)

A shallow embedding of the waveshaping distortion effect: the lookup-table
generators, the table-based waveshaper, the DC-blocking rolling average and
the per-block driver with its table-refresh policy.

Conventions of the embedding.

* Samples and parameters are elements of an ordered field `α` with a floor
  function (`ℚ`, `ℝ`): arithmetic is exact, rounding of `float`/`double` is
  not modelled.
* The `<cmath>` functions are not part of the repository; they are passed as
  a record `MathFns α`.  `realMath` is the record of the real functions.
* `STEPS` and `TABLESIZE` are defined in `Distortion.h`, which is not among
  the sources; `STEPS` is a parameter of every definition that uses it and
  `TABLESIZE STEPS = 2 * STEPS + 1`.
* `mTable` is a member of the effect object (the generators write `mTable[n]`
  without going through the instance state `data`); it is modelled as a
  function from indices to values, written with `Function.update`.
* C `int` values are unbounded integers here.  Where the source converts a floating
  value to an integer type the model takes the converted value to be the value
  itself; C leaves the conversion undefined when the type cannot hold the value.
  For `iter = std::floor(mParam1 / 20.0)` in `HalfSinTable` and `SineTable` every
  `mParam1` of the parameter's range `[0, 100]` is safe.  For
  `index = std::floor(sample * STEPS) + STEPS` in `WaveShaper` (`int`) the safe
  samples are those where `WaveShaperRaw` is not `none`, and for
  `queueLength = std::floor(samplerate / 20.0)` in `DCFilter` (`unsigned int`) the
  safe sample rates are the non-negative ones below `20 * 2^32`.
-/

namespace Distortion

/-- The functions and constants of `<cmath>` that the effect calls. -/
structure MathFns (α : Type) where
  exp : α → α
  log : α → α
  sin : α → α
  tanh : α → α
  sqrt : α → α
  pow : α → α → α
  M_PI : α
  M_PI_2 : α

/-- The real-valued `<cmath>` functions (exact arithmetic). -/
noncomputable def realMath : MathFns ℝ where
  exp := Real.exp
  log := Real.log
  sin := Real.sin
  tanh := Real.tanh
  sqrt := Real.sqrt
  pow := fun x y => x ^ y
  M_PI := Real.pi
  M_PI_2 := Real.pi / 2

/-- The `enum kTableType` of the source, without the count `kNumTableTypes`. -/
inductive kTableType where
  | kHardClip
  | kSoftClip
  | kHalfSinCurve
  | kExpCurve
  | kLogCurve
  | kCubic
  | kEvenHarmonics
  | kSinCurve
  | kLeveller
  | kRectifier
  | kHardLimiter
  deriving DecidableEq, Repr

/-- The enumerator with integer value `i`, as a `switch` on an `int` selects it;
`none` is the `default:` label. -/
def kTableType.ofInt (i : Int) : Option kTableType :=
  if i = 0 then some .kHardClip
  else if i = 1 then some .kSoftClip
  else if i = 2 then some .kHalfSinCurve
  else if i = 3 then some .kExpCurve
  else if i = 4 then some .kLogCurve
  else if i = 5 then some .kCubic
  else if i = 6 then some .kEvenHarmonics
  else if i = 7 then some .kSinCurve
  else if i = 8 then some .kLeveller
  else if i = 9 then some .kRectifier
  else if i = 10 then some .kHardLimiter
  else none

/-- The integer value of an enumerator. -/
def kTableType.toInt : kTableType → Int
  | .kHardClip => 0
  | .kSoftClip => 1
  | .kHalfSinCurve => 2
  | .kExpCurve => 3
  | .kLogCurve => 4
  | .kCubic => 5
  | .kEvenHarmonics => 6
  | .kSinCurve => 7
  | .kLeveller => 8
  | .kRectifier => 9
  | .kHardLimiter => 10

/-- `EffectDistortion::Params`: the seven user-controlled values. -/
structure Params (α : Type) where
  mTableChoiceIndx : Int
  mDCBlock : Bool
  mThreshold_dB : α
  mNoiseFloor : α
  mParam1 : α
  mParam2 : α
  mRepeats : Int

/-- `EffectDistortionState`: the per-instance state.  `queuesamples` is the
`std::queue<float>`, front first. -/
structure EffectDistortionState (α : Type) where
  samplerate : α
  skipcount : Nat
  tablechoiceindx : Int
  dcblock : Bool
  threshold : α
  noisefloor : α
  param1 : α
  param2 : α
  repeats : Int
  queuesamples : List α
  queuetotal : α

/-- The members of `EffectDistortion` that the processing code reads or writes. -/
structure EffectDistortion (α : Type) where
  mParams : Params α
  mThreshold : α
  mMakeupGain : α
  mTable : Nat → α
  mSampleRate : α
  mMaster : EffectDistortionState α
  mSlaves : List (EffectDistortionState α)

section Engine

variable {α : Type} [LinearOrderedField α] [FloorRing α]

/-- Modelled from the spec: `TABLESIZE`, defined in `Distortion.h` (absent); the
spec gives `TABLESIZE = 2·STEPS + 1`. -/
def TABLESIZE (STEPS : Nat) : Nat := 2 * STEPS + 1

/-- The source has `#define skipsamples 1000`. -/
def skipsamples : Nat := 1000

/-- Modelled from the spec: the macro `DB_TO_LINEAR`, defined outside the sources;
the linear equivalent of a dB value, `10^(x/20)`. -/
def DB_TO_LINEAR (M : MathFns α) (x : α) : α := M.pow 10 (x / 20)

/-- A counted loop `for (int n = lo; n < hi; n++) body`. -/
def forLoop {σ : Type} (lo hi : Nat) (body : Nat → σ → σ) (s : σ) : σ :=
  (List.range' lo (hi - lo)).foldl (fun s n => body n s) s

/-- The assignment `mTable[n] = v`. -/
def EffectDistortion.setTable (e : EffectDistortion α) (n : Nat) (v : α) : EffectDistortion α :=
  { e with mTable := Function.update e.mTable n v }

/-- `EffectDistortion::CopyHalfTable`: loop state is the effect and `count`. -/
def CopyHalfTable (STEPS : Nat) (e : EffectDistortion α) : EffectDistortion α :=
  (forLoop 0 STEPS
    (fun n (s : EffectDistortion α × Int) =>
      (s.1.setTable n (-(s.1.mTable s.2.toNat)), s.2 - 1))
    (e, ((TABLESIZE STEPS : Nat) : Int) - 1)).1

/-- `EffectDistortion::HardClip`. -/
def HardClip (STEPS : Nat) (e : EffectDistortion α) : EffectDistortion α :=
  let lowThresh : α := 1 - e.mThreshold
  let highThresh : α := 1 + e.mThreshold
  forLoop 0 (TABLESIZE STEPS)
    (fun n (e : EffectDistortion α) =>
      let e1 :=
        if (n : α) < (STEPS : α) * lowThresh then e.setTable n (-e.mThreshold)
        else if (n : α) > (STEPS : α) * highThresh then e.setTable n e.mThreshold
        else e.setTable n ((n : α) / (STEPS : α) - 1)
      { e1 with mMakeupGain := 1 / e1.mThreshold })
    e

/-- `EffectDistortion::LogCurve`. -/
def LogCurve (M : MathFns α) (threshold value ratio : α) : α :=
  threshold + ((M.exp (ratio * (threshold - value)) - 1) / -ratio)

/-- `EffectDistortion::SoftClip`. -/
def SoftClip (M : MathFns α) (STEPS : Nat) (e : EffectDistortion α) : EffectDistortion α :=
  let threshold : α := 1 + e.mThreshold
  let amount : α := M.pow 2 (7 * e.mParams.mParam1 / 100)
  let peak : α := LogCurve M e.mThreshold 1 amount
  let e1 := { e with mMakeupGain := 1 / peak }
  let e2 := e1.setTable STEPS 0
  let e3 := forLoop STEPS (TABLESIZE STEPS)
    (fun n (e : EffectDistortion α) =>
      if (n : α) < (STEPS : α) * threshold then e.setTable n ((n : α) / (STEPS : α) - 1)
      else e.setTable n (LogCurve M e.mThreshold ((n : α) / (STEPS : α) - 1) amount))
    e2
  CopyHalfTable STEPS e3

/-- `EffectDistortion::ExponentialTable`. -/
def ExponentialTable (M : MathFns α) (STEPS : Nat) (e : EffectDistortion α) :
    EffectDistortion α :=
  let amount : α := min (999 / 1000) (DB_TO_LINEAR M (-1 * e.mParams.mParam1))
  let e1 := forLoop STEPS (TABLESIZE STEPS)
    (fun n (e : EffectDistortion α) =>
      let linVal : α := (n : α) / (STEPS : α)
      let scale : α := -1 / (1 - amount)
      let curve : α := M.exp ((linVal - 1) * M.log amount)
      e.setTable n (scale * (curve - 1)))
    e
  CopyHalfTable STEPS e1

/-- `EffectDistortion::LogarithmicTable`: loop state is the effect and `linVal`. -/
def LogarithmicTable (M : MathFns α) (STEPS : Nat) (e : EffectDistortion α) :
    EffectDistortion α :=
  let amount : α := e.mParams.mParam1
  let stepsize : α := 1 / (STEPS : α)
  let linVal : α := 0
  let e1 :=
    if amount = 0 then
      (forLoop STEPS (TABLESIZE STEPS)
        (fun n (s : EffectDistortion α × α) => (s.1.setTable n s.2, s.2 + stepsize))
        (e, linVal)).1
    else
      (forLoop STEPS (TABLESIZE STEPS)
        (fun n (s : EffectDistortion α × α) =>
          (s.1.setTable n (M.log (1 + amount * s.2) / M.log (1 + amount)), s.2 + stepsize))
        (e, linVal)).1
  CopyHalfTable STEPS e1

/-- `EffectDistortion::HalfSinTable`: loop state is the effect and `linVal`. -/
def HalfSinTable (M : MathFns α) (STEPS : Nat) (e : EffectDistortion α) : EffectDistortion α :=
  let iter : Int := Int.floor (e.mParams.mParam1 / 20)
  let fractionalpart : α := e.mParams.mParam1 / 20 - (iter : α)
  let stepsize : α := 1 / (STEPS : α)
  let linVal : α := 0
  let e1 :=
    (forLoop STEPS (TABLESIZE STEPS)
      (fun n (s : EffectDistortion α × α) =>
        let e1 := s.1.setTable n s.2
        let e2 := forLoop 0 iter.toNat
          (fun _ (e : EffectDistortion α) => e.setTable n (M.sin (e.mTable n * M.M_PI_2))) e1
        let e3 := e2.setTable n
          (e2.mTable n + (M.sin (e2.mTable n * M.M_PI_2) - e2.mTable n) * fractionalpart)
        (e3, s.2 + stepsize))
      (e, linVal)).1
  CopyHalfTable STEPS e1

/-- `EffectDistortion::Cubic`. -/
def Cubic (M : MathFns α) (e : EffectDistortion α) (x : α) : α :=
  if e.mParams.mParam1 = 0 then x else x - (M.pow x 3 / 3)

/-- `EffectDistortion::CubicTable`: the loop state of the second loop is the
effect and `x`. -/
def CubicTable (M : MathFns α) (STEPS : Nat) (e : EffectDistortion α) : EffectDistortion α :=
  let amount : α := e.mParams.mParam1 * M.sqrt 3 / 100
  let gain : α := if amount ≠ 0 then 1 / Cubic M e (min amount 1) else 1
  let stepsize : α := amount / (STEPS : α)
  let x : α := -amount
  if amount = 0 then
    forLoop 0 (TABLESIZE STEPS)
      (fun i (e : EffectDistortion α) => e.setTable i ((i : α) / (STEPS : α) - 1)) e
  else
    (forLoop 0 (TABLESIZE STEPS)
      (fun i (s : EffectDistortion α × α) =>
        let e1 := s.1.setTable i (gain * Cubic M s.1 s.2)
        let e2 := forLoop 0 e1.mParams.mRepeats.toNat
          (fun _ (e : EffectDistortion α) =>
            e.setTable i (gain * Cubic M e (e.mTable i * amount))) e1
        (e2, s.2 + stepsize))
      (e, x)).1

/-- `EffectDistortion::EvenHarmonicTable`: loop state is the effect and `xval`. -/
def EvenHarmonicTable (M : MathFns α) (STEPS : Nat) (e : EffectDistortion α) :
    EffectDistortion α :=
  let amount : α := e.mParams.mParam1 / -100
  let C : α := max (1 / 1000) e.mParams.mParam2 / 10
  let step : α := 1 / (STEPS : α)
  let xval : α := -1
  (forLoop 0 (TABLESIZE STEPS)
    (fun i (s : EffectDistortion α × α) =>
      (s.1.setTable i
        (((1 + amount) * s.2) - (s.2 * (amount / M.tanh C) * M.tanh (C * s.2))),
       s.2 + step))
    (e, xval)).1

/-- `EffectDistortion::SineTable`: loop state is the effect and `linVal`. -/
def SineTable (M : MathFns α) (STEPS : Nat) (e : EffectDistortion α) : EffectDistortion α :=
  let iter : Int := Int.floor (e.mParams.mParam1 / 20)
  let fractionalpart : α := e.mParams.mParam1 / 20 - (iter : α)
  let stepsize : α := 1 / (STEPS : α)
  let linVal : α := 0
  let e1 :=
    (forLoop STEPS (TABLESIZE STEPS)
      (fun n (s : EffectDistortion α × α) =>
        let e1 := s.1.setTable n s.2
        let e2 := forLoop 0 iter.toNat
          (fun _ (e : EffectDistortion α) =>
            e.setTable n ((1 + M.sin ((e.mTable n * M.M_PI) - M.M_PI_2)) / 2)) e1
        let e3 := e2.setTable n
          (e2.mTable n +
            (((1 + M.sin ((e2.mTable n * M.M_PI) - M.M_PI_2)) / 2) - e2.mTable n) *
              fractionalpart)
        (e3, s.2 + stepsize))
      (e, linVal)).1
  CopyHalfTable STEPS e1

/-- The search `for (int i = index; i >= 0 && v < gainLimits[i]; i--) index = i;`
of `Leveller`, with `k = i + 1` candidates left. -/
def levellerIndex (gainLimits : Nat → α) (v : α) : Nat → Nat → Nat
  | 0, index => index
  | k + 1, index => if v < gainLimits k then levellerIndex gainLimits v k k else index

/-- The array `gainFactors` of `Leveller`. -/
def gainFactors : Nat → α := fun i =>
  if i = 0 then 80 / 100 else if i = 1 then 1 else if i = 2 then 120 / 100
  else if i = 3 then 120 / 100 else if i = 4 then 1 else if i = 5 then 80 / 100 else 0

/-- The array `gainLimits` of `Leveller` after `gainLimits[1] = noiseFloor`. -/
def gainLimits (noiseFloor : α) : Nat → α :=
  Function.update
    (fun i => if i = 0 then (1 / 10000 : α) else if i = 1 then 0 else if i = 2 then 1 / 10
      else if i = 3 then 3 / 10 else if i = 4 then 5 / 10 else if i = 5 then 1 else 0)
    1 noiseFloor

/-- The array `addOnValues` of `Leveller`. -/
def addOnValues (noiseFloor : α) : Nat → α :=
  forLoop 0 (6 - 1)
    (fun i (a : Nat → α) =>
      Function.update a (i + 1)
        (a i + gainLimits noiseFloor i * (gainFactors i - gainFactors (1 + i))))
    (Function.update (fun _ => (0 : α)) 0 0)

/-- `EffectDistortion::Leveller`. -/
def Leveller (M : MathFns α) (STEPS : Nat) (e : EffectDistortion α) : EffectDistortion α :=
  let noiseFloor : α := DB_TO_LINEAR M e.mParams.mNoiseFloor
  let numPasses : Int := e.mParams.mRepeats
  let fractionalPass : α := e.mParams.mParam1 / 100
  let numPoints : Nat := 6
  let e1 := forLoop STEPS (TABLESIZE STEPS)
    (fun n (e : EffectDistortion α) =>
      let e1 := e.setTable n ((((n - STEPS : Nat) : α)) / (STEPS : α))
      let e2 := forLoop 0 numPasses.toNat
        (fun _ (e : EffectDistortion α) =>
          let index := levellerIndex (gainLimits noiseFloor) (e.mTable n) numPoints (numPoints - 1)
          e.setTable n ((e.mTable n * gainFactors index) + addOnValues noiseFloor index)) e1
      if fractionalPass > 1 / 1000 then
        let index := levellerIndex (gainLimits noiseFloor) (e2.mTable n) numPoints (numPoints - 1)
        e2.setTable n
          (e2.mTable n +
            fractionalPass * ((e2.mTable n * (gainFactors index - 1)) + addOnValues noiseFloor index))
      else e2)
    e
  CopyHalfTable STEPS e1

/-- `EffectDistortion::Rectifier`: loop state is the effect and `index`. -/
def Rectifier (STEPS : Nat) (e : EffectDistortion α) : EffectDistortion α :=
  let amount : α := (e.mParams.mParam1 / 50) - 1
  let stepsize : α := 1 / (STEPS : α)
  let s1 := forLoop 0 (STEPS + 1)
    (fun n (s : EffectDistortion α × Int) => (s.1.setTable s.2.toNat ((n : α) * stepsize), s.2 + 1))
    (e, (STEPS : Int))
  let s2 := forLoop 1 (STEPS + 1)
    (fun n (s : EffectDistortion α × Int) =>
      (s.1.setTable s.2.toNat ((n : α) * stepsize * amount), s.2 - 1))
    (s1.1, (STEPS : Int) - 1)
  s2.1

/-- `EffectDistortion::HardLimiter`. -/
def HardLimiter (STEPS : Nat) (e : EffectDistortion α) : EffectDistortion α :=
  HardClip STEPS e

/-- `EffectDistortion::MakeTable`. -/
def MakeTable (M : MathFns α) (STEPS : Nat) (e : EffectDistortion α) : EffectDistortion α :=
  match kTableType.ofInt e.mParams.mTableChoiceIndx with
  | some .kHardClip => HardClip STEPS e
  | some .kSoftClip => SoftClip M STEPS e
  | some .kHalfSinCurve => HalfSinTable M STEPS e
  | some .kExpCurve => ExponentialTable M STEPS e
  | some .kLogCurve => LogarithmicTable M STEPS e
  | some .kCubic => CubicTable M STEPS e
  | some .kEvenHarmonics => EvenHarmonicTable M STEPS e
  | some .kSinCurve => SineTable M STEPS e
  | some .kLeveller => Leveller M STEPS e
  | some .kRectifier => Rectifier STEPS e
  | some .kHardLimiter => HardLimiter STEPS e
  | none => e

/-- The pre-processing `switch` of `WaveShaper`: the sample after the pre-gain that
`kHardClip` applies. -/
def WaveShaperSample (e : EffectDistortion α) (sample : α) : α :=
  match kTableType.ofInt e.mParams.mTableChoiceIndx with
  | some .kHardClip =>
    let amount : α := e.mParams.mParam1 / 100
    sample * (1 + amount)
  | _ => sample

/-- The assignment `index = std::floor(sample * STEPS) + STEPS` of `WaveShaper`, the
conversion of the floating value to the 32-bit `int index` included: `none` when an `int`
cannot hold the value, where the behaviour is undefined in C. -/
def WaveShaperRaw (STEPS : Nat) (e : EffectDistortion α) (sample : α) : Option Int :=
  let sample := WaveShaperSample e sample
  let index : Int := Int.floor (sample * (STEPS : α)) + (STEPS : Int)
  if -2147483648 ≤ index ∧ index ≤ 2147483647 then some index else none

/-- The statements of `WaveShaper` that follow the assignment of `index`, for the value
`raw` that `index` holds after it: the clamp of the index, the offset and the
interpolation. -/
def WaveShaperFrom (STEPS : Nat) (e : EffectDistortion α) (sample : α) (raw : Int) : α :=
  let sample := WaveShaperSample e sample
  let index : Int := max (min raw (2 * (STEPS : Int) - 1)) 0
  let xOffset : α := ((1 + sample) * (STEPS : α)) - (index : α)
  let xOffset : α := min (max xOffset 0) 1
  e.mTable index.toNat + (e.mTable (index + 1).toNat - e.mTable index.toNat) * xOffset

/-- The clamped `index` of `WaveShaper`, the value before the clamp being the unbounded
integer `floor(sample * STEPS) + STEPS`: the index of the source whenever `WaveShaperRaw`
is not `none`. -/
def WaveShaperIndex (STEPS : Nat) (e : EffectDistortion α) (sample : α) : Int :=
  let sample := WaveShaperSample e sample
  let index : Int := Int.floor (sample * (STEPS : α)) + (STEPS : Int)
  max (min index (2 * (STEPS : Int) - 1)) 0

/-- The clamped `xOffset` of `WaveShaper`. -/
def WaveShaperOffset (STEPS : Nat) (e : EffectDistortion α) (sample : α) : α :=
  let index := WaveShaperIndex STEPS e sample
  let sample := WaveShaperSample e sample
  let xOffset : α := ((1 + sample) * (STEPS : α)) - (index : α)
  min (max xOffset 0) 1

/-- `EffectDistortion::WaveShaper`. -/
def WaveShaper (STEPS : Nat) (e : EffectDistortion α) (sample : α) : α :=
  let index := WaveShaperIndex STEPS e sample
  let xOffset := WaveShaperOffset STEPS e sample
  e.mTable index.toNat + (e.mTable (index + 1).toNat - e.mTable index.toNat) * xOffset

/-- `EffectDistortion::DCFilter`.  The result is `none` when the final division
is a division by zero (the queue is empty), `some` of the quotient expression
otherwise.  `queueLength` is an `unsigned int` (32 bits) in the source; `Int.toNat` is
that conversion when `0 ≤ floor(samplerate / 20) ≤ 4294967295`, and outside this range,
for a negative sample rate in particular, the conversion is undefined in C. -/
def DCFilter (data : EffectDistortionState α) (sample : α) :
    EffectDistortionState α × Option α :=
  let queueLength : Nat := (Int.floor (data.samplerate / 20)).toNat
  let d1 : EffectDistortionState α :=
    { data with queuetotal := data.queuetotal + sample
                queuesamples := data.queuesamples ++ [sample] }
  let d2 : EffectDistortionState α :=
    if d1.queuesamples.length > queueLength then
      match d1.queuesamples with
      | [] => d1
      | front :: rest => { d1 with queuetotal := d1.queuetotal - front, queuesamples := rest }
    else d1
  (d2, if d2.queuesamples.length = 0 then none
       else some (sample - d2.queuetotal / (d2.queuesamples.length : α)))

/-- The loop `while (!q.empty()) q.pop();` of `InstanceInit`. -/
def clearQueue : List α → List α
  | [] => []
  | _ :: rest => clearQueue rest

/-- `EffectDistortion::InstanceInit`: the effect and the instance afterwards. -/
def InstanceInit (M : MathFns α) (STEPS : Nat) (e : EffectDistortion α)
    (data : EffectDistortionState α) (sampleRate : α) :
    EffectDistortion α × EffectDistortionState α :=
  let data1 : EffectDistortionState α :=
    { data with
      samplerate := sampleRate
      skipcount := 0
      tablechoiceindx := e.mParams.mTableChoiceIndx
      dcblock := e.mParams.mDCBlock
      threshold := e.mParams.mThreshold_dB
      noisefloor := e.mParams.mNoiseFloor
      param1 := e.mParams.mParam1
      param2 := e.mParams.mParam2
      repeats := e.mParams.mRepeats
      queuetotal := 0 }
  let data2 := { data1 with queuesamples := clearQueue data1.queuesamples }
  (MakeTable M STEPS e, data2)

/-- The flag `update` of `InstanceProcess`. -/
def InstanceProcess.update (e : EffectDistortion α) (data : EffectDistortionState α) : Bool :=
  if (e.mParams.mTableChoiceIndx = data.tablechoiceindx ∧
      e.mParams.mNoiseFloor = data.noisefloor ∧
      e.mParams.mThreshold_dB = data.threshold ∧
      e.mParams.mParam1 = data.param1 ∧
      e.mParams.mParam2 = data.param2 ∧
      e.mParams.mRepeats = data.repeats) then false else true

/-- The five assignments to the cached parameters at the top of `InstanceProcess`. -/
def InstanceProcess.cache (e : EffectDistortion α) (data : EffectDistortionState α) :
    EffectDistortionState α :=
  { data with
    tablechoiceindx := e.mParams.mTableChoiceIndx
    threshold := e.mParams.mThreshold_dB
    noisefloor := e.mParams.mNoiseFloor
    param1 := e.mParams.mParam1
    repeats := e.mParams.mRepeats }

/-- The statement `if (update && ((data.skipcount++) % skipsamples == 0)) MakeTable();`
of the sample loop. -/
def InstanceProcess.refresh (M : MathFns α) (STEPS : Nat) (update : Bool)
    (s : EffectDistortion α × EffectDistortionState α) :
    EffectDistortion α × EffectDistortionState α :=
  if update then
    let data1 := { s.2 with skipcount := s.2.skipcount + 1 }
    if s.2.skipcount % skipsamples = 0 then (MakeTable M STEPS s.1, data1) else (s.1, data1)
  else s

/-- The `switch` of the sample loop of `InstanceProcess`: the value stored in
`obuf[i]` before DC filtering. -/
def InstanceProcess.shape (STEPS : Nat) (p1 p2 : α) (e : EffectDistortion α) (x : α) : α :=
  match kTableType.ofInt e.mParams.mTableChoiceIndx with
  | some .kHardClip => WaveShaper STEPS e x * ((1 - p2) + (e.mMakeupGain * p2))
  | some .kSoftClip => WaveShaper STEPS e x * ((1 - p2) + (e.mMakeupGain * p2))
  | some .kHalfSinCurve => WaveShaper STEPS e x * p2
  | some .kExpCurve => WaveShaper STEPS e x * p2
  | some .kLogCurve => WaveShaper STEPS e x * p2
  | some .kCubic => WaveShaper STEPS e x * p2
  | some .kEvenHarmonics => WaveShaper STEPS e x
  | some .kSinCurve => WaveShaper STEPS e x * p2
  | some .kLeveller => WaveShaper STEPS e x
  | some .kRectifier => WaveShaper STEPS e x
  | some .kHardLimiter => (WaveShaper STEPS e x * (p1 - p2)) + (x * p2)
  | none => WaveShaper STEPS e x

/-- What `InstanceProcess` leaves behind: the effect, the instance, the output
buffer (`none` for a sample whose DC filtering divided by zero) and the returned
sample count. -/
structure ProcessResult (α : Type) where
  effect : EffectDistortion α
  data : EffectDistortionState α
  obuf : List (Option α)
  ret : Nat

/-- One iteration of the sample loop of `InstanceProcess` on the input sample `x`. -/
def InstanceProcess.step (M : MathFns α) (STEPS : Nat) (update : Bool) (p1 p2 : α)
    (s : EffectDistortion α × EffectDistortionState α × List (Option α)) (x : α) :
    EffectDistortion α × EffectDistortionState α × List (Option α) :=
  let r := InstanceProcess.refresh M STEPS update (s.1, s.2.1)
  let out := InstanceProcess.shape STEPS p1 p2 r.1 x
  if r.1.mParams.mDCBlock then
    let f := DCFilter r.2 out
    (r.1, f.1, s.2.2 ++ [f.2])
  else (r.1, r.2, s.2.2 ++ [some out])

/-- `EffectDistortion::InstanceProcess` on the block `ibuf` (`blockLen` is its
length). -/
def InstanceProcess (M : MathFns α) (STEPS : Nat) (e : EffectDistortion α)
    (data : EffectDistortionState α) (ibuf : List α) : ProcessResult α :=
  let update := InstanceProcess.update e data
  let p1 : α := e.mParams.mParam1 / 100
  let p2 : α := e.mParams.mParam2 / 100
  let data1 := InstanceProcess.cache e data
  let s := ibuf.foldl (InstanceProcess.step M STEPS update p1 p2) (e, data1, [])
  { effect := s.1, data := s.2.1, obuf := s.2.2, ret := ibuf.length }

/-- `EffectDistortion::ProcessInitialize`. -/
def ProcessInitialize (M : MathFns α) (STEPS : Nat) (e : EffectDistortion α) :
    EffectDistortion α :=
  let r := InstanceInit M STEPS e e.mMaster e.mSampleRate
  { r.1 with mMaster := r.2 }

/-- `EffectDistortion::ProcessBlock`: the effect afterwards, the output block and
the returned count. -/
def ProcessBlock (M : MathFns α) (STEPS : Nat) (e : EffectDistortion α) (ibuf : List α) :
    EffectDistortion α × List (Option α) × Nat :=
  let r := InstanceProcess M STEPS e e.mMaster ibuf
  ({ r.effect with mMaster := r.data }, r.obuf, r.ret)

/-- `EffectDistortion::RealtimeInitialize`. -/
def RealtimeInitialize (e : EffectDistortion α) : EffectDistortion α :=
  { e with mSlaves := [] }

/-- A default-constructed `EffectDistortionState`; `InstanceInit` assigns every
field of it. -/
def EffectDistortionState.fresh : EffectDistortionState α :=
  { samplerate := 0, skipcount := 0, tablechoiceindx := 0, dcblock := false, threshold := 0,
    noisefloor := 0, param1 := 0, param2 := 0, repeats := 0, queuesamples := [], queuetotal := 0 }

/-- `EffectDistortion::RealtimeAddProcessor`. -/
def RealtimeAddProcessor (M : MathFns α) (STEPS : Nat) (e : EffectDistortion α)
    (sampleRate : α) : EffectDistortion α :=
  let r := InstanceInit M STEPS e EffectDistortionState.fresh sampleRate
  { r.1 with mSlaves := r.1.mSlaves ++ [r.2] }

/-- `EffectDistortion::RealtimeProcess`; `none` when `group` is not an index of
`mSlaves`. -/
def RealtimeProcess (M : MathFns α) (STEPS : Nat) (e : EffectDistortion α) (group : Nat)
    (ibuf : List α) : Option (EffectDistortion α × List (Option α) × Nat) :=
  match e.mSlaves.get? group with
  | none => none
  | some data =>
    let r := InstanceProcess M STEPS e data ibuf
    some ({ r.effect with mSlaves := r.effect.mSlaves.set group r.data }, r.obuf, r.ret)

/-- The constructor `EffectDistortion::EffectDistortion()` with the defaults of the
`Param` table; `mTable` and `mMaster` start with zeros, the sample rate is the
host's. -/
def EffectDistortion.new (M : MathFns α) (sampleRate : α) : EffectDistortion α :=
  { mParams :=
      { mTableChoiceIndx := 0, mDCBlock := false, mThreshold_dB := -6, mNoiseFloor := -70,
        mParam1 := 50, mParam2 := 50, mRepeats := 1 }
    mThreshold := DB_TO_LINEAR M (-6)
    mMakeupGain := 1
    mTable := fun _ => 0
    mSampleRate := sampleRate
    mMaster := EffectDistortionState.fresh
    mSlaves := [] }

/-- One row of `FactoryPresets`. -/
def preset (t : Int) (dc : Bool) (threshold floor p1 p2 : α) (repeats : Int) : Params α :=
  { mTableChoiceIndx := t, mDCBlock := dc, mThreshold_dB := threshold, mNoiseFloor := floor,
    mParam1 := p1, mParam2 := p2, mRepeats := repeats }

/-- The parameter bundles of the table `FactoryPresets`, in order. -/
def FactoryPresets : List (Params α) :=
  [ preset 0 false (-12) (-70) 0 80 0,
    preset 1 false (-12) (-70) 50 80 0,
    preset 1 false (-30) (-70) 80 80 0,
    preset 1 false (-50) (-70) 60 80 0,
    preset 2 false (-6) (-70) 30 80 0,
    preset 3 false (-6) (-70) 20 80 0,
    preset 4 false (-6) (-70) 90 80 0,
    preset 5 false (-6) (-70) 100 60 0,
    preset 6 true (-6) (-70) 30 40 0,
    preset 6 true (-6) (-70) 50 0 0,
    preset 7 false (-6) (-70) 30 80 0,
    preset 8 false (-6) (-70) 0 50 1,
    preset 8 false (-6) (-70) 0 50 2,
    preset 8 false (-6) (-70) 0 50 3,
    preset 8 false (-6) (-70) 0 50 4,
    preset 8 false (-6) (-70) 0 50 5,
    preset 9 false (-6) (-70) 50 50 0,
    preset 9 false (-6) (-70) 100 50 0,
    preset 9 true (-6) (-70) 100 50 0,
    preset 10 false (-12) (-70) 100 30 0 ]

/-- `EffectDistortion::LoadFactoryPreset` without an open dialog (`mUIDialog` null). -/
def LoadFactoryPreset (M : MathFns α) (e : EffectDistortion α) (id : Int) :
    EffectDistortion α × Bool :=
  if id < 0 ∨ id ≥ ((FactoryPresets : List (Params α)).length : Int) then (e, false)
  else
    match (FactoryPresets : List (Params α)).get? id.toNat with
    | none => (e, false)
    | some p => ({ e with mParams := p, mThreshold := DB_TO_LINEAR M p.mThreshold_dB }, true)

/-- The assignment of `EffectDistortion::OnParam1Slider`, `v` being `evt.GetInt()`. -/
def OnParam1Slider (e : EffectDistortion α) (v : Int) : EffectDistortion α :=
  { e with mParams := { e.mParams with mParam1 := (v : α) } }

/-- The assignment of `EffectDistortion::OnParam2Slider`, `v` being `evt.GetInt()`. -/
def OnParam2Slider (e : EffectDistortion α) (v : Int) : EffectDistortion α :=
  { e with mParams := { e.mParams with mParam2 := (v : α) } }

/-- `EffectDistortion::SetAutomationParameters`.  The macros `ReadAndVerifyEnum`,
`ReadAndVerifyBool`, `ReadAndVerifyDouble` and `ReadAndVerifyInt` are defined outside the
sources; `parms` is what they deliver: `none` when one of them fails, so that the function
returns `false` before any assignment, and the seven values read otherwise. -/
def SetAutomationParameters (e : EffectDistortion α) (parms : Option (Params α)) :
    EffectDistortion α × Bool :=
  match parms with
  | none => (e, false)
  | some p =>
    ({ e with mParams :=
        { mTableChoiceIndx := p.mTableChoiceIndx
          mDCBlock := p.mDCBlock
          mThreshold_dB := p.mThreshold_dB
          mNoiseFloor := p.mNoiseFloor
          mParam1 := p.mParam1
          mParam2 := p.mParam2
          mRepeats := p.mRepeats } }, true)

end Engine

section Closed

variable {α : Type} [LinearOrderedField α] [FloorRing α]

/-- The members a table generator leaves alone are those of `e`. -/
def SameConfig (e e' : EffectDistortion α) : Prop :=
  e'.mParams = e.mParams ∧ e'.mThreshold = e.mThreshold ∧ e'.mSampleRate = e.mSampleRate ∧
    e'.mMaster = e.mMaster ∧ e'.mSlaves = e.mSlaves

/-- The entry `HardClip` stores at index `n` for the linear threshold `t`. -/
def hardClipEntry (STEPS : Nat) (t : α) (n : Nat) : α :=
  if (n : α) < (STEPS : α) * (1 - t) then -t
  else if (n : α) > (STEPS : α) * (1 + t) then t
  else (n : α) / (STEPS : α) - 1

/-- The table `Rectifier` writes, entry by entry. -/
def rectifierEntry (STEPS : Nat) (param1 : α) (i : Nat) : α :=
  if STEPS ≤ i then ((i - STEPS : Nat) : α) * (1 / (STEPS : α))
  else ((STEPS - i : Nat) : α) * (1 / (STEPS : α)) * (param1 / 50 - 1)

noncomputable def staleStart : EffectDistortion ℝ :=
  ProcessInitialize realMath 1024
    (LoadFactoryPreset realMath (EffectDistortion.new realMath 44100) 16).1

noncomputable def staleFirst : EffectDistortion ℝ :=
  (ProcessBlock realMath 1024 (OnParam1Slider staleStart 0) [0]).1

noncomputable def staleSecond : EffectDistortion ℝ :=
  (ProcessBlock realMath 1024 (OnParam1Slider staleFirst 100) [0]).1

noncomputable def staleRun (ibuf : List ℝ) : EffectDistortion ℝ :=
  (ProcessBlock realMath 1024 staleSecond ibuf).1

/-- The states of an instance that `InstanceInit` at `sampleRate` followed by any
calls of `DCFilter` and `InstanceProcess` can produce. -/
inductive DCReachable (sampleRate : α) : EffectDistortionState α → Prop
  | init (M : MathFns α) (STEPS : Nat) (e : EffectDistortion α) (data : EffectDistortionState α) :
      DCReachable sampleRate (InstanceInit M STEPS e data sampleRate).2
  | filter (d : EffectDistortionState α) (x : α) :
      DCReachable sampleRate d → DCReachable sampleRate (DCFilter d x).1
  | process (M : MathFns α) (STEPS : Nat) (e : EffectDistortion α) (d : EffectDistortionState α)
      (ibuf : List α) :
      DCReachable sampleRate d → DCReachable sampleRate (InstanceProcess M STEPS e d ibuf).data

/-- The window length `queueLength` of `DCFilter`. -/
def queueLength (sampleRate : α) : Nat := (Int.floor (sampleRate / 20)).toNat

/-- The invariant of the rolling average: the total is the sum of the queue, whose
length is at most the window. -/
def DCInv (sampleRate : α) (d : EffectDistortionState α) : Prop :=
  d.samplerate = sampleRate ∧ d.queuetotal = d.queuesamples.sum ∧
    d.queuesamples.length ≤ queueLength sampleRate

/-- The effect after the constructor, `ProcessInitialize` and a move of the `param2`
slider from 50 to 60. -/
noncomputable def param2Start : EffectDistortion ℝ :=
  OnParam2Slider (ProcessInitialize realMath 1024 (EffectDistortion.new realMath 44100)) 60

/-- The effect after `param2Start` and the blocks `blocks`, processed by `ProcessBlock` with
no edit in between. -/
noncomputable def param2Run (blocks : List (List ℝ)) : EffectDistortion ℝ :=
  blocks.foldl (fun e b => (ProcessBlock realMath 1024 e b).1) param2Start

/-- The effect of `staleStart` with a real-time instance added. -/
noncomputable def shareStart : EffectDistortion ℝ :=
  RealtimeAddProcessor realMath 1024 (RealtimeInitialize staleStart) 44100

/-- After `shareStart`: the `param1` slider moves to 0 and the master processes one sample. -/
noncomputable def shareFirst : EffectDistortion ℝ :=
  (ProcessBlock realMath 1024 (OnParam1Slider shareStart 0) [0]).1

/-- After `shareFirst`: the `param1` slider moves to 100. -/
noncomputable def shareEdit : EffectDistortion ℝ := OnParam1Slider shareFirst 100

/-- The effect after the constructor at sample rate 0, the preset "Full-wave Rectifier
(DC blocked)" and `ProcessInitialize`. -/
noncomputable def dcZero : EffectDistortion ℝ :=
  ProcessInitialize realMath 1024 (LoadFactoryPreset realMath (EffectDistortion.new realMath 0) 18).1

/-- The effect after the constructor, the preset "3rd Harmonic (Perfect Fifth)", a move of
the `param1` slider to 0 and `ProcessInitialize`. -/
noncomputable def cubicStart : EffectDistortion ℝ :=
  ProcessInitialize realMath 1024
    (OnParam1Slider (LoadFactoryPreset realMath (EffectDistortion.new realMath 44100) 7).1 0)

/-- The effect after the constructor (HardClip, -6 dB, `param1 = 50`) and
`ProcessInitialize`. -/
noncomputable def hardStart : EffectDistortion ℝ :=
  ProcessInitialize realMath 1024 (EffectDistortion.new realMath 44100)

/-- The effect after the constructor, a move of the `param1` slider to 0 and
`ProcessInitialize`: HardClip at -6 dB without pre-gain. -/
noncomputable def hardPlain : EffectDistortion ℝ :=
  ProcessInitialize realMath 1024 (OnParam1Slider (EffectDistortion.new realMath 44100) 0)

/-- The effect of `staleStart` after a move of the `param1` slider from 50 to 100. -/
noncomputable def emptyEdit : EffectDistortion ℝ := OnParam1Slider staleStart 100

/-- What `ProcessBlock` returns for `emptyEdit` and a block of length 0. -/
noncomputable def emptyBlock : EffectDistortion ℝ × List (Option ℝ) × Nat :=
  ProcessBlock realMath 1024 emptyEdit []

/-- The effect after the constructor, a successful `SetAutomationParameters` that delivers
the values of the preset "Hard clip -12dB, 80% make-up gain", and `ProcessInitialize`. -/
noncomputable def automationStart : EffectDistortion ℝ :=
  ProcessInitialize realMath 1024
    (SetAutomationParameters (EffectDistortion.new realMath 44100)
      (some (preset 0 false (-12) (-70) 0 80 0))).1

/-- The effect after the constructor, `LoadFactoryPreset(0)` ("Hard clip -12dB, 80% make-up
gain") and `ProcessInitialize`. -/
noncomputable def presetStart : EffectDistortion ℝ :=
  ProcessInitialize realMath 1024 (LoadFactoryPreset realMath (EffectDistortion.new realMath 44100) 0).1

/-- One whole pass of `Leveller` over the value `v`: the gain factor and the add-on value of
the segment found for `v`. -/
def levellerPass (noiseFloor v : α) : α :=
  (v * gainFactors (levellerIndex (gainLimits noiseFloor) v 6 (6 - 1))) +
    addOnValues noiseFloor (levellerIndex (gainLimits noiseFloor) v 6 (6 - 1))

/-- The fractional pass of `Leveller` over the value `v`. -/
def levellerFraction (noiseFloor fractionalPass v : α) : α :=
  v + fractionalPass *
    ((v * (gainFactors (levellerIndex (gainLimits noiseFloor) v 6 (6 - 1)) - 1)) +
      addOnValues noiseFloor (levellerIndex (gainLimits noiseFloor) v 6 (6 - 1)))

/-- The value `Leveller` leaves in `mTable[n]` for `n` in the positive half: `numPasses` whole
passes over `(n - STEPS)/STEPS`, then the fractional pass if it is worth it. -/
def levellerEntry (noiseFloor : α) (numPasses : Nat) (fractionalPass : α) (STEPS n : Nat) : α :=
  if fractionalPass > 1 / 1000 then
    levellerFraction noiseFloor fractionalPass
      ((levellerPass noiseFloor)^[numPasses] ((((n - STEPS : Nat) : α)) / (STEPS : α)))
  else (levellerPass noiseFloor)^[numPasses] ((((n - STEPS : Nat) : α)) / (STEPS : α))

end Closed

/-! ## Loops and table generators -/

section Lemmas

set_option linter.unusedSectionVars false

variable {α : Type} [LinearOrderedField α] [FloorRing α]

theorem forLoop_succ_hi {σ : Type} (lo hi : Nat) (body : Nat → σ → σ) (s : σ) (h : lo ≤ hi) :
    forLoop lo (hi + 1) body s = body hi (forLoop lo hi body s) := by
  unfold forLoop
  have : hi + 1 - lo = (hi - lo) + 1 := by omega
  rw [this, List.range'_concat, List.foldl_append]
  simp
  congr 1
  omega

theorem forLoop_empty {σ : Type} (lo hi : Nat) (body : Nat → σ → σ) (s : σ) (h : hi ≤ lo) :
    forLoop lo hi body s = s := by
  unfold forLoop
  have : hi - lo = 0 := by omega
  rw [this]; rfl

theorem forLoop_induct {σ : Type} (P : Nat → σ → Prop) (lo hi : Nat) (body : Nat → σ → σ) (s : σ)
    (hle : lo ≤ hi) (h0 : P lo s)
    (hstep : ∀ n t, lo ≤ n → n < hi → P n t → P (n + 1) (body n t)) :
    P hi (forLoop lo hi body s) := by
  induction hi with
  | zero =>
    have : lo = 0 := by omega
    subst this
    rw [forLoop_empty _ _ _ _ (le_refl _)]; exact h0
  | succ k ih =>
    rcases Nat.eq_or_lt_of_le hle with h | h
    · subst h
      rw [forLoop_empty _ _ _ _ (le_refl _)]; exact h0
    · have hk : lo ≤ k := by omega
      rw [forLoop_succ_hi _ _ _ _ hk]
      apply hstep k _ hk (by omega)
      exact ih hk (fun n t h1 h2 h3 => hstep n t h1 (by omega) h3)

/-- A property every iteration keeps holds after the loop. -/
theorem forLoop_preserve {σ : Type} (R : σ → Prop) (lo hi : Nat) (body : Nat → σ → σ) (s : σ)
    (h0 : R s) (hstep : ∀ n t, R t → R (body n t)) : R (forLoop lo hi body s) := by
  unfold forLoop
  generalize List.range' lo (hi - lo) = l
  induction l generalizing s with
  | nil => exact h0
  | cons a l ih => exact ih _ (hstep a s h0)

theorem SameConfig.refl (e : EffectDistortion α) : SameConfig e e :=
  ⟨rfl, rfl, rfl, rfl, rfl⟩

theorem SameConfig.setTable {e e' : EffectDistortion α} (h : SameConfig e e') (n : Nat) (v : α) :
    SameConfig e (e'.setTable n v) := h

theorem SameConfig.trans {e e' e'' : EffectDistortion α} (h : SameConfig e e')
    (h' : SameConfig e' e'') : SameConfig e e'' :=
  ⟨h'.1.trans h.1, h'.2.1.trans h.2.1, h'.2.2.1.trans h.2.2.1, h'.2.2.2.1.trans h.2.2.2.1,
    h'.2.2.2.2.trans h.2.2.2.2⟩

theorem CopyHalfTable_config (STEPS : Nat) (e : EffectDistortion α) :
    SameConfig e (CopyHalfTable STEPS e) := by
  unfold CopyHalfTable
  exact forLoop_preserve (fun s : EffectDistortion α × Int => SameConfig e s.1) _ _ _ _
    (SameConfig.refl e) (fun n t h => h.setTable _ _)

theorem HardClip_config (STEPS : Nat) (e : EffectDistortion α) :
    SameConfig e (HardClip STEPS e) := by
  unfold HardClip
  refine forLoop_preserve (fun s : EffectDistortion α => SameConfig e s) _ _ _ _
    (SameConfig.refl e) (fun n t h => ?_)
  simp only []
  split_ifs <;> exact h

theorem SoftClip_config (M : MathFns α) (STEPS : Nat) (e : EffectDistortion α) :
    SameConfig e (SoftClip M STEPS e) := by
  unfold SoftClip
  refine SameConfig.trans ?_ (CopyHalfTable_config _ _)
  refine forLoop_preserve (fun s : EffectDistortion α => SameConfig e s) _ _ _ _
    (SameConfig.refl e) (fun n t h => ?_)
  simp only []
  split_ifs <;> exact h

theorem ExponentialTable_config (M : MathFns α) (STEPS : Nat) (e : EffectDistortion α) :
    SameConfig e (ExponentialTable M STEPS e) := by
  unfold ExponentialTable
  refine SameConfig.trans ?_ (CopyHalfTable_config _ _)
  exact forLoop_preserve (fun s : EffectDistortion α => SameConfig e s) _ _ _ _
    (SameConfig.refl e) (fun n t h => h)

theorem LogarithmicTable_config (M : MathFns α) (STEPS : Nat) (e : EffectDistortion α) :
    SameConfig e (LogarithmicTable M STEPS e) := by
  unfold LogarithmicTable
  refine SameConfig.trans ?_ (CopyHalfTable_config _ _)
  split_ifs
  · exact forLoop_preserve (fun s : EffectDistortion α × α => SameConfig e s.1) _ _ _ _
      (SameConfig.refl e) (fun n t h => h)
  · exact forLoop_preserve (fun s : EffectDistortion α × α => SameConfig e s.1) _ _ _ _
      (SameConfig.refl e) (fun n t h => h)

theorem HalfSinTable_config (M : MathFns α) (STEPS : Nat) (e : EffectDistortion α) :
    SameConfig e (HalfSinTable M STEPS e) := by
  unfold HalfSinTable
  refine SameConfig.trans ?_ (CopyHalfTable_config _ _)
  refine forLoop_preserve (fun s : EffectDistortion α × α => SameConfig e s.1) _ _ _ _
    (SameConfig.refl e) (fun n t h => ?_)
  exact forLoop_preserve (fun s : EffectDistortion α => SameConfig e s) _ _ _ _
    h (fun n t h => h)

theorem SineTable_config (M : MathFns α) (STEPS : Nat) (e : EffectDistortion α) :
    SameConfig e (SineTable M STEPS e) := by
  unfold SineTable
  refine SameConfig.trans ?_ (CopyHalfTable_config _ _)
  refine forLoop_preserve (fun s : EffectDistortion α × α => SameConfig e s.1) _ _ _ _
    (SameConfig.refl e) (fun n t h => ?_)
  exact forLoop_preserve (fun s : EffectDistortion α => SameConfig e s) _ _ _ _
    h (fun n t h => h)

theorem CubicTable_config (M : MathFns α) (STEPS : Nat) (e : EffectDistortion α) :
    SameConfig e (CubicTable M STEPS e) := by
  unfold CubicTable
  simp only []
  split_ifs
  · exact forLoop_preserve (fun s : EffectDistortion α => SameConfig e s) _ _ _ _
      (SameConfig.refl e) (fun n t h => h)
  · refine forLoop_preserve (fun s : EffectDistortion α × α => SameConfig e s.1) _ _ _ _
      (SameConfig.refl e) (fun n t h => ?_)
    exact forLoop_preserve (fun s : EffectDistortion α => SameConfig e s) _ _ _ _
      h (fun n t h => h)

theorem EvenHarmonicTable_config (M : MathFns α) (STEPS : Nat) (e : EffectDistortion α) :
    SameConfig e (EvenHarmonicTable M STEPS e) := by
  unfold EvenHarmonicTable
  exact forLoop_preserve (fun s : EffectDistortion α × α => SameConfig e s.1) _ _ _ _
    (SameConfig.refl e) (fun n t h => h)

theorem Leveller_config (M : MathFns α) (STEPS : Nat) (e : EffectDistortion α) :
    SameConfig e (Leveller M STEPS e) := by
  unfold Leveller
  refine SameConfig.trans ?_ (CopyHalfTable_config _ _)
  refine forLoop_preserve (fun s : EffectDistortion α => SameConfig e s) _ _ _ _
    (SameConfig.refl e) (fun n t h => ?_)
  have h2 : SameConfig e (forLoop 0 e.mParams.mRepeats.toNat
      (fun _ (e' : EffectDistortion α) =>
        let index := levellerIndex (gainLimits (DB_TO_LINEAR M e.mParams.mNoiseFloor))
          (e'.mTable n) 6 (6 - 1)
        e'.setTable n ((e'.mTable n * gainFactors index) +
          addOnValues (DB_TO_LINEAR M e.mParams.mNoiseFloor) index)) (t.setTable n
            ((((n - STEPS : Nat) : α)) / (STEPS : α)))) :=
    forLoop_preserve (fun s : EffectDistortion α => SameConfig e s) _ _ _ _
      h (fun n t h => h)
  simp only []
  split_ifs
  · exact h2
  · exact h2

theorem Rectifier_config (STEPS : Nat) (e : EffectDistortion α) :
    SameConfig e (Rectifier STEPS e) := by
  unfold Rectifier
  refine forLoop_preserve (fun s : EffectDistortion α × Int => SameConfig e s.1) _ _ _ _
    ?_ (fun n t h => h)
  exact forLoop_preserve (fun s : EffectDistortion α × Int => SameConfig e s.1) _ _ _ _
    (SameConfig.refl e) (fun n t h => h)

theorem MakeTable_config (M : MathFns α) (STEPS : Nat) (e : EffectDistortion α) :
    SameConfig e (MakeTable M STEPS e) := by
  unfold MakeTable
  split
  · exact HardClip_config _ _
  · exact SoftClip_config _ _ _
  · exact HalfSinTable_config _ _ _
  · exact ExponentialTable_config _ _ _
  · exact LogarithmicTable_config _ _ _
  · exact CubicTable_config _ _ _
  · exact EvenHarmonicTable_config _ _ _
  · exact SineTable_config _ _ _
  · exact Leveller_config _ _ _
  · exact Rectifier_config _ _
  · exact HardClip_config _ _
  · exact SameConfig.refl _

/-- A loop that stores `f n` in `mTable[n]` for `lo ≤ n < hi`. -/
theorem forLoop_setTable (lo hi : Nat) (f : Nat → α) (e : EffectDistortion α) (hle : lo ≤ hi) :
    forLoop lo hi (fun n (e : EffectDistortion α) => e.setTable n (f n)) e =
      { e with mTable := fun i => if lo ≤ i ∧ i < hi then f i else e.mTable i } := by
  refine forLoop_induct
    (fun n (s : EffectDistortion α) =>
      s = { e with mTable := fun i => if lo ≤ i ∧ i < n then f i else e.mTable i })
    lo hi _ e hle ?_ ?_
  · rcases e with ⟨a, b, c, t, d, g, h⟩
    simp only [EffectDistortion.mk.injEq, and_true, true_and]
    funext i
    rw [if_neg (by omega)]
  · rintro n t hn1 hn2 ht
    subst ht
    simp only [EffectDistortion.setTable]
    congr 1
    funext i
    by_cases hi : i = n
    · subst hi
      simp [hn1]
    · rw [Function.update_noteq hi]
      by_cases h2 : lo ≤ i ∧ i < n
      · rw [if_pos h2, if_pos (by omega)]
      · rw [if_neg h2, if_neg (by omega)]

theorem HardClip_eq (STEPS : Nat) (e : EffectDistortion α) :
    HardClip STEPS e =
      { e with
        mTable := fun i => if i ≤ 2 * STEPS then hardClipEntry STEPS e.mThreshold i else e.mTable i
        mMakeupGain := 1 / e.mThreshold } := by
  unfold HardClip
  have h := forLoop_induct
    (fun n (s : EffectDistortion α) =>
      s = { e with
            mTable := fun i => if i < n then hardClipEntry STEPS e.mThreshold i else e.mTable i
            mMakeupGain := if n = 0 then e.mMakeupGain else 1 / e.mThreshold })
    0 (TABLESIZE STEPS)
    (fun n (e' : EffectDistortion α) =>
      let e1 :=
        if (n : α) < (STEPS : α) * (1 - e.mThreshold) then e'.setTable n (-e'.mThreshold)
        else if (n : α) > (STEPS : α) * (1 + e.mThreshold) then e'.setTable n e'.mThreshold
        else e'.setTable n ((n : α) / (STEPS : α) - 1)
      { e1 with mMakeupGain := 1 / e1.mThreshold })
    e (Nat.zero_le _)
    (by
      rcases e with ⟨a, b, c, t, d, g, h⟩
      simp)
    (by
      rintro n t _ hn2 ht
      subst ht
      have hth : ∀ (x : EffectDistortion α) (v : α), (x.setTable n v).mThreshold = x.mThreshold :=
        fun _ _ => rfl
      simp only []
      have key : ∀ v : α, v = hardClipEntry STEPS e.mThreshold n →
          ({ (({ e with
              mTable := fun i => if i < n then hardClipEntry STEPS e.mThreshold i else e.mTable i
              mMakeupGain := if n = 0 then e.mMakeupGain else 1 / e.mThreshold } :
              EffectDistortion α).setTable n v) with mMakeupGain := 1 / e.mThreshold } :
              EffectDistortion α) =
          { e with
            mTable := fun i => if i < n + 1 then hardClipEntry STEPS e.mThreshold i else e.mTable i
            mMakeupGain := if n + 1 = 0 then e.mMakeupGain else 1 / e.mThreshold } := by
        intro v hv
        simp only [EffectDistortion.setTable, Nat.succ_ne_zero, if_false]
        congr 1
        funext i
        by_cases hi : i = n
        · subst hi
          simp [hv]
        · rw [Function.update_noteq hi]
          by_cases h2 : i < n
          · rw [if_pos h2, if_pos (by omega)]
          · rw [if_neg h2, if_neg (by omega)]
      by_cases c1 : (n : α) < (STEPS : α) * (1 - e.mThreshold)
      · rw [if_pos c1]
        exact key _ (by simp [hardClipEntry, c1])
      · rw [if_neg c1]
        by_cases c2 : (n : α) > (STEPS : α) * (1 + e.mThreshold)
        · rw [if_pos c2]
          exact key _ (by simp [hardClipEntry, c1, c2])
        · rw [if_neg c2]
          exact key _ (by simp [hardClipEntry, c1, c2]))
  simp only [] at h
  rw [h]
  simp only [TABLESIZE, Nat.succ_ne_zero, if_false]
  congr 1
  funext i
  by_cases h2 : i < 2 * STEPS + 1
  · rw [if_pos h2, if_pos (by omega)]
  · rw [if_neg h2, if_neg (by omega)]

theorem CubicTable_zero (M : MathFns α) (STEPS : Nat) (e : EffectDistortion α)
    (h : e.mParams.mParam1 = 0) :
    CubicTable M STEPS e =
      { e with mTable := fun i => if i ≤ 2 * STEPS then (i : α) / (STEPS : α) - 1 else e.mTable i } := by
  unfold CubicTable
  have h0 : e.mParams.mParam1 * M.sqrt 3 / 100 = 0 := by rw [h]; simp
  simp only [h0, if_true]
  rw [forLoop_setTable 0 (TABLESIZE STEPS) (fun i => (i : α) / (STEPS : α) - 1) e (Nat.zero_le _)]
  congr 1
  funext i
  simp only [TABLESIZE]
  by_cases h2 : i ≤ 2 * STEPS
  · rw [if_pos h2, if_pos (by omega)]
  · rw [if_neg h2, if_neg (by omega)]

theorem Rectifier_eq (STEPS : Nat) (e : EffectDistortion α) :
    Rectifier STEPS e =
      { e with mTable := fun i =>
          if i ≤ 2 * STEPS then rectifierEntry STEPS e.mParams.mParam1 i else e.mTable i } := by
  unfold Rectifier
  simp only []
  -- first loop
  have h1 := forLoop_induct
    (fun n (s : EffectDistortion α × Int) =>
      s.2 = (STEPS : Int) + n ∧
      s.1 = { e with mTable := fun i =>
          if STEPS ≤ i ∧ i < STEPS + n then rectifierEntry STEPS e.mParams.mParam1 i
          else e.mTable i })
    0 (STEPS + 1)
    (fun n (s : EffectDistortion α × Int) =>
      (s.1.setTable s.2.toNat ((n : α) * (1 / (STEPS : α))), s.2 + 1))
    (e, (STEPS : Int)) (Nat.zero_le _)
    (by
      refine ⟨by simp, ?_⟩
      rcases e with ⟨a, b, c, t, d, f, g⟩
      simp only [EffectDistortion.mk.injEq, and_true, true_and]
      funext i
      have : ¬ (STEPS ≤ i ∧ i < STEPS + 0) := by omega
      rw [if_neg this])
    (by
      rintro n ⟨t, k⟩ _ hn ⟨hk, ht⟩
      simp only at hk ht
      subst hk ht
      refine ⟨by push_cast; ring, ?_⟩
      simp only [EffectDistortion.setTable]
      congr 1
      funext i
      have hidx : ((STEPS : Int) + (n : Int)).toNat = STEPS + n := by omega
      rw [hidx]
      by_cases hi : i = STEPS + n
      · subst hi
        simp [rectifierEntry]
      · rw [Function.update_noteq hi]
        by_cases h2 : STEPS ≤ i ∧ i < STEPS + n
        · rw [if_pos h2, if_pos ⟨h2.1, by omega⟩]
        · rw [if_neg h2, if_neg (by omega)])
  obtain ⟨h1a, h1b⟩ := h1
  -- second loop
  have h2 := forLoop_induct
    (fun n (s : EffectDistortion α × Int) =>
      s.2 = (STEPS : Int) - n ∧
      s.1 = { e with mTable := fun i =>
          if STEPS < i + n ∧ i ≤ 2 * STEPS then rectifierEntry STEPS e.mParams.mParam1 i
          else e.mTable i })
    1 (STEPS + 1)
    (fun n (s : EffectDistortion α × Int) =>
      (s.1.setTable s.2.toNat ((n : α) * (1 / (STEPS : α)) * (e.mParams.mParam1 / 50 - 1)), s.2 - 1))
    ((forLoop 0 (STEPS + 1)
      (fun n (s : EffectDistortion α × Int) =>
        (s.1.setTable s.2.toNat ((n : α) * (1 / (STEPS : α))), s.2 + 1))
      (e, (STEPS : Int))).1, (STEPS : Int) - 1) (by omega)
    (by
      refine ⟨by simp, ?_⟩
      simp only [h1b]
      congr 1
      funext i
      by_cases h : STEPS ≤ i ∧ i < STEPS + (STEPS + 1)
      · rw [if_pos h, if_pos (by omega)]
      · rw [if_neg h, if_neg (by omega)])
    (by
      rintro n ⟨t, k⟩ hn1 hn ⟨hk, ht⟩
      simp only at hk ht
      subst hk ht
      refine ⟨by push_cast; ring, ?_⟩
      simp only [EffectDistortion.setTable]
      congr 1
      funext i
      have hidx : ((STEPS : Int) - (n : Int)).toNat = STEPS - n := by omega
      rw [hidx]
      by_cases hi : i = STEPS - n
      · subst hi
        have hlt : ¬ STEPS ≤ STEPS - n := by omega
        have e1 : STEPS - (STEPS - n) = n := by omega
        simp only [Function.update_same, rectifierEntry, if_neg hlt, e1]
        rw [if_pos (by omega)]
      · rw [Function.update_noteq hi]
        by_cases h2 : STEPS < i + n ∧ i ≤ 2 * STEPS
        · rw [if_pos h2, if_pos (by omega)]
        · rw [if_neg h2, if_neg (by omega)])
  obtain ⟨h2a, h2b⟩ := h2
  rw [h2b]
  congr 1
  funext i
  by_cases h : i ≤ 2 * STEPS
  · rw [if_pos h, if_pos (by omega)]
  · rw [if_neg h, if_neg (by omega)]

/-! ## Waveshaper -/

theorem WaveShaperIndex_nonneg (STEPS : Nat) (e : EffectDistortion α) (sample : α) :
    0 ≤ WaveShaperIndex STEPS e sample := by
  unfold WaveShaperIndex
  exact le_max_right _ _

theorem WaveShaperIndex_le (STEPS : Nat) (hS : 0 < STEPS) (e : EffectDistortion α) (sample : α) :
    WaveShaperIndex STEPS e sample ≤ 2 * (STEPS : Int) - 1 := by
  unfold WaveShaperIndex
  apply max_le
  · exact min_le_right _ _
  · omega

theorem WaveShaperOffset_mem (STEPS : Nat) (e : EffectDistortion α) (sample : α) :
    0 ≤ WaveShaperOffset STEPS e sample ∧ WaveShaperOffset STEPS e sample ≤ 1 := by
  unfold WaveShaperOffset
  constructor
  · exact le_min (le_max_right _ _) zero_le_one
  · exact min_le_right _ _

/-- Above full scale the index is the last one and the offset is 1. -/
theorem WaveShaper_high (STEPS : Nat) (hS : 0 < STEPS) (e : EffectDistortion α) (sample : α)
    (h : 1 ≤ WaveShaperSample e sample) :
    WaveShaperIndex STEPS e sample = 2 * (STEPS : Int) - 1 ∧
      WaveShaperOffset STEPS e sample = 1 := by
  have hSα : (0 : α) < (STEPS : α) := by exact_mod_cast hS
  have hidx : WaveShaperIndex STEPS e sample = 2 * (STEPS : Int) - 1 := by
    unfold WaveShaperIndex
    have h1 : (STEPS : Int) ≤ Int.floor (WaveShaperSample e sample * (STEPS : α)) := by
      rw [Int.le_floor]
      push_cast
      nlinarith
    simp only []
    rw [min_eq_right (by omega), max_eq_left (by omega)]
  refine ⟨hidx, ?_⟩
  unfold WaveShaperOffset
  simp only []
  rw [hidx]
  push_cast
  have h2 : (1 : α) ≤ (1 + WaveShaperSample e sample) * (STEPS : α) - (2 * (STEPS : α) - 1) := by
    nlinarith
  rw [max_eq_left (le_trans zero_le_one h2), min_eq_right h2]

theorem WaveShaper_low (STEPS : Nat) (hS : 0 < STEPS) (e : EffectDistortion α) (sample : α)
    (h : WaveShaperSample e sample ≤ -1) :
    WaveShaperIndex STEPS e sample = 0 ∧ WaveShaperOffset STEPS e sample = 0 := by
  have hSα : (0 : α) < (STEPS : α) := by exact_mod_cast hS
  have hidx : WaveShaperIndex STEPS e sample = 0 := by
    unfold WaveShaperIndex
    have h1 : Int.floor (WaveShaperSample e sample * (STEPS : α)) ≤ -(STEPS : Int) := by
      have : Int.floor (WaveShaperSample e sample * (STEPS : α)) ≤ Int.floor (-(STEPS : α)) := by
        apply Int.floor_le_floor
        nlinarith
      have h3 : Int.floor (-(STEPS : α)) = -(STEPS : Int) := by
        have : (-(STEPS : α)) = ((-(STEPS : Int) : Int) : α) := by push_cast; rfl
        rw [this, Int.floor_intCast]
      omega
    simp only []
    rw [min_eq_left (by omega), max_eq_right (by omega)]
  refine ⟨hidx, ?_⟩
  unfold WaveShaperOffset
  simp only []
  rw [hidx]
  push_cast
  have h2 : (1 + WaveShaperSample e sample) * (STEPS : α) - 0 ≤ 0 := by nlinarith
  rw [max_eq_right h2, min_eq_left zero_le_one]

/-- At a knot below full scale the index is the knot and the offset is 0. -/
theorem WaveShaper_knot (STEPS : Nat) (hS : 0 < STEPS) (e : EffectDistortion α) (sample : α)
    (j : Nat) (hj : j < 2 * STEPS) (h : WaveShaperSample e sample = (j : α) / (STEPS : α) - 1) :
    WaveShaperIndex STEPS e sample = (j : Int) ∧ WaveShaperOffset STEPS e sample = 0 := by
  have hSα : (0 : α) < (STEPS : α) := by exact_mod_cast hS
  have hmul : WaveShaperSample e sample * (STEPS : α) = (((j : Int) - (STEPS : Int) : Int) : α) := by
    rw [h]; push_cast; field_simp
  have hidx : WaveShaperIndex STEPS e sample = (j : Int) := by
    unfold WaveShaperIndex
    simp only []
    rw [hmul, Int.floor_intCast]
    rw [min_eq_left (by omega), max_eq_left (by omega)]
    ring
  refine ⟨hidx, ?_⟩
  unfold WaveShaperOffset
  simp only []
  rw [hidx, h]
  have : (1 + ((j : α) / (STEPS : α) - 1)) * (STEPS : α) - (((j : Int) : Int) : α) = 0 := by
    push_cast; field_simp
  rw [this]
  simp

/-! ## Block driver -/

/-- `DCFilter` writes only the running total and the queue. -/
theorem DCFilter_frame (d : EffectDistortionState α) (x : α) :
    ∃ q t, (DCFilter d x).1 = { d with queuesamples := q, queuetotal := t } := by
  unfold DCFilter
  simp only []
  split_ifs with h
  · cases hq : d.queuesamples ++ [x] with
    | nil => simp at hq
    | cons a l => exact ⟨_, _, rfl⟩
  · exact ⟨_, _, rfl⟩

theorem refresh_clean (M : MathFns α) (STEPS : Nat)
    (s : EffectDistortion α × EffectDistortionState α) :
    InstanceProcess.refresh M STEPS false s = s := by
  simp [InstanceProcess.refresh]

theorem refresh_dirty (M : MathFns α) (STEPS : Nat)
    (s : EffectDistortion α × EffectDistortionState α) :
    InstanceProcess.refresh M STEPS true s =
      (if s.2.skipcount % skipsamples = 0 then MakeTable M STEPS s.1 else s.1,
        { s.2 with skipcount := s.2.skipcount + 1 }) := by
  simp only [InstanceProcess.refresh, if_true]
  split_ifs <;> rfl

/-- The effect, skip counter and output length after one iteration of the sample loop. -/
theorem step_spec (M : MathFns α) (STEPS : Nat) (update : Bool) (p1 p2 : α)
    (s : EffectDistortion α × EffectDistortionState α × List (Option α)) (x : α) :
    (InstanceProcess.step M STEPS update p1 p2 s x).1 =
        (InstanceProcess.refresh M STEPS update (s.1, s.2.1)).1 ∧
      (∃ q t, (InstanceProcess.step M STEPS update p1 p2 s x).2.1 =
        { (InstanceProcess.refresh M STEPS update (s.1, s.2.1)).2 with
          queuesamples := q, queuetotal := t }) ∧
      ∃ o, (InstanceProcess.step M STEPS update p1 p2 s x).2.2 = s.2.2 ++ [o] := by
  unfold InstanceProcess.step
  simp only []
  split_ifs with h
  · refine ⟨rfl, ?_, _, rfl⟩
    exact DCFilter_frame _ _
  · exact ⟨rfl, ⟨_, _, rfl⟩, _, rfl⟩

theorem refresh_config (M : MathFns α) (STEPS : Nat) (update : Bool)
    (s : EffectDistortion α × EffectDistortionState α) :
    SameConfig s.1 (InstanceProcess.refresh M STEPS update s).1 := by
  unfold InstanceProcess.refresh
  split_ifs
  · exact MakeTable_config _ _ _
  · exact SameConfig.refl _
  · exact SameConfig.refl _

/-- Without DC blocking an iteration leaves the queue alone. -/
theorem step_nodc (M : MathFns α) (STEPS : Nat) (update : Bool) (p1 p2 : α)
    (s : EffectDistortion α × EffectDistortionState α × List (Option α)) (x : α)
    (h : s.1.mParams.mDCBlock = false) :
    InstanceProcess.step M STEPS update p1 p2 s x =
      ((InstanceProcess.refresh M STEPS update (s.1, s.2.1)).1,
       (InstanceProcess.refresh M STEPS update (s.1, s.2.1)).2,
       s.2.2 ++ [some (InstanceProcess.shape STEPS p1 p2
          (InstanceProcess.refresh M STEPS update (s.1, s.2.1)).1 x)]) := by
  have hc := (refresh_config M STEPS update (s.1, s.2.1)).1
  unfold InstanceProcess.step
  simp only []
  rw [hc, h]
  simp

theorem step_config (M : MathFns α) (STEPS : Nat) (update : Bool) (p1 p2 : α)
    (s : EffectDistortion α × EffectDistortionState α × List (Option α)) (x : α) :
    SameConfig s.1 (InstanceProcess.step M STEPS update p1 p2 s x).1 := by
  rw [(step_spec M STEPS update p1 p2 s x).1]
  exact refresh_config M STEPS update (s.1, s.2.1)

theorem fold_config (M : MathFns α) (STEPS : Nat) (update : Bool) (p1 p2 : α) (ibuf : List α)
    (s : EffectDistortion α × EffectDistortionState α × List (Option α)) :
    SameConfig s.1 (ibuf.foldl (InstanceProcess.step M STEPS update p1 p2) s).1 := by
  induction ibuf generalizing s with
  | nil => exact SameConfig.refl _
  | cons x xs ih => exact (step_config M STEPS update p1 p2 s x).trans (ih _)

/-- A block processed with `update = false` and no DC blocking changes nothing but
the output buffer. -/
theorem fold_clean_nodc (M : MathFns α) (STEPS : Nat) (p1 p2 : α) (ibuf : List α)
    (s : EffectDistortion α × EffectDistortionState α × List (Option α))
    (h : s.1.mParams.mDCBlock = false) :
    (ibuf.foldl (InstanceProcess.step M STEPS false p1 p2) s).1 = s.1 ∧
      (ibuf.foldl (InstanceProcess.step M STEPS false p1 p2) s).2.1 = s.2.1 := by
  induction ibuf generalizing s with
  | nil => exact ⟨rfl, rfl⟩
  | cons x xs ih =>
    rw [List.foldl_cons, step_nodc M STEPS false p1 p2 s x h, refresh_clean]
    have := ih (s.1, s.2.1, s.2.2 ++ [some (InstanceProcess.shape STEPS p1 p2 s.1 x)]) h
    exact this

/-- A block processed with `update = false`: the effect, the skip counter and the
cached parameters stay as they are. -/
theorem fold_clean (M : MathFns α) (STEPS : Nat) (p1 p2 : α) (ibuf : List α)
    (s : EffectDistortion α × EffectDistortionState α × List (Option α)) :
    (ibuf.foldl (InstanceProcess.step M STEPS false p1 p2) s).1 = s.1 ∧
      ∃ q t, (ibuf.foldl (InstanceProcess.step M STEPS false p1 p2) s).2.1 =
        { s.2.1 with queuesamples := q, queuetotal := t } := by
  induction ibuf generalizing s with
  | nil => exact ⟨rfl, _, _, rfl⟩
  | cons x xs ih =>
    rw [List.foldl_cons]
    obtain ⟨h1, ⟨q, t, h2⟩, -⟩ := step_spec M STEPS false p1 p2 s x
    rw [refresh_clean] at h1 h2
    obtain ⟨h3, q', t', h4⟩ := ih (InstanceProcess.step M STEPS false p1 p2 s x)
    refine ⟨h3.trans h1, q', t', ?_⟩
    rw [h4, h2]

/-- A block processed with `update = true`: every sample advances the skip counter,
and the effect is untouched as long as the counter meets no multiple of
`skipsamples`. -/
theorem fold_dirty (M : MathFns α) (STEPS : Nat) (p1 p2 : α) (ibuf : List α)
    (s : EffectDistortion α × EffectDistortionState α × List (Option α)) :
    (ibuf.foldl (InstanceProcess.step M STEPS true p1 p2) s).2.1.skipcount =
        s.2.1.skipcount + ibuf.length ∧
      ((∀ i, i < ibuf.length → (s.2.1.skipcount + i) % skipsamples ≠ 0) →
        (ibuf.foldl (InstanceProcess.step M STEPS true p1 p2) s).1 = s.1) := by
  induction ibuf generalizing s with
  | nil => exact ⟨rfl, fun _ => rfl⟩
  | cons x xs ih =>
    rw [List.foldl_cons]
    obtain ⟨h1, ⟨q, t, h2⟩, -⟩ := step_spec M STEPS true p1 p2 s x
    rw [refresh_dirty] at h1 h2
    obtain ⟨h3, h4⟩ := ih (InstanceProcess.step M STEPS true p1 p2 s x)
    have hsk : (InstanceProcess.step M STEPS true p1 p2 s x).2.1.skipcount =
        s.2.1.skipcount + 1 := by rw [h2]
    refine ⟨?_, fun hall => ?_⟩
    · rw [h3, hsk, List.length_cons]; omega
    · have h0 := hall 0 (by simp)
      rw [Nat.add_zero] at h0
      rw [h4 ?_, h1]
      · simp only [h0, if_false]
      · intro i hi
        rw [hsk]
        have := hall (i + 1) (by simpa using hi)
        rwa [Nat.add_assoc, Nat.add_comm 1 i]

/-- A Dirty block: no rebuild before the skip counter meets a multiple of `skipsamples`,
a rebuild from the live parameters at the first sample where it does. -/
theorem InstanceProcess_dirty (M : MathFns α) (STEPS : Nat) (e : EffectDistortion α)
    (data : EffectDistortionState α) (pre : List α) (x : α)
    (hu : InstanceProcess.update e data = true)
    (hpre : ∀ i, i < pre.length → (data.skipcount + i) % skipsamples ≠ 0) :
    (InstanceProcess M STEPS e data pre).effect = e ∧
      ((data.skipcount + pre.length) % skipsamples = 0 →
        (InstanceProcess M STEPS e data (pre ++ [x])).effect = MakeTable M STEPS e) ∧
      ((data.skipcount + pre.length) % skipsamples ≠ 0 →
        (InstanceProcess M STEPS e data (pre ++ [x])).effect = e) := by
  unfold InstanceProcess
  simp only [hu]
  obtain ⟨hsk, heff⟩ := fold_dirty M STEPS (e.mParams.mParam1 / 100) (e.mParams.mParam2 / 100) pre
    (e, InstanceProcess.cache e data, [])
  have heff' := heff hpre
  simp only [] at heff' hsk
  have hsk' : (List.foldl
      (InstanceProcess.step M STEPS true (e.mParams.mParam1 / 100) (e.mParams.mParam2 / 100))
      (e, InstanceProcess.cache e data, []) pre).2.1.skipcount = data.skipcount + pre.length := hsk
  refine ⟨heff', ?_, ?_⟩
  · intro h0
    rw [List.foldl_append, List.foldl_cons, List.foldl_nil]
    rw [(step_spec M STEPS true _ _ _ x).1, refresh_dirty]
    simp only [hsk', h0, if_true, heff']
  · intro h0
    rw [List.foldl_append, List.foldl_cons, List.foldl_nil]
    rw [(step_spec M STEPS true _ _ _ x).1, refresh_dirty]
    simp only [hsk', h0, if_false, heff']

/-- The sample loop writes only the skip counter, the queue and its total. -/
theorem fold_frame (M : MathFns α) (STEPS : Nat) (update : Bool) (p1 p2 : α) (ibuf : List α)
    (s : EffectDistortion α × EffectDistortionState α × List (Option α)) :
    ∃ k q t, (ibuf.foldl (InstanceProcess.step M STEPS update p1 p2) s).2.1 =
      { s.2.1 with skipcount := k, queuesamples := q, queuetotal := t } := by
  induction ibuf generalizing s with
  | nil => exact ⟨_, _, _, rfl⟩
  | cons x xs ih =>
    rw [List.foldl_cons]
    obtain ⟨-, ⟨q, t, h2⟩, -⟩ := step_spec M STEPS update p1 p2 s x
    obtain ⟨k', q', t', h4⟩ := ih (InstanceProcess.step M STEPS update p1 p2 s x)
    rw [h4, h2]
    cases update
    · rw [refresh_clean]; exact ⟨_, _, _, rfl⟩
    · rw [refresh_dirty]; exact ⟨_, _, _, rfl⟩

theorem InstanceProcess_frame (M : MathFns α) (STEPS : Nat) (e : EffectDistortion α)
    (data : EffectDistortionState α) (ibuf : List α) :
    ∃ k q t, (InstanceProcess M STEPS e data ibuf).data =
      { InstanceProcess.cache e data with skipcount := k, queuesamples := q, queuetotal := t } :=
  fold_frame M STEPS _ _ _ ibuf (e, InstanceProcess.cache e data, [])

theorem InstanceProcess_config (M : MathFns α) (STEPS : Nat) (e : EffectDistortion α)
    (data : EffectDistortionState α) (ibuf : List α) :
    SameConfig e (InstanceProcess M STEPS e data ibuf).effect :=
  fold_config M STEPS _ _ _ ibuf (e, InstanceProcess.cache e data, [])

/-- After a block the comparison of live and cached parameters comes down to `param2`,
the one cached value the block does not refresh. -/
theorem update_after_InstanceProcess (M : MathFns α) (STEPS : Nat) (e : EffectDistortion α)
    (data : EffectDistortionState α) (ibuf : List α) :
    InstanceProcess.update (InstanceProcess M STEPS e data ibuf).effect
        (InstanceProcess M STEPS e data ibuf).data =
      if e.mParams.mParam2 = data.param2 then false else true := by
  obtain ⟨k, q, t, h⟩ := InstanceProcess_frame M STEPS e data ibuf
  have hc := (InstanceProcess_config M STEPS e data ibuf).1
  unfold InstanceProcess.update
  rw [h, hc]
  simp [InstanceProcess.cache]

theorem InstanceProcess_skipcount (M : MathFns α) (STEPS : Nat) (e : EffectDistortion α)
    (data : EffectDistortionState α) (ibuf : List α) :
    (InstanceProcess M STEPS e data ibuf).data.skipcount =
      if InstanceProcess.update e data = true then data.skipcount + ibuf.length
      else data.skipcount := by
  unfold InstanceProcess
  simp only []
  cases hu : InstanceProcess.update e data
  · obtain ⟨-, q, t, h⟩ := fold_clean M STEPS (e.mParams.mParam1 / 100) (e.mParams.mParam2 / 100)
      ibuf (e, InstanceProcess.cache e data, [])
    rw [h]
    simp [InstanceProcess.cache]
  · have := (fold_dirty M STEPS (e.mParams.mParam1 / 100) (e.mParams.mParam2 / 100)
      ibuf (e, InstanceProcess.cache e data, [])).1
    rw [this]
    simp [InstanceProcess.cache]

/-- A block processed with `update = false` leaves the effect as it is. -/
theorem InstanceProcess_clean (M : MathFns α) (STEPS : Nat) (e : EffectDistortion α)
    (data : EffectDistortionState α) (ibuf : List α)
    (hu : InstanceProcess.update e data = false) :
    (InstanceProcess M STEPS e data ibuf).effect = e := by
  unfold InstanceProcess
  simp only [hu]
  exact (fold_clean M STEPS _ _ ibuf (e, InstanceProcess.cache e data, [])).1

theorem ProcessBlock_params (M : MathFns α) (STEPS : Nat) (e : EffectDistortion α)
    (ibuf : List α) : (ProcessBlock M STEPS e ibuf).1.mParams = e.mParams :=
  (InstanceProcess_config M STEPS e e.mMaster ibuf).1

theorem ProcessBlock_master (M : MathFns α) (STEPS : Nat) (e : EffectDistortion α)
    (ibuf : List α) :
    (ProcessBlock M STEPS e ibuf).1.mMaster = (InstanceProcess M STEPS e e.mMaster ibuf).data :=
  rfl

theorem ProcessBlock_table (M : MathFns α) (STEPS : Nat) (e : EffectDistortion α)
    (ibuf : List α) :
    (ProcessBlock M STEPS e ibuf).1.mTable = (InstanceProcess M STEPS e e.mMaster ibuf).effect.mTable :=
  rfl

theorem MakeTable_rectifier (M : MathFns α) (STEPS : Nat) (e : EffectDistortion α)
    (h : e.mParams.mTableChoiceIndx = 9) :
    MakeTable M STEPS e =
      { e with mTable := fun i =>
          if i ≤ 2 * STEPS then rectifierEntry STEPS e.mParams.mParam1 i else e.mTable i } := by
  unfold MakeTable
  rw [h]
  simp only [kTableType.ofInt]
  norm_num
  exact Rectifier_eq STEPS e

theorem staleStart_params : staleStart.mParams = preset 9 false (-6) (-70) 50 50 0 := by
  unfold staleStart ProcessInitialize InstanceInit
  simp only []
  rw [(MakeTable_config _ _ _).1]
  simp [LoadFactoryPreset, FactoryPresets]

theorem staleStart_master :
    staleStart.mMaster.param1 = 50 ∧ staleStart.mMaster.param2 = 50 ∧
      staleStart.mMaster.skipcount = 0 ∧ staleStart.mMaster.tablechoiceindx = 9 ∧
      staleStart.mMaster.threshold = -6 ∧ staleStart.mMaster.noisefloor = -70 ∧
      staleStart.mMaster.repeats = 0 := by
  unfold staleStart ProcessInitialize InstanceInit
  simp [LoadFactoryPreset, FactoryPresets, preset]

theorem staleFirst_update :
    InstanceProcess.update (OnParam1Slider staleStart 0) (OnParam1Slider staleStart 0).mMaster = true := by
  obtain ⟨h1, h2, h3, h4, h5, h6, h7⟩ := staleStart_master
  simp [InstanceProcess.update, OnParam1Slider, staleStart_params, preset, h1]

theorem staleFirst_table : staleFirst.mTable 0 = -1 := by
  unfold staleFirst
  rw [ProcessBlock_table]
  have h := (InstanceProcess_dirty realMath 1024 (OnParam1Slider staleStart 0)
    (OnParam1Slider staleStart 0).mMaster [] 0 staleFirst_update (by simp)).2.1
  have hs : (OnParam1Slider staleStart 0).mMaster.skipcount = 0 := staleStart_master.2.2.1
  rw [List.nil_append] at h
  rw [h (by rw [hs]; rfl)]
  rw [MakeTable_rectifier _ _ _ (by simp [OnParam1Slider, staleStart_params, preset])]
  simp [rectifierEntry, OnParam1Slider]

theorem clearQueue_eq (l : List α) : clearQueue l = [] := by
  induction l with
  | nil => rfl
  | cons a l ih => exact ih

theorem DCFilter_state (d : EffectDistortionState α) (x : α) :
    (DCFilter d x).1 =
      if d.queuesamples.length + 1 > queueLength d.samplerate then
        { d with queuetotal := d.queuetotal + x - (d.queuesamples ++ [x]).headD 0
                 queuesamples := (d.queuesamples ++ [x]).tail }
      else { d with queuetotal := d.queuetotal + x, queuesamples := d.queuesamples ++ [x] } := by
  unfold DCFilter queueLength
  simp only [List.length_append, List.length_singleton]
  split_ifs with h
  · cases hq : d.queuesamples ++ [x] with
    | nil => simp at hq
    | cons a l => simp
  · rfl

theorem DCFilter_out (d : EffectDistortionState α) (x : α) :
    (DCFilter d x).2 =
      if (DCFilter d x).1.queuesamples.length = 0 then none
      else some (x - (DCFilter d x).1.queuetotal / ((DCFilter d x).1.queuesamples.length : α)) := by
  rfl

theorem DCInv_filter (sampleRate : α) (d : EffectDistortionState α) (x : α)
    (h : DCInv sampleRate d) : DCInv sampleRate (DCFilter d x).1 := by
  obtain ⟨h1, h2, h3⟩ := h
  subst h1
  rw [DCFilter_state]
  split_ifs with hlen
  · refine ⟨rfl, ?_, ?_⟩
    · simp only []
      cases hq : d.queuesamples ++ [x] with
      | nil => simp at hq
      | cons a l =>
        have hs : (d.queuesamples ++ [x]).sum = (a :: l).sum := by rw [hq]
        simp only [List.sum_append, List.sum_cons, List.sum_nil, add_zero] at hs
        simp only [List.headD_cons, List.tail_cons]
        rw [h2, hs]; ring
    · simp only [List.length_tail, List.length_append, List.length_singleton]
      omega
  · refine ⟨rfl, ?_, ?_⟩
    · simp only [List.sum_append, List.sum_cons, List.sum_nil, add_zero]
      rw [h2]
    · simp only [List.length_append, List.length_singleton]
      omega

theorem DCInv_fold (sampleRate : α) (M : MathFns α) (STEPS : Nat) (update : Bool) (p1 p2 : α)
    (ibuf : List α) (s : EffectDistortion α × EffectDistortionState α × List (Option α))
    (h : DCInv sampleRate s.2.1) :
    DCInv sampleRate (ibuf.foldl (InstanceProcess.step M STEPS update p1 p2) s).2.1 := by
  induction ibuf generalizing s with
  | nil => exact h
  | cons x xs ih =>
    rw [List.foldl_cons]
    apply ih
    have hr : DCInv sampleRate (InstanceProcess.refresh M STEPS update (s.1, s.2.1)).2 := by
      cases update
      · rw [refresh_clean]; exact h
      · rw [refresh_dirty]; exact h
    unfold InstanceProcess.step
    simp only []
    split_ifs
    · exact DCInv_filter _ _ _ hr
    · exact hr

theorem DCReachable.inv {sampleRate : α} {d : EffectDistortionState α}
    (h : DCReachable sampleRate d) : DCInv sampleRate d := by
  induction h with
  | init M STEPS e data =>
    refine ⟨rfl, ?_, ?_⟩
    · simp [InstanceInit, clearQueue_eq]
    · simp [InstanceInit, clearQueue_eq]
  | filter d x _ ih => exact DCInv_filter _ _ _ ih
  | process M STEPS e d ibuf _ ih =>
    exact DCInv_fold sampleRate M STEPS _ _ _ ibuf (e, InstanceProcess.cache e d, []) ih

/-- The divisor of `DCFilter` in a reachable state: zero for a window below 1, at least 1
otherwise. -/
theorem DCFilter_division (sampleRate : α) (d : EffectDistortionState α)
    (hd : DCReachable sampleRate d) (x : α) :
    (Int.floor (sampleRate / 20) < 1 →
        (DCFilter d x).1.queuesamples = [] ∧ (DCFilter d x).2 = none) ∧
      (1 ≤ Int.floor (sampleRate / 20) →
        1 ≤ (DCFilter d x).1.queuesamples.length ∧
        (DCFilter d x).2 =
          some (x - (DCFilter d x).1.queuetotal / ((DCFilter d x).1.queuesamples.length : α))) := by
  have hi := hd.inv
  obtain ⟨h1, h2, h3⟩ := hi
  constructor
  · intro hW
    have hW0 : queueLength sampleRate = 0 := by unfold queueLength; omega
    have hq : d.queuesamples = [] := List.eq_nil_of_length_eq_zero (by omega)
    have hst : (DCFilter d x).1.queuesamples = [] := by
      rw [DCFilter_state, h1, hW0, hq]
      simp
    refine ⟨hst, ?_⟩
    rw [DCFilter_out, hst]
    simp
  · intro hW
    have hW' : 1 ≤ queueLength sampleRate := by unfold queueLength; omega
    have hpos : 1 ≤ (DCFilter d x).1.queuesamples.length := by
      rw [DCFilter_state]
      split_ifs with hpop
      · simp only [List.length_tail, List.length_append, List.length_singleton]
        rw [h1] at hpop
        omega
      · simp
    refine ⟨hpos, ?_⟩
    rw [DCFilter_out, if_neg (by omega)]

/-- Inside the table range neither the index nor the offset is clamped. -/
theorem WaveShaper_interior (STEPS : Nat) (hS : 0 < STEPS) (e : EffectDistortion α) (sample : α)
    (h1 : -1 ≤ WaveShaperSample e sample) (h2 : WaveShaperSample e sample < 1) :
    WaveShaperIndex STEPS e sample =
        Int.floor (WaveShaperSample e sample * (STEPS : α)) + (STEPS : Int) ∧
      WaveShaperOffset STEPS e sample =
        WaveShaperSample e sample * (STEPS : α) -
          (Int.floor (WaveShaperSample e sample * (STEPS : α)) : α) := by
  have hSα : (0 : α) < (STEPS : α) := by exact_mod_cast hS
  set s := WaveShaperSample e sample with hs
  have hlo : -(STEPS : Int) ≤ Int.floor (s * (STEPS : α)) := by
    rw [Int.le_floor]; push_cast; nlinarith
  have hhi : Int.floor (s * (STEPS : α)) < (STEPS : Int) := by
    rw [Int.floor_lt]; push_cast; nlinarith
  have hidx : WaveShaperIndex STEPS e sample = Int.floor (s * (STEPS : α)) + (STEPS : Int) := by
    unfold WaveShaperIndex
    simp only []
    rw [← hs, min_eq_left (by omega), max_eq_left (by omega)]
  refine ⟨hidx, ?_⟩
  unfold WaveShaperOffset
  simp only []
  rw [hidx, ← hs]
  push_cast
  have e1 : (1 + s) * (STEPS : α) - ((Int.floor (s * (STEPS : α)) : α) + (STEPS : α)) =
      s * (STEPS : α) - (Int.floor (s * (STEPS : α)) : α) := by ring
  rw [e1]
  have h3 : 0 ≤ s * (STEPS : α) - (Int.floor (s * (STEPS : α)) : α) :=
    sub_nonneg.mpr (Int.floor_le _)
  have h4 : s * (STEPS : α) - (Int.floor (s * (STEPS : α)) : α) ≤ 1 := by
    have := Int.lt_floor_add_one (s * (STEPS : α))
    linarith
  rw [max_eq_left h3, min_eq_left h4]

theorem hardClipEntry_mid (STEPS : Nat) (t : α) (i : Nat)
    (h1 : (STEPS : Int) - (i : Int) ≤ Int.floor ((STEPS : α) * t))
    (h2 : (i : Int) - (STEPS : Int) ≤ Int.floor ((STEPS : α) * t)) :
    hardClipEntry STEPS t i = (i : α) / (STEPS : α) - 1 := by
  have a1 : (((STEPS : Int) - (i : Int) : Int) : α) ≤ (STEPS : α) * t :=
    Int.le_floor.mp h1
  have a2 : (((i : Int) - (STEPS : Int) : Int) : α) ≤ (STEPS : α) * t :=
    Int.le_floor.mp h2
  push_cast at a1 a2
  unfold hardClipEntry
  rw [if_neg (by linarith), if_neg (by linarith)]

theorem hardClipEntry_high (STEPS : Nat) (hS : 0 < STEPS) (t : α) (ht : 0 ≤ t) (i : Nat)
    (h : Int.floor ((STEPS : α) * t) + 1 ≤ (i : Int) - (STEPS : Int)) :
    hardClipEntry STEPS t i = t := by
  have hSα : (0 : α) < (STEPS : α) := by exact_mod_cast hS
  have a1 : (STEPS : α) * t < (((i : Int) - (STEPS : Int) : Int) : α) :=
    Int.floor_lt.mp (by omega)
  push_cast at a1
  have a2 : 0 ≤ (STEPS : α) * t := mul_nonneg hSα.le ht
  unfold hardClipEntry
  rw [if_neg (by linarith), if_pos (by linarith)]

theorem hardClipEntry_low (STEPS : Nat) (t : α) (i : Nat)
    (h : Int.floor ((STEPS : α) * t) + 1 ≤ (STEPS : Int) - (i : Int)) :
    hardClipEntry STEPS t i = -t := by
  have a1 : (STEPS : α) * t < (((STEPS : Int) - (i : Int) : Int) : α) :=
    Int.floor_lt.mp (by omega)
  push_cast at a1
  unfold hardClipEntry
  rw [if_pos (by linarith)]

theorem MakeTable_hardClip (M : MathFns α) (STEPS : Nat) (e : EffectDistortion α)
    (h : e.mParams.mTableChoiceIndx = 0) :
    MakeTable M STEPS e =
      { e with
        mTable := fun i => if i ≤ 2 * STEPS then hardClipEntry STEPS e.mThreshold i else e.mTable i
        mMakeupGain := 1 / e.mThreshold } := by
  have h0 : kTableType.ofInt (0 : Int) = some kTableType.kHardClip := by decide
  unfold MakeTable
  rw [h, h0]
  exact HardClip_eq STEPS e

theorem WaveShaper_eq (STEPS : Nat) (e : EffectDistortion α) (sample : α) (i : Nat) (off : α)
    (hi : WaveShaperIndex STEPS e sample = (i : Int))
    (ho : WaveShaperOffset STEPS e sample = off) :
    WaveShaper STEPS e sample = e.mTable i + (e.mTable (i + 1) - e.mTable i) * off := by
  unfold WaveShaper
  simp only []
  rw [hi, ho]
  have h1 : ((i : Int)).toNat = i := by omega
  have h2 : ((i : Int) + 1).toNat = i + 1 := by omega
  rw [h1, h2]

/-- The waveshaper on a table whose entries are those of `HardClip` for the threshold `t`,
at a sample whose pre-gained value is `s`. -/
theorem WaveShaper_hardClip_core (STEPS : Nat) (hS : 0 < STEPS) (e' : EffectDistortion α)
    (t : α) (ht0 : 0 < t) (ht1 : t ≤ 1)
    (htab : ∀ i, i ≤ 2 * STEPS → e'.mTable i = hardClipEntry STEPS t i)
    (m : Int) (hm : m = Int.floor ((STEPS : α) * t))
    (x s : α) (hs : WaveShaperSample e' x = s) :
    (|s| ≤ (m : α) / (STEPS : α) → WaveShaper STEPS e' x = s) ∧
      (((m : α) + 1) / (STEPS : α) ≤ s → WaveShaper STEPS e' x = t) ∧
      (s ≤ -(((m : α) + 1) / (STEPS : α)) → WaveShaper STEPS e' x = -t) := by
  have hSα : (0 : α) < (STEPS : α) := by exact_mod_cast hS
  have hSne : (STEPS : α) ≠ 0 := ne_of_gt hSα
  have hm0 : 0 ≤ m := by rw [hm]; exact Int.floor_nonneg.mpr (mul_nonneg hSα.le ht0.le)
  have hmS : m ≤ (STEPS : Int) := by
    have h1 : (STEPS : α) * t ≤ ((STEPS : Int) : α) := by
      push_cast; exact mul_le_of_le_one_right hSα.le ht1
    have h2 : m ≤ Int.floor (((STEPS : Int) : α)) := by
      rw [hm]; apply Int.floor_le_floor; exact h1
    rwa [Int.floor_intCast] at h2
  have hmt : (m : α) ≤ (STEPS : α) * t := by rw [hm]; exact Int.floor_le _
  have hmid : ∀ i : Nat, (STEPS : Int) - (i : Int) ≤ m → (i : Int) - (STEPS : Int) ≤ m →
      hardClipEntry STEPS t i = (i : α) / (STEPS : α) - 1 := by
    intro i h1 h2
    exact hardClipEntry_mid STEPS t i (by rw [← hm]; exact h1) (by rw [← hm]; exact h2)
  have hhigh : ∀ i : Nat, m + 1 ≤ (i : Int) - (STEPS : Int) → hardClipEntry STEPS t i = t := by
    intro i h1
    exact hardClipEntry_high STEPS hS t ht0.le i (by rw [← hm]; exact h1)
  have hlow : ∀ i : Nat, m + 1 ≤ (STEPS : Int) - (i : Int) → hardClipEntry STEPS t i = -t := by
    intro i h1
    exact hardClipEntry_low STEPS t i (by rw [← hm]; exact h1)
  -- the value at the two ends of the table
  have hTop : e'.mTable (2 * STEPS) = if m < (STEPS : Int) then t else 1 := by
    rw [htab _ (le_refl _)]
    split_ifs with hlt
    · exact hhigh _ (by push_cast; omega)
    · rw [hmid _ (by push_cast; omega) (by push_cast; omega)]
      push_cast; field_simp; ring
  have hBot : e'.mTable 0 = if m < (STEPS : Int) then -t else -1 := by
    rw [htab _ (Nat.zero_le _)]
    split_ifs with hlt
    · exact hlow _ (by push_cast; omega)
    · rw [hmid _ (by push_cast; omega) (by push_cast; omega)]
      push_cast; simp
  have htS : ¬ m < (STEPS : Int) → t = 1 := by
    intro hlt
    have h1 : ((STEPS : Int) : α) ≤ (STEPS : α) * t := le_trans (by exact_mod_cast (not_lt.mp hlt)) hmt
    push_cast at h1
    have : 1 ≤ t := le_of_mul_le_mul_left (by linarith : (STEPS : α) * 1 ≤ (STEPS : α) * t) hSα
    exact le_antisymm ht1 this
  refine ⟨fun hA => ?_, fun hB => ?_, fun hC => ?_⟩
  · -- identity region
    rw [abs_le] at hA
    have hA1 : -(m : α) ≤ s * (STEPS : α) := by
      have h3 : -s ≤ (m : α) / (STEPS : α) := by linarith [hA.1]
      have h4 := (le_div_iff₀ hSα).mp h3
      linarith
    have hA2 : s * (STEPS : α) ≤ (m : α) := (le_div_iff₀ hSα).mp hA.2
    by_cases h1 : 1 ≤ s
    · have hmS' : ¬ m < (STEPS : Int) := by
        intro hlt
        have h5 : (m : α) < (STEPS : α) := by exact_mod_cast hlt
        have h6 : (STEPS : α) ≤ s * (STEPS : α) := le_mul_of_one_le_left hSα.le h1
        linarith
      have hs1 : s = 1 := by
        have : (m : α) ≤ (STEPS : α) := by exact_mod_cast hmS
        have h7 : s * (STEPS : α) ≤ (STEPS : α) := le_trans hA2 this
        have : s ≤ 1 :=
          le_of_mul_le_mul_right (by linarith : s * (STEPS : α) ≤ 1 * (STEPS : α)) hSα
        exact le_antisymm this h1
      obtain ⟨hi, ho⟩ := WaveShaper_high STEPS hS e' x (by rw [hs]; exact h1)
      have hi' : WaveShaperIndex STEPS e' x = ((2 * STEPS - 1 : Nat) : Int) := by
        rw [hi]; omega
      rw [WaveShaper_eq STEPS e' x _ _ hi' ho]
      have : 2 * STEPS - 1 + 1 = 2 * STEPS := by omega
      rw [this, hTop, if_neg hmS', hs1]
      ring
    · push_neg at h1
      have hlo : -1 ≤ s := by
        have : (m : α) ≤ (STEPS : α) := by exact_mod_cast hmS
        exact le_of_mul_le_mul_right (by linarith : -1 * (STEPS : α) ≤ s * (STEPS : α)) hSα
      obtain ⟨hi, ho⟩ := WaveShaper_interior STEPS hS e' x (by rw [hs]; exact hlo)
        (by rw [hs]; exact h1)
      rw [hs] at hi ho
      obtain ⟨k0, hk0⟩ : ∃ k0, k0 = Int.floor (s * (STEPS : α)) := ⟨_, rfl⟩
      rw [← hk0] at hi ho
      have hfl : (k0 : α) ≤ s * (STEPS : α) := by rw [hk0]; exact Int.floor_le _
      have hk1 : -m ≤ k0 := by
        rw [hk0, Int.le_floor]; push_cast; exact hA1
      have hk2 : k0 ≤ m := by
        have : k0 ≤ Int.floor ((m : α)) := by
          rw [hk0]; apply Int.floor_le_floor; exact hA2
        rwa [Int.floor_intCast] at this
      have hk3 : k0 < (STEPS : Int) := by
        rw [hk0, Int.floor_lt]; push_cast; exact mul_lt_of_lt_one_left hSα ‹s < 1›
      obtain ⟨i0, hi0⟩ := Int.eq_ofNat_of_zero_le (show 0 ≤ k0 + (STEPS : Int) by omega)
      rw [hi0] at hi
      rw [WaveShaper_eq STEPS e' x _ _ hi ho]
      have hi0α : (i0 : α) = (k0 : α) + (STEPS : α) := by
        have : ((i0 : Int) : α) = ((k0 + (STEPS : Int) : Int) : α) := by rw [hi0]
        push_cast at this
        exact this
      have hT0 : e'.mTable i0 = (k0 : α) / (STEPS : α) := by
        rw [htab _ (by omega), hmid _ (by omega) (by omega), hi0α]
        field_simp
      rw [hT0]
      by_cases hlast : k0 + 1 ≤ m
      · have hT1 : e'.mTable (i0 + 1) = ((k0 : α) + 1) / (STEPS : α) := by
          rw [htab _ (by omega),
            hmid _ (by push_cast; omega) (by push_cast; omega)]
          push_cast
          rw [hi0α]
          field_simp
          ring
        rw [hT1]
        field_simp
      · have hkm : k0 = m := by omega
        have hkmα : (k0 : α) = (m : α) := by rw [hkm]
        have : s * (STEPS : α) - (k0 : α) = 0 := by
          have h5 : (k0 : α) ≤ s * (STEPS : α) := hfl
          linarith
        rw [this, mul_zero, add_zero, div_eq_iff hSne]
        linarith
  · -- clipped above
    have hB1 : (m : α) + 1 ≤ s * (STEPS : α) := (div_le_iff₀ hSα).mp hB
    by_cases h1 : 1 ≤ s
    · obtain ⟨hi, ho⟩ := WaveShaper_high STEPS hS e' x (by rw [hs]; exact h1)
      have hi' : WaveShaperIndex STEPS e' x = ((2 * STEPS - 1 : Nat) : Int) := by
        rw [hi]; omega
      rw [WaveShaper_eq STEPS e' x _ _ hi' ho]
      have : 2 * STEPS - 1 + 1 = 2 * STEPS := by omega
      rw [this, hTop]
      split_ifs with hlt
      · ring
      · rw [htS hlt]; ring
    · push_neg at h1
      have hlo : -1 ≤ s := by
        have : (0 : α) ≤ (m : α) := by exact_mod_cast hm0
        exact le_of_mul_le_mul_right (by linarith : -1 * (STEPS : α) ≤ s * (STEPS : α)) hSα
      obtain ⟨hi, ho⟩ := WaveShaper_interior STEPS hS e' x (by rw [hs]; exact hlo)
        (by rw [hs]; exact h1)
      rw [hs] at hi ho
      obtain ⟨k0, hk0⟩ : ∃ k0, k0 = Int.floor (s * (STEPS : α)) := ⟨_, rfl⟩
      rw [← hk0] at hi ho
      have hfl : (k0 : α) ≤ s * (STEPS : α) := by rw [hk0]; exact Int.floor_le _
      have hk1 : m + 1 ≤ k0 := by
        rw [hk0, Int.le_floor]; push_cast; exact hB1
      have hk3 : k0 < (STEPS : Int) := by
        rw [hk0, Int.floor_lt]; push_cast; exact mul_lt_of_lt_one_left hSα ‹s < 1›
      obtain ⟨i0, hi0⟩ := Int.eq_ofNat_of_zero_le (show 0 ≤ k0 + (STEPS : Int) by omega)
      rw [hi0] at hi
      rw [WaveShaper_eq STEPS e' x _ _ hi ho]
      rw [htab _ (by omega), htab _ (by omega),
        hhigh _ (by omega),
        hhigh _ (by push_cast; omega)]
      ring
  · -- clipped below
    have hC1 : s * (STEPS : α) ≤ -((m : α) + 1) := by
      have h3 : ((m : α) + 1) / (STEPS : α) ≤ -s := by linarith
      have h4 := (div_le_iff₀ hSα).mp h3
      linarith
    have hm0α : (0 : α) ≤ (m : α) := by exact_mod_cast hm0
    by_cases h1 : s ≤ -1
    · obtain ⟨hi, ho⟩ := WaveShaper_low STEPS hS e' x (by rw [hs]; exact h1)
      have hi' : WaveShaperIndex STEPS e' x = ((0 : Nat) : Int) := by
        rw [hi]; rfl
      rw [WaveShaper_eq STEPS e' x _ _ hi' ho, hBot]
      split_ifs with hlt
      · ring
      · rw [htS hlt]; ring
    · push_neg at h1
      have hhi : s < 1 :=
        lt_of_mul_lt_mul_right (by linarith : s * (STEPS : α) < 1 * (STEPS : α)) hSα.le
      obtain ⟨hi, ho⟩ := WaveShaper_interior STEPS hS e' x (by rw [hs]; exact h1.le)
        (by rw [hs]; exact hhi)
      rw [hs] at hi ho
      obtain ⟨k0, hk0⟩ : ∃ k0, k0 = Int.floor (s * (STEPS : α)) := ⟨_, rfl⟩
      rw [← hk0] at hi ho
      have hfl : (k0 : α) ≤ s * (STEPS : α) := by rw [hk0]; exact Int.floor_le _
      have hk1 : k0 ≤ -(m + 1) := by
        have h5 : (k0 : α) ≤ s * (STEPS : α) := hfl
        have h6 : (k0 : α) ≤ ((-(m + 1) : Int) : α) := by push_cast; linarith
        exact_mod_cast h6
      have hk3 : -(STEPS : Int) ≤ k0 := by
        rw [hk0, Int.le_floor]; push_cast
        have := mul_le_mul_of_nonneg_right h1.le hSα.le
        linarith
      obtain ⟨i0, hi0⟩ := Int.eq_ofNat_of_zero_le (show 0 ≤ k0 + (STEPS : Int) by omega)
      rw [hi0] at hi
      rw [WaveShaper_eq STEPS e' x _ _ hi ho]
      rw [htab _ (by omega), hlow _ (by omega)]
      by_cases hlast : k0 + 1 ≤ -(m + 1)
      · rw [htab _ (by omega), hlow _ (by push_cast; omega)]
        ring
      · have hkm : k0 = -(m + 1) := by omega
        have : s * (STEPS : α) - (k0 : α) = 0 := by
          have h5 : (k0 : α) ≤ s * (STEPS : α) := hfl
          rw [hkm] at h5 ⊢
          push_cast at h5 ⊢
          linarith
        rw [this, mul_zero, add_zero]

/-- The waveshaper on the table `MakeTable` builds for HardClip: identity up to the last
knot not above the threshold, the threshold beyond the next knot. -/
theorem HardClip_through_WaveShaper (M : MathFns α) (STEPS : Nat) (hS : 0 < STEPS)
    (e : EffectDistortion α) (hk : e.mParams.mTableChoiceIndx = 0)
    (ht0 : 0 < e.mThreshold) (ht1 : e.mThreshold ≤ 1) (x : α) :
    (|x * (1 + e.mParams.mParam1 / 100)| ≤
          (Int.floor ((STEPS : α) * e.mThreshold) : α) / (STEPS : α) →
        WaveShaper STEPS (MakeTable M STEPS e) x = x * (1 + e.mParams.mParam1 / 100)) ∧
      (((Int.floor ((STEPS : α) * e.mThreshold) : α) + 1) / (STEPS : α) ≤
          x * (1 + e.mParams.mParam1 / 100) →
        WaveShaper STEPS (MakeTable M STEPS e) x = e.mThreshold) ∧
      (x * (1 + e.mParams.mParam1 / 100) ≤
          -(((Int.floor ((STEPS : α) * e.mThreshold) : α) + 1) / (STEPS : α)) →
        WaveShaper STEPS (MakeTable M STEPS e) x = -e.mThreshold) := by
  have h0 : kTableType.ofInt (0 : Int) = some kTableType.kHardClip := by decide
  have hcfg : (MakeTable M STEPS e).mParams = e.mParams := (MakeTable_config M STEPS e).1
  have hs : WaveShaperSample (MakeTable M STEPS e) x = x * (1 + e.mParams.mParam1 / 100) := by
    unfold WaveShaperSample
    rw [hcfg, hk, h0]
  have htab : ∀ i, i ≤ 2 * STEPS →
      (MakeTable M STEPS e).mTable i = hardClipEntry STEPS e.mThreshold i := by
    intro i hi
    rw [MakeTable_hardClip M STEPS e hk]
    simp only [if_pos hi]
  exact WaveShaper_hardClip_core STEPS hS (MakeTable M STEPS e) e.mThreshold ht0 ht1 htab _ rfl x _ hs

/-- The sample loop appends one output per input sample. -/
theorem fold_obuf (M : MathFns α) (STEPS : Nat) (update : Bool) (p1 p2 : α) (ibuf : List α)
    (s : EffectDistortion α × EffectDistortionState α × List (Option α)) :
    ∃ out, out.length = ibuf.length ∧
      (ibuf.foldl (InstanceProcess.step M STEPS update p1 p2) s).2.2 = s.2.2 ++ out := by
  induction ibuf generalizing s with
  | nil => exact ⟨[], rfl, by simp⟩
  | cons x xs ih =>
    rw [List.foldl_cons]
    obtain ⟨-, -, o, ho⟩ := step_spec M STEPS update p1 p2 s x
    obtain ⟨out, hl, hout⟩ := ih (InstanceProcess.step M STEPS update p1 p2 s x)
    refine ⟨o :: out, by simp [hl], ?_⟩
    rw [hout, ho, List.append_assoc]
    rfl

theorem InstanceProcess_obuf_length (M : MathFns α) (STEPS : Nat) (e : EffectDistortion α)
    (data : EffectDistortionState α) (ibuf : List α) :
    (InstanceProcess M STEPS e data ibuf).obuf.length = ibuf.length := by
  obtain ⟨out, hl, hout⟩ := fold_obuf M STEPS (InstanceProcess.update e data)
    (e.mParams.mParam1 / 100) (e.mParams.mParam2 / 100) ibuf (e, InstanceProcess.cache e data, [])
  unfold InstanceProcess
  simp only []
  rw [hout]
  simpa using hl

/-- The output buffer of a block starts with the output buffer of each of its prefixes. -/
theorem InstanceProcess_obuf_append (M : MathFns α) (STEPS : Nat) (e : EffectDistortion α)
    (data : EffectDistortionState α) (a b : List α) :
    ∃ out, out.length = b.length ∧
      (InstanceProcess M STEPS e data (a ++ b)).obuf =
        (InstanceProcess M STEPS e data a).obuf ++ out := by
  unfold InstanceProcess
  simp only []
  rw [List.foldl_append]
  exact fold_obuf M STEPS _ _ _ b _

/-- Without DC blocking, the last output of a block is the `switch` of the sample loop
evaluated on the effect as the block leaves it. -/
theorem InstanceProcess_obuf_snoc (M : MathFns α) (STEPS : Nat) (e : EffectDistortion α)
    (data : EffectDistortionState α) (pre : List α) (x : α)
    (hdc : e.mParams.mDCBlock = false) :
    (InstanceProcess M STEPS e data (pre ++ [x])).obuf =
      (InstanceProcess M STEPS e data pre).obuf ++
        [some (InstanceProcess.shape STEPS (e.mParams.mParam1 / 100) (e.mParams.mParam2 / 100)
          (InstanceProcess M STEPS e data (pre ++ [x])).effect x)] := by
  unfold InstanceProcess
  simp only []
  rw [List.foldl_append, List.foldl_cons, List.foldl_nil]
  have hc := (fold_config M STEPS (InstanceProcess.update e data) (e.mParams.mParam1 / 100)
    (e.mParams.mParam2 / 100) pre (e, InstanceProcess.cache e data, [])).1
  rw [step_nodc M STEPS _ _ _ _ x (by rw [hc]; exact hdc)]

/-- Without DC blocking, output `i` of a block is the `switch` of the sample loop evaluated
on the effect as it is after the first `i + 1` samples. -/
theorem InstanceProcess_obuf_get (M : MathFns α) (STEPS : Nat) (e : EffectDistortion α)
    (data : EffectDistortionState α) (ibuf : List α) (i : Nat) (hi : i < ibuf.length)
    (hdc : e.mParams.mDCBlock = false) :
    (InstanceProcess M STEPS e data ibuf).obuf.get? i =
      some (some (InstanceProcess.shape STEPS (e.mParams.mParam1 / 100)
        (e.mParams.mParam2 / 100)
        (InstanceProcess M STEPS e data (ibuf.take (i + 1))).effect (ibuf.get ⟨i, hi⟩))) := by
  have hsplit : ibuf = (ibuf.take i ++ [ibuf.get ⟨i, hi⟩]) ++ ibuf.drop (i + 1) := by
    rw [List.append_assoc, List.singleton_append]
    have : ibuf.get ⟨i, hi⟩ :: ibuf.drop (i + 1) = ibuf.drop i := by
      simp
    rw [this, List.take_append_drop]
  have htake : ibuf.take (i + 1) = ibuf.take i ++ [ibuf.get ⟨i, hi⟩] := by
    rw [List.take_succ, List.getElem?_eq_getElem hi]
    rfl
  obtain ⟨out, -, hout⟩ := InstanceProcess_obuf_append M STEPS e data
    (ibuf.take i ++ [ibuf.get ⟨i, hi⟩]) (ibuf.drop (i + 1))
  rw [← hsplit] at hout
  rw [hout, htake, InstanceProcess_obuf_snoc M STEPS e data _ _ hdc]
  have hlen : (InstanceProcess M STEPS e data (List.take i ibuf)).obuf.length = i := by
    rw [InstanceProcess_obuf_length, List.length_take]
    omega
  rw [List.append_assoc, List.get?_eq_getElem?, List.getElem?_append_right (by omega), hlen]
  simp

theorem update_of_param2_ne (e : EffectDistortion α) (data : EffectDistortionState α)
    (h : e.mParams.mParam2 ≠ data.param2) : InstanceProcess.update e data = true := by
  unfold InstanceProcess.update
  rw [if_neg]
  intro hc
  exact h hc.2.2.2.2.1

theorem InstanceProcess_param2 (M : MathFns α) (STEPS : Nat) (e : EffectDistortion α)
    (data : EffectDistortionState α) (ibuf : List α) :
    (InstanceProcess M STEPS e data ibuf).data.param2 = data.param2 := by
  obtain ⟨k, q, t, h⟩ := InstanceProcess_frame M STEPS e data ibuf
  rw [h]
  rfl

theorem InstanceProcess_param1 (M : MathFns α) (STEPS : Nat) (e : EffectDistortion α)
    (data : EffectDistortionState α) (ibuf : List α) :
    (InstanceProcess M STEPS e data ibuf).data.param1 = e.mParams.mParam1 := by
  obtain ⟨k, q, t, h⟩ := InstanceProcess_frame M STEPS e data ibuf
  rw [h]
  rfl

/-- A dirty block of one sample: the table is rebuilt when the skip counter is a multiple
of `skipsamples` and left alone otherwise. -/
theorem InstanceProcess_single (M : MathFns α) (STEPS : Nat) (e : EffectDistortion α)
    (data : EffectDistortionState α) (x : α) (hu : InstanceProcess.update e data = true) :
    (InstanceProcess M STEPS e data [x]).effect =
      if data.skipcount % skipsamples = 0 then MakeTable M STEPS e else e := by
  have h := InstanceProcess_dirty M STEPS e data [] x hu (by simp)
  rw [List.nil_append, List.length_nil, Nat.add_zero] at h
  split_ifs with h0
  · exact h.2.1 h0
  · exact h.2.2 h0

theorem OnParam1Slider_master (e : EffectDistortion α) (v : Int) :
    (OnParam1Slider e v).mMaster = e.mMaster := rfl

theorem OnParam1Slider_table (e : EffectDistortion α) (v : Int) :
    (OnParam1Slider e v).mTable = e.mTable := rfl

theorem OnParam1Slider_params (e : EffectDistortion α) (v : Int) :
    (OnParam1Slider e v).mParams = { e.mParams with mParam1 := (v : α) } := rfl

theorem staleFirst_params : staleFirst.mParams = preset 9 false (-6) (-70) 0 50 0 := by
  unfold staleFirst
  rw [ProcessBlock_params]
  rw [OnParam1Slider_params, staleStart_params]
  simp [preset]

theorem staleFirst_master :
    staleFirst.mMaster.param2 = 50 ∧ staleFirst.mMaster.param1 = 0 ∧
      staleFirst.mMaster.skipcount = 1 := by
  unfold staleFirst
  rw [ProcessBlock_master]
  refine ⟨?_, ?_, ?_⟩
  · rw [InstanceProcess_param2, OnParam1Slider_master]; exact staleStart_master.2.1
  · rw [InstanceProcess_param1, OnParam1Slider_params]; simp
  · rw [InstanceProcess_skipcount, if_pos staleFirst_update, OnParam1Slider_master,
      staleStart_master.2.2.1]
    rfl

theorem staleSecond_update :
    InstanceProcess.update (OnParam1Slider staleFirst 100)
      (OnParam1Slider staleFirst 100).mMaster = true := by
  unfold InstanceProcess.update
  rw [if_neg]
  intro hc
  have := hc.2.2.2.1
  rw [OnParam1Slider_master, staleFirst_master.2.1, OnParam1Slider_params] at this
  simp at this

theorem staleSecond_table : staleSecond.mTable 0 = -1 := by
  unfold staleSecond
  rw [ProcessBlock_table, InstanceProcess_single _ _ _ _ _ staleSecond_update]
  rw [OnParam1Slider_master, staleFirst_master.2.2, if_neg (by decide), OnParam1Slider_table]
  exact staleFirst_table

theorem staleSecond_params : staleSecond.mParams = preset 9 false (-6) (-70) 100 50 0 := by
  unfold staleSecond
  rw [ProcessBlock_params, OnParam1Slider_params, staleFirst_params]
  simp [preset]

theorem update_congr (e e' : EffectDistortion α) (data : EffectDistortionState α)
    (h : e'.mParams = e.mParams) : InstanceProcess.update e' data = InstanceProcess.update e data := by
  unfold InstanceProcess.update
  rw [h]

/-- After `ProcessBlock` the master instance is Stable exactly when the live `param2` is
the cached one. -/
theorem update_after_ProcessBlock (M : MathFns α) (STEPS : Nat) (e : EffectDistortion α)
    (ibuf : List α) :
    InstanceProcess.update (ProcessBlock M STEPS e ibuf).1 (ProcessBlock M STEPS e ibuf).1.mMaster =
      if e.mParams.mParam2 = e.mMaster.param2 then false else true := by
  rw [ProcessBlock_master, ← update_after_InstanceProcess M STEPS e e.mMaster ibuf]
  exact update_congr _ _ _ rfl

theorem staleSecond_clean : InstanceProcess.update staleSecond staleSecond.mMaster = false := by
  unfold staleSecond
  have := update_after_ProcessBlock realMath 1024 (OnParam1Slider staleFirst 100) [0]
  have hp : (OnParam1Slider staleFirst 100).mParams.mParam2 =
      (OnParam1Slider staleFirst 100).mMaster.param2 := by
    rw [OnParam1Slider_master, staleFirst_master.1, OnParam1Slider_params, staleFirst_params]
    simp [preset]
  rw [if_pos hp] at this
  exact this

theorem ProcessBlock_skipcount (M : MathFns α) (STEPS : Nat) (e : EffectDistortion α)
    (ibuf : List α) :
    (ProcessBlock M STEPS e ibuf).1.mMaster.skipcount =
      if InstanceProcess.update e e.mMaster = true then e.mMaster.skipcount + ibuf.length
      else e.mMaster.skipcount := by
  rw [ProcessBlock_master, InstanceProcess_skipcount]

theorem ProcessBlock_param2 (M : MathFns α) (STEPS : Nat) (e : EffectDistortion α)
    (ibuf : List α) :
    (ProcessBlock M STEPS e ibuf).1.mMaster.param2 = e.mMaster.param2 := by
  rw [ProcessBlock_master, InstanceProcess_param2]

/-- Blocks processed while the live `param2` differs from the cached one: the difference
stays and every sample advances the skip counter. -/
theorem param2_never_cached (M : MathFns α) (STEPS : Nat) (blocks : List (List α))
    (e : EffectDistortion α) (h : e.mParams.mParam2 ≠ e.mMaster.param2) :
    (blocks.foldl (fun e b => (ProcessBlock M STEPS e b).1) e).mParams = e.mParams ∧
      (blocks.foldl (fun e b => (ProcessBlock M STEPS e b).1) e).mMaster.param2 =
        e.mMaster.param2 ∧
      (blocks.foldl (fun e b => (ProcessBlock M STEPS e b).1) e).mMaster.skipcount =
        e.mMaster.skipcount + (blocks.map List.length).sum := by
  induction blocks generalizing e with
  | nil => exact ⟨rfl, rfl, by simp⟩
  | cons b bs ih =>
    rw [List.foldl_cons]
    have hp := ProcessBlock_params M STEPS e b
    have h2 := ProcessBlock_param2 M STEPS e b
    have hs := ProcessBlock_skipcount M STEPS e b
    rw [if_pos (update_of_param2_ne e e.mMaster h)] at hs
    obtain ⟨i1, i2, i3⟩ := ih (ProcessBlock M STEPS e b).1 (by rw [hp, h2]; exact h)
    refine ⟨i1.trans hp, i2.trans h2, ?_⟩
    rw [i3, hs, List.map_cons, List.sum_cons]
    omega

theorem param2Start_fields :
    param2Start.mParams.mParam2 = 60 ∧ param2Start.mMaster.param2 = 50 ∧
      param2Start.mMaster.skipcount = 0 := by
  unfold param2Start OnParam2Slider ProcessInitialize InstanceInit
  refine ⟨?_, ?_, ?_⟩
  · norm_num
  · simp [EffectDistortion.new]
  · rfl

theorem WaveShaper_at_high (STEPS : Nat) (hS : 0 < STEPS) (e : EffectDistortion α) (sample : α)
    (h : 1 ≤ WaveShaperSample e sample) : WaveShaper STEPS e sample = e.mTable (2 * STEPS) := by
  obtain ⟨hi, ho⟩ := WaveShaper_high STEPS hS e sample h
  have hi' : WaveShaperIndex STEPS e sample = ((2 * STEPS - 1 : Nat) : Int) := by
    rw [hi]; omega
  rw [WaveShaper_eq STEPS e sample _ _ hi' ho]
  have : 2 * STEPS - 1 + 1 = 2 * STEPS := by omega
  rw [this]
  ring

theorem WaveShaper_at_low (STEPS : Nat) (hS : 0 < STEPS) (e : EffectDistortion α) (sample : α)
    (h : WaveShaperSample e sample ≤ -1) : WaveShaper STEPS e sample = e.mTable 0 := by
  obtain ⟨hi, ho⟩ := WaveShaper_low STEPS hS e sample h
  have hi' : WaveShaperIndex STEPS e sample = ((0 : Nat) : Int) := by
    rw [hi]; rfl
  rw [WaveShaper_eq STEPS e sample _ _ hi' ho]
  ring

theorem WaveShaper_at_knot (STEPS : Nat) (hS : 0 < STEPS) (e : EffectDistortion α) (sample : α)
    (j : Nat) (hj : j ≤ 2 * STEPS) (h : WaveShaperSample e sample = (j : α) / (STEPS : α) - 1) :
    WaveShaper STEPS e sample = e.mTable j := by
  have hSα : (0 : α) < (STEPS : α) := by exact_mod_cast hS
  rcases Nat.lt_or_ge j (2 * STEPS) with hlt | hge
  · obtain ⟨hi, ho⟩ := WaveShaper_knot STEPS hS e sample j hlt h
    rw [WaveShaper_eq STEPS e sample _ _ hi ho]
    ring
  · have hj2 : j = 2 * STEPS := le_antisymm hj hge
    subst hj2
    apply WaveShaper_at_high STEPS hS
    rw [h]
    push_cast
    rw [mul_div_assoc, div_self (ne_of_gt hSα)]
    norm_num

theorem ofInt_hardClip (i : Int) (h : kTableType.ofInt i = some kTableType.kHardClip) : i = 0 := by
  by_contra h0
  by_cases h1 : i = 1
  · subst h1; exact absurd h (by decide)
  by_cases h2 : i = 2
  · subst h2; exact absurd h (by decide)
  by_cases h3 : i = 3
  · subst h3; exact absurd h (by decide)
  by_cases h4 : i = 4
  · subst h4; exact absurd h (by decide)
  by_cases h5 : i = 5
  · subst h5; exact absurd h (by decide)
  by_cases h6 : i = 6
  · subst h6; exact absurd h (by decide)
  by_cases h7 : i = 7
  · subst h7; exact absurd h (by decide)
  by_cases h8 : i = 8
  · subst h8; exact absurd h (by decide)
  by_cases h9 : i = 9
  · subst h9; exact absurd h (by decide)
  by_cases h10 : i = 10
  · subst h10; exact absurd h (by decide)
  unfold kTableType.ofInt at h
  rw [if_neg h0, if_neg h1, if_neg h2, if_neg h3, if_neg h4, if_neg h5, if_neg h6, if_neg h7,
    if_neg h8, if_neg h9, if_neg h10] at h
  cases h

theorem WaveShaperSample_other (e : EffectDistortion α) (sample : α)
    (h : e.mParams.mTableChoiceIndx ≠ 0) : WaveShaperSample e sample = sample := by
  have hne : kTableType.ofInt e.mParams.mTableChoiceIndx ≠ some kTableType.kHardClip :=
    fun hc => h (ofInt_hardClip _ hc)
  unfold WaveShaperSample
  split
  · next heq => exact absurd heq hne
  · rfl

theorem shape_plain (STEPS : Nat) (p1 p2 : α) (e : EffectDistortion α) (x : α)
    (h : e.mParams.mTableChoiceIndx = 6 ∨ e.mParams.mTableChoiceIndx = 8 ∨
      e.mParams.mTableChoiceIndx = 9) :
    InstanceProcess.shape STEPS p1 p2 e x = WaveShaper STEPS e x := by
  unfold InstanceProcess.shape
  rcases h with h | h | h <;> rw [h] <;> rfl

theorem shape_cubic (STEPS : Nat) (p1 p2 : α) (e : EffectDistortion α) (x : α)
    (h : e.mParams.mTableChoiceIndx = 5) :
    InstanceProcess.shape STEPS p1 p2 e x = WaveShaper STEPS e x * p2 := by
  unfold InstanceProcess.shape
  rw [h]
  rfl

theorem staleStart_table (i : Nat) (hi : i ≤ 2048) :
    staleStart.mTable i = rectifierEntry 1024 50 i := by
  unfold staleStart ProcessInitialize InstanceInit
  simp only []
  rw [MakeTable_rectifier _ _ _ (by simp [LoadFactoryPreset, FactoryPresets, preset])]
  simp only [if_pos (show i ≤ 2 * 1024 by omega)]
  simp [LoadFactoryPreset, FactoryPresets, preset]

theorem ProcessBlock_obuf (M : MathFns α) (STEPS : Nat) (e : EffectDistortion α)
    (ibuf : List α) :
    (ProcessBlock M STEPS e ibuf).2.1 = (InstanceProcess M STEPS e e.mMaster ibuf).obuf := rfl

/-- The output of a dirty one-sample block of the Rectifier without DC blocking. -/
theorem rectifier_single_output (STEPS : Nat) (hS : 0 < STEPS) (M : MathFns α)
    (e : EffectDistortion α) (data : EffectDistortionState α) (x : α)
    (hk : e.mParams.mTableChoiceIndx = 9) (hdc : e.mParams.mDCBlock = false)
    (hx : x ≤ -1) :
    (InstanceProcess M STEPS e data [x]).obuf =
      [some ((InstanceProcess M STEPS e data [x]).effect.mTable 0)] := by
  have h := InstanceProcess_obuf_snoc M STEPS e data [] x hdc
  rw [List.nil_append] at h
  rw [h]
  have hc : (InstanceProcess M STEPS e data [x]).effect.mParams = e.mParams :=
    (InstanceProcess_config M STEPS e data [x]).1
  rw [shape_plain _ _ _ _ _ (by rw [hc, hk]; simp),
    WaveShaper_at_low STEPS hS _ _ (by
      rw [WaveShaperSample_other _ _ (by rw [hc, hk]; decide)]; exact hx)]
  rfl

theorem RealtimeAddProcessor_fields (M : MathFns α) (STEPS : Nat) (e : EffectDistortion α)
    (sampleRate : α) :
    (RealtimeAddProcessor M STEPS e sampleRate).mParams = e.mParams ∧
      (RealtimeAddProcessor M STEPS e sampleRate).mMaster = e.mMaster ∧
      (RealtimeAddProcessor M STEPS e sampleRate).mSlaves =
        e.mSlaves ++ [(InstanceInit M STEPS e EffectDistortionState.fresh sampleRate).2] := by
  obtain ⟨h1, -, -, h4, h5⟩ := MakeTable_config M STEPS e
  unfold RealtimeAddProcessor InstanceInit
  simp only []
  exact ⟨h1, h4, by rw [h5]⟩

theorem ProcessBlock_slaves (M : MathFns α) (STEPS : Nat) (e : EffectDistortion α)
    (ibuf : List α) : (ProcessBlock M STEPS e ibuf).1.mSlaves = e.mSlaves :=
  (InstanceProcess_config M STEPS e e.mMaster ibuf).2.2.2.2

theorem RealtimeProcess_eq (M : MathFns α) (STEPS : Nat) (e : EffectDistortion α) (group : Nat)
    (ibuf : List α) (data : EffectDistortionState α) (h : e.mSlaves.get? group = some data) :
    RealtimeProcess M STEPS e group ibuf =
      some ({ (InstanceProcess M STEPS e data ibuf).effect with
                mSlaves := (InstanceProcess M STEPS e data ibuf).effect.mSlaves.set group
                  (InstanceProcess M STEPS e data ibuf).data },
            (InstanceProcess M STEPS e data ibuf).obuf,
            (InstanceProcess M STEPS e data ibuf).ret) := by
  unfold RealtimeProcess
  rw [h]

/-- What a block of one instance leaves alone, and what it shares. -/
theorem RealtimeProcess_frame (M : MathFns α) (STEPS : Nat) (e : EffectDistortion α)
    (group : Nat) (ibuf : List α) (r : EffectDistortion α × List (Option α) × Nat)
    (h : RealtimeProcess M STEPS e group ibuf = some r) :
    r.1.mParams = e.mParams ∧ r.1.mMaster = e.mMaster ∧
      r.1.mSlaves.length = e.mSlaves.length ∧
      (∀ j, j ≠ group → r.1.mSlaves.get? j = e.mSlaves.get? j) ∧
      (ProcessBlock M STEPS e ibuf).1.mSlaves = e.mSlaves ∧
      (∀ data x, e.mSlaves.get? group = some data → ibuf = [x] →
        InstanceProcess.update e data = true → data.skipcount % skipsamples = 0 →
        r.1.mTable = (MakeTable M STEPS e).mTable ∧
          r.1.mMakeupGain = (MakeTable M STEPS e).mMakeupGain) := by
  cases hd : e.mSlaves.get? group with
  | none =>
    unfold RealtimeProcess at h
    rw [hd] at h
    cases h
  | some data =>
    rw [RealtimeProcess_eq M STEPS e group ibuf data hd] at h
    injection h with h
    subst h
    obtain ⟨c1, -, -, c4, c5⟩ := InstanceProcess_config M STEPS e data ibuf
    refine ⟨c1, c4, ?_, ?_, ProcessBlock_slaves M STEPS e ibuf, ?_⟩
    · simp only [List.length_set]
      rw [c5]
    · intro j hj
      simp only []
      rw [c5, List.get?_eq_getElem?, List.get?_eq_getElem?, List.getElem?_set_ne (Ne.symm hj)]
    · intro data' x hd' hx hu h0
      have : data' = data := by
        injection hd' with hd'
        exact hd'.symm
      subst this
      subst hx
      simp only []
      rw [InstanceProcess_single M STEPS e data' x hu, if_pos h0]
      exact ⟨rfl, rfl⟩

theorem OnParam1Slider_slaves (e : EffectDistortion α) (v : Int) :
    (OnParam1Slider e v).mSlaves = e.mSlaves := rfl

theorem RealtimeInitialize_fields (e : EffectDistortion α) :
    (RealtimeInitialize e).mParams = e.mParams ∧ (RealtimeInitialize e).mMaster = e.mMaster ∧
      (RealtimeInitialize e).mSlaves = [] := ⟨rfl, rfl, rfl⟩

theorem InstanceInit_data (M : MathFns α) (STEPS : Nat) (e : EffectDistortion α)
    (data : EffectDistortionState α) (sampleRate : α) :
    (InstanceInit M STEPS e data sampleRate).2.param1 = e.mParams.mParam1 ∧
      (InstanceInit M STEPS e data sampleRate).2.skipcount = 0 := ⟨rfl, rfl⟩

theorem shareStart_fields :
    shareStart.mParams = preset 9 false (-6) (-70) 50 50 0 ∧
      shareStart.mMaster = staleStart.mMaster ∧
      ∃ slave : EffectDistortionState ℝ, shareStart.mSlaves = [slave] ∧ slave.param1 = 50 ∧
        slave.skipcount = 0 := by
  obtain ⟨h1, h2, h3⟩ := RealtimeAddProcessor_fields realMath 1024 (RealtimeInitialize staleStart)
    44100
  refine ⟨?_, ?_,
    (InstanceInit realMath 1024 (RealtimeInitialize staleStart) EffectDistortionState.fresh 44100).2,
    ?_, ?_, ?_⟩
  · unfold shareStart
    rw [h1, (RealtimeInitialize_fields staleStart).1]
    exact staleStart_params
  · unfold shareStart
    rw [h2, (RealtimeInitialize_fields staleStart).2.1]
  · unfold shareStart
    rw [h3, (RealtimeInitialize_fields staleStart).2.2]
    rfl
  · rw [(InstanceInit_data _ _ _ _ _).1, (RealtimeInitialize_fields staleStart).1,
      staleStart_params]
    rfl
  · exact (InstanceInit_data _ _ _ _ _).2

theorem shareFirst_update :
    InstanceProcess.update (OnParam1Slider shareStart 0) (OnParam1Slider shareStart 0).mMaster =
      true := by
  unfold InstanceProcess.update
  rw [if_neg]
  intro hc
  have := hc.2.2.2.1
  rw [OnParam1Slider_master, shareStart_fields.2.1, staleStart_master.1, OnParam1Slider_params]
    at this
  norm_num at this

theorem shareFirst_fields :
    shareFirst.mParams = preset 9 false (-6) (-70) 0 50 0 ∧ shareFirst.mMaster.param1 = 0 ∧
      shareFirst.mMaster.skipcount = 1 ∧ shareFirst.mSlaves = shareStart.mSlaves ∧
      shareFirst.mTable 0 = -1 := by
  have hk : (OnParam1Slider shareStart 0).mParams.mTableChoiceIndx = 9 := by
    rw [OnParam1Slider_params, shareStart_fields.1]; rfl
  refine ⟨?_, ?_, ?_, ?_, ?_⟩
  · unfold shareFirst
    rw [ProcessBlock_params, OnParam1Slider_params, shareStart_fields.1]
    simp [preset]
  · unfold shareFirst
    rw [ProcessBlock_master, InstanceProcess_param1, OnParam1Slider_params]
    simp
  · unfold shareFirst
    rw [ProcessBlock_skipcount, if_pos shareFirst_update, OnParam1Slider_master,
      shareStart_fields.2.1, staleStart_master.2.2.1]
    rfl
  · unfold shareFirst
    rw [ProcessBlock_slaves]
    rfl
  · unfold shareFirst
    rw [ProcessBlock_table, InstanceProcess_single _ _ _ _ _ shareFirst_update,
      OnParam1Slider_master, shareStart_fields.2.1, staleStart_master.2.2.1, if_pos (by decide),
      MakeTable_rectifier _ _ _ hk, OnParam1Slider_params]
    simp [rectifierEntry]

theorem shareEdit_fields :
    shareEdit.mParams = preset 9 false (-6) (-70) 100 50 0 ∧ shareEdit.mMaster.param1 = 0 ∧
      shareEdit.mMaster.skipcount = 1 ∧ shareEdit.mTable 0 = -1 ∧
      ∃ slave : EffectDistortionState ℝ, shareEdit.mSlaves = [slave] ∧ slave.param1 = 50 ∧
        slave.skipcount = 0 := by
  obtain ⟨f1, f2, f3, f4, f5⟩ := shareFirst_fields
  obtain ⟨-, -, slave, g1, g2, g3⟩ := shareStart_fields
  refine ⟨?_, ?_, ?_, ?_, slave, ?_, g2, g3⟩
  · unfold shareEdit
    rw [OnParam1Slider_params, f1]
    simp [preset]
  · unfold shareEdit
    rw [OnParam1Slider_master, f2]
  · unfold shareEdit
    rw [OnParam1Slider_master, f3]
  · unfold shareEdit
    rw [OnParam1Slider_table, f5]
  · unfold shareEdit
    rw [OnParam1Slider_slaves, f4, g1]

/-- In a Rectifier effect whose live `param1` is 100 while the master caches 0 at skip
counter 1, the master's output for the sample -1 is entry 0 of the table as it stands. -/
theorem rectifier_master_output (e : EffectDistortion ℝ)
    (hp : e.mParams = preset 9 false (-6) (-70) 100 50 0) (h1 : e.mMaster.param1 = 0)
    (hs : e.mMaster.skipcount = 1) :
    (ProcessBlock realMath 1024 e [-1]).2.1 = [some (e.mTable 0)] := by
  have hk : e.mParams.mTableChoiceIndx = 9 := by rw [hp]; rfl
  have hdc : e.mParams.mDCBlock = false := by rw [hp]; rfl
  have hu : InstanceProcess.update e e.mMaster = true := by
    unfold InstanceProcess.update
    rw [if_neg]
    intro hc
    have := hc.2.2.2.1
    rw [h1, hp] at this
    simp [preset] at this
  rw [ProcessBlock_obuf, rectifier_single_output 1024 (by decide) _ _ _ _ hk hdc (le_refl _),
    InstanceProcess_single _ _ _ _ _ hu, hs, if_neg (by decide)]

/-- With a window of length 0 and an empty queue the division of `DCFilter` is by zero. -/
theorem DCFilter_none (d : EffectDistortionState α) (x : α)
    (hW : queueLength d.samplerate = 0) (hq : d.queuesamples = []) :
    (DCFilter d x).2 = none ∧ (DCFilter d x).1.queuesamples = [] := by
  have hst : (DCFilter d x).1.queuesamples = [] := by
    rw [DCFilter_state, hW, hq]
    simp
  refine ⟨?_, hst⟩
  rw [DCFilter_out, hst]
  simp

theorem InstanceProcess_single_none (M : MathFns α) (STEPS : Nat) (e : EffectDistortion α)
    (data : EffectDistortionState α) (x : α) (hdc : e.mParams.mDCBlock = true)
    (hW : queueLength data.samplerate = 0) (hq : data.queuesamples = []) :
    (InstanceProcess M STEPS e data [x]).obuf = [none] := by
  unfold InstanceProcess
  simp only [List.foldl_cons, List.foldl_nil]
  have hc := (refresh_config M STEPS (InstanceProcess.update e data)
    (e, InstanceProcess.cache e data)).1
  have hr : (InstanceProcess.refresh M STEPS (InstanceProcess.update e data)
      (e, InstanceProcess.cache e data)).2.samplerate = data.samplerate ∧
      (InstanceProcess.refresh M STEPS (InstanceProcess.update e data)
      (e, InstanceProcess.cache e data)).2.queuesamples = data.queuesamples := by
    cases InstanceProcess.update e data
    · rw [refresh_clean]; exact ⟨rfl, rfl⟩
    · rw [refresh_dirty]; exact ⟨rfl, rfl⟩
  unfold InstanceProcess.step
  simp only []
  rw [hc, hdc, if_pos rfl]
  simp only [List.nil_append]
  rw [(DCFilter_none _ _ (by rw [hr.1]; exact hW) (by rw [hr.2]; exact hq)).1]

theorem ProcessInitialize_fields (M : MathFns α) (STEPS : Nat) (e : EffectDistortion α) :
    (ProcessInitialize M STEPS e).mParams = e.mParams ∧
      (ProcessInitialize M STEPS e).mTable = (MakeTable M STEPS e).mTable ∧
      (ProcessInitialize M STEPS e).mMaster = (InstanceInit M STEPS e e.mMaster e.mSampleRate).2 :=
  ⟨(MakeTable_config M STEPS e).1, rfl, rfl⟩

theorem InstanceInit_queue (M : MathFns α) (STEPS : Nat) (e : EffectDistortion α)
    (data : EffectDistortionState α) (sampleRate : α) :
    (InstanceInit M STEPS e data sampleRate).2.samplerate = sampleRate ∧
      (InstanceInit M STEPS e data sampleRate).2.queuesamples = [] ∧
      (InstanceInit M STEPS e data sampleRate).2.queuetotal = 0 :=
  ⟨rfl, clearQueue_eq _, rfl⟩

/-- After `InstanceInit` the comparison of live and cached parameters finds no difference. -/
theorem InstanceInit_clean (M : MathFns α) (STEPS : Nat) (e : EffectDistortion α)
    (data : EffectDistortionState α) (sampleRate : α) :
    InstanceProcess.update (InstanceInit M STEPS e data sampleRate).1
      (InstanceInit M STEPS e data sampleRate).2 = false := by
  have hc : (InstanceInit M STEPS e data sampleRate).1.mParams = e.mParams :=
    (MakeTable_config M STEPS e).1
  unfold InstanceProcess.update
  rw [hc]
  simp [InstanceInit]

theorem cubicStart_fields :
    cubicStart.mParams = preset 5 false (-6) (-70) 0 60 0 ∧
      (∀ i, i ≤ 2048 → cubicStart.mTable i = (i : ℝ) / 1024 - 1) ∧
      InstanceProcess.update cubicStart cubicStart.mMaster = false := by
  obtain ⟨h1, h2, h3⟩ := ProcessInitialize_fields realMath 1024
    (OnParam1Slider (LoadFactoryPreset realMath (EffectDistortion.new realMath 44100) 7).1 0)
  have hp : (OnParam1Slider (LoadFactoryPreset realMath (EffectDistortion.new realMath 44100) 7).1
      0).mParams = preset 5 false (-6) (-70) 0 60 0 := by
    rw [OnParam1Slider_params]
    simp [LoadFactoryPreset, FactoryPresets, preset]
  refine ⟨?_, ?_, ?_⟩
  · unfold cubicStart
    rw [h1, hp]
  · intro i hi
    have h5 : kTableType.ofInt (5 : Int) = some kTableType.kCubic := by decide
    unfold cubicStart
    rw [h2]
    unfold MakeTable
    rw [hp]
    simp only [preset, h5]
    rw [CubicTable_zero _ _ _ (by rw [hp]; rfl)]
    simp only [if_pos (show i ≤ 2 * 1024 by omega)]
    norm_num
  · exact InstanceInit_clean _ _ _ _ _

/-- The linear threshold for -6 dB is the positive tenth root of 1/1000. -/
theorem threshold_pow : 0 < DB_TO_LINEAR realMath (-6) ∧
    (DB_TO_LINEAR realMath (-6)) ^ 10 = 1 / 1000 := by
  have h10 : (0 : ℝ) < 10 := by norm_num
  refine ⟨Real.rpow_pos_of_pos h10 _, ?_⟩
  show ((10 : ℝ) ^ ((-6 : ℝ) / 20)) ^ 10 = 1 / 1000
  rw [← Real.rpow_natCast, ← Real.rpow_mul h10.le]
  have : ((-6 : ℝ) / 20) * ((10 : ℕ) : ℝ) = -(3 : ℕ) := by norm_num
  rw [this, Real.rpow_neg h10.le, Real.rpow_natCast]
  norm_num

theorem threshold_bounds :
    (5011 : ℝ) / 10000 < DB_TO_LINEAR realMath (-6) ∧
      DB_TO_LINEAR realMath (-6) < 5012 / 10000 := by
  obtain ⟨hpos, hpow⟩ := threshold_pow
  constructor
  · apply lt_of_pow_lt_pow_left₀ 10 hpos.le
    rw [hpow]
    norm_num
  · apply lt_of_pow_lt_pow_left₀ 10 (by norm_num)
    rw [hpow]
    norm_num

theorem threshold_floor : Int.floor (((1024 : Nat) : ℝ) * DB_TO_LINEAR realMath (-6)) = 513 := by
  obtain ⟨h1, h2⟩ := threshold_bounds
  rw [Int.floor_eq_iff]
  push_cast
  constructor <;> linarith

theorem WaveShaper_ProcessInitialize (M : MathFns α) (STEPS : Nat) (e : EffectDistortion α)
    (x : α) :
    WaveShaper STEPS (ProcessInitialize M STEPS e) x = WaveShaper STEPS (MakeTable M STEPS e) x :=
  rfl

theorem new_fields (M : MathFns α) (sampleRate : α) :
    (EffectDistortion.new M sampleRate).mParams.mTableChoiceIndx = 0 ∧
      (EffectDistortion.new M sampleRate).mParams.mParam1 = 50 ∧
      (EffectDistortion.new M sampleRate).mThreshold = DB_TO_LINEAR M (-6) :=
  ⟨rfl, rfl, rfl⟩

theorem OnParam1Slider_threshold (e : EffectDistortion α) (v : Int) :
    (OnParam1Slider e v).mThreshold = e.mThreshold := rfl

/-- The default effect (HardClip at -6 dB, drive 50) maps 1/4 to 3/8. -/
theorem hardStart_quarter : WaveShaper 1024 hardStart (1 / 4) = 3 / 8 := by
  obtain ⟨n1, n2, n3⟩ := new_fields realMath (44100 : ℝ)
  obtain ⟨hpos, -⟩ := threshold_pow
  obtain ⟨hb1, hb2⟩ := threshold_bounds
  unfold hardStart
  rw [WaveShaper_ProcessInitialize]
  have h := (HardClip_through_WaveShaper realMath 1024 (by decide)
    (EffectDistortion.new realMath 44100) n1 (by rw [n3]; exact hpos)
    (by rw [n3]; linarith) (1 / 4)).1
  rw [n2, n3, threshold_floor] at h
  rw [h (by
    rw [abs_of_nonneg (by norm_num)]
    norm_num)]
  norm_num

/-- HardClip at -6 dB without pre-gain, between the knots 513/1024 and 514/1024. -/
theorem hardPlain_between (x : ℝ) (hx1 : 513 / 1024 ≤ x) (hx2 : x < 514 / 1024) :
    WaveShaper 1024 hardPlain x =
      513 / 1024 + (DB_TO_LINEAR realMath (-6) - 513 / 1024) * (1024 * x - 513) := by
  obtain ⟨n1, n2, n3⟩ := new_fields realMath (44100 : ℝ)
  have hk : (OnParam1Slider (EffectDistortion.new realMath 44100) 0).mParams.mTableChoiceIndx
      = 0 := by rw [OnParam1Slider_params]; exact n1
  have hp1 : (OnParam1Slider (EffectDistortion.new realMath 44100) 0).mParams.mParam1 = 0 := by
    rw [OnParam1Slider_params]; norm_num
  have hthr : (OnParam1Slider (EffectDistortion.new realMath 44100) 0).mThreshold =
      DB_TO_LINEAR realMath (-6) := by rw [OnParam1Slider_threshold, n3]
  obtain ⟨hpos, -⟩ := threshold_pow
  unfold hardPlain
  rw [WaveShaper_ProcessInitialize]
  obtain ⟨e', he'⟩ : ∃ e', e' = MakeTable realMath 1024
    (OnParam1Slider (EffectDistortion.new realMath 44100) 0) := ⟨_, rfl⟩
  rw [← he']
  have hcfg : e'.mParams = (OnParam1Slider (EffectDistortion.new realMath 44100) 0).mParams := by
    rw [he']; exact (MakeTable_config _ _ _).1
  have h0 : kTableType.ofInt (0 : Int) = some kTableType.kHardClip := by decide
  have hs : WaveShaperSample e' x = x := by
    unfold WaveShaperSample
    rw [hcfg, hk, h0]
    simp only []
    rw [hp1]
    ring
  have htab : ∀ i, i ≤ 2 * 1024 →
      e'.mTable i = hardClipEntry 1024 (DB_TO_LINEAR realMath (-6)) i := by
    intro i hi
    rw [he', MakeTable_hardClip _ _ _ hk, hthr]
    simp only [if_pos hi]
  obtain ⟨hi, ho⟩ := WaveShaper_interior 1024 (by decide) e' x (by rw [hs]; linarith)
    (by rw [hs]; linarith)
  rw [hs] at hi ho
  have hfl : Int.floor (x * ((1024 : Nat) : ℝ)) = 513 := by
    rw [Int.floor_eq_iff]
    push_cast
    constructor <;> linarith
  rw [hfl] at hi ho
  have hi' : WaveShaperIndex 1024 e' x = ((1537 : Nat) : Int) := by rw [hi]; rfl
  rw [WaveShaper_eq 1024 e' x _ _ hi' ho, htab _ (by decide), htab _ (by decide),
    hardClipEntry_mid 1024 _ _ (by rw [threshold_floor]; decide)
      (by rw [threshold_floor]; decide),
    hardClipEntry_high 1024 (by decide) _ hpos.le _ (by rw [threshold_floor]; decide)]
  push_cast
  ring

theorem hardStart_table (i : Nat) (hi : i ≤ 2048) :
    hardStart.mTable i = hardClipEntry 1024 (DB_TO_LINEAR realMath (-6)) i := by
  obtain ⟨n1, n2, n3⟩ := new_fields realMath (44100 : ℝ)
  unfold hardStart
  rw [(ProcessInitialize_fields _ _ _).2.1, MakeTable_hardClip _ _ _ n1, n3]
  simp only [if_pos (show i ≤ 2 * 1024 by omega)]

theorem forLoop_succ_lo {σ : Type} (lo hi : Nat) (body : Nat → σ → σ) (s : σ) (h : lo < hi) :
    forLoop lo hi body s = forLoop (lo + 1) hi body (body lo s) := by
  unfold forLoop
  have : hi - lo = (hi - (lo + 1)) + 1 := by omega
  rw [this, List.range'_succ, List.foldl_cons]

/-- `CopyHalfTable` negates the upper half into the lower half and leaves the rest. -/
theorem CopyHalfTable_eq (STEPS : Nat) (e : EffectDistortion α) :
    CopyHalfTable STEPS e =
      { e with mTable := fun i => if i < STEPS then -(e.mTable (2 * STEPS - i)) else e.mTable i } := by
  unfold CopyHalfTable
  have h := forLoop_induct
    (fun n (s : EffectDistortion α × Int) =>
      s.2 = (2 * STEPS : Int) - n ∧
      s.1 = { e with mTable := fun i =>
          if i < n then -(e.mTable (2 * STEPS - i)) else e.mTable i })
    0 STEPS
    (fun n (s : EffectDistortion α × Int) =>
      (s.1.setTable n (-(s.1.mTable s.2.toNat)), s.2 - 1))
    (e, ((TABLESIZE STEPS : Nat) : Int) - 1) (Nat.zero_le _)
    (by
      refine ⟨by simp [TABLESIZE], ?_⟩
      rcases e with ⟨a, b, c, t, d, f, g⟩
      simp)
    (by
      rintro n ⟨t, k⟩ _ hn ⟨hk, ht⟩
      simp only at hk ht
      subst hk ht
      refine ⟨by push_cast; ring, ?_⟩
      simp only [EffectDistortion.setTable]
      congr 1
      funext i
      have hidx : ((2 * STEPS : Int) - (n : Int)).toNat = 2 * STEPS - n := by omega
      rw [hidx]
      by_cases hi : i = n
      · subst hi
        simp only [Function.update_same]
        rw [if_neg (by omega), if_pos (by omega)]
      · rw [Function.update_noteq hi]
        by_cases h2 : i < n
        · rw [if_pos h2, if_pos (by omega)]
        · rw [if_neg h2, if_neg (by omega)])
  exact h.2

/-- Odd symmetry after `CopyHalfTable`, away from the origin. -/
theorem CopyHalfTable_odd (STEPS : Nat) (e : EffectDistortion α) (k : Nat) (hk1 : 1 ≤ k)
    (hk : k ≤ STEPS) :
    (CopyHalfTable STEPS e).mTable (STEPS + k) = -(CopyHalfTable STEPS e).mTable (STEPS - k) := by
  rw [CopyHalfTable_eq]
  simp only []
  rw [if_neg (by omega), if_pos (by omega)]
  have : 2 * STEPS - (STEPS - k) = STEPS + k := by omega
  rw [this, neg_neg]

/-- `CopyHalfTable` leaves the upper half, the origin included, as it is. -/
theorem CopyHalfTable_upper (STEPS : Nat) (e : EffectDistortion α) (i : Nat) (hi : STEPS ≤ i) :
    (CopyHalfTable STEPS e).mTable i = e.mTable i := by
  rw [CopyHalfTable_eq]
  simp only []
  rw [if_neg (by omega)]

theorem CopyHalfTable_gain (STEPS : Nat) (e : EffectDistortion α) :
    (CopyHalfTable STEPS e).mMakeupGain = e.mMakeupGain := by
  rw [CopyHalfTable_eq]

/-- A loop whose iteration `n` stores, in `mTable[n]`, a value that depends on `n` and on
members the loop does not write. -/
theorem forLoop_setTable_config (lo hi : Nat) (body : Nat → EffectDistortion α → EffectDistortion α)
    (f : Nat → α) (e : EffectDistortion α) (hle : lo ≤ hi)
    (hbody : ∀ n s, SameConfig e s → body n s = s.setTable n (f n)) :
    forLoop lo hi body e =
      { e with mTable := fun i => if lo ≤ i ∧ i < hi then f i else e.mTable i } := by
  refine forLoop_induct
    (fun n (s : EffectDistortion α) =>
      s = { e with mTable := fun i => if lo ≤ i ∧ i < n then f i else e.mTable i })
    lo hi _ e hle ?_ ?_
  · rcases e with ⟨a, b, c, t, d, g, h⟩
    simp only [EffectDistortion.mk.injEq, and_true, true_and]
    funext i
    rw [if_neg (by omega)]
  · rintro n t hn1 hn2 ht
    subst ht
    rw [hbody n { e with mTable := fun i => if lo ≤ i ∧ i < n then f i else e.mTable i }
      ⟨rfl, rfl, rfl, rfl, rfl⟩]
    simp only [EffectDistortion.setTable]
    congr 1
    funext i
    by_cases hi : i = n
    · subst hi
      simp [hn1]
    · rw [Function.update_noteq hi]
      by_cases h2 : lo ≤ i ∧ i < n
      · rw [if_pos h2, if_pos (by omega)]
      · rw [if_neg h2, if_neg (by omega)]

/-- A loop that stores a function of an accumulator in `mTable[n]` and then steps the
accumulator. -/
theorem forLoop_accum (lo hi : Nat) (g : α → α) (step x0 : α) (e : EffectDistortion α)
    (hle : lo ≤ hi) :
    forLoop lo hi (fun n (s : EffectDistortion α × α) => (s.1.setTable n (g s.2), s.2 + step))
        (e, x0) =
      ({ e with mTable := fun i =>
          if lo ≤ i ∧ i < hi then g (x0 + ((i - lo : Nat) : α) * step) else e.mTable i },
        x0 + ((hi - lo : Nat) : α) * step) := by
  refine forLoop_induct
    (fun n (s : EffectDistortion α × α) =>
      s = ({ e with mTable := fun i =>
          if lo ≤ i ∧ i < n then g (x0 + ((i - lo : Nat) : α) * step) else e.mTable i },
        x0 + ((n - lo : Nat) : α) * step))
    lo hi _ (e, x0) hle ?_ ?_
  · rcases e with ⟨a, b, c, t, d, g', h⟩
    simp only [Prod.mk.injEq, EffectDistortion.mk.injEq, and_true, true_and, Nat.sub_self,
      Nat.cast_zero, zero_mul, add_zero]
    funext i
    rw [if_neg (by omega)]
  · rintro n t hn1 hn2 ht
    subst ht
    simp only [EffectDistortion.setTable, Prod.mk.injEq]
    constructor
    · congr 1
      funext i
      by_cases hi : i = n
      · subst hi
        simp [hn1]
      · rw [Function.update_noteq hi]
        by_cases h2 : lo ≤ i ∧ i < n
        · rw [if_pos h2, if_pos (by omega)]
        · rw [if_neg h2, if_neg (by omega)]
    · have : n + 1 - lo = (n - lo) + 1 := by omega
      rw [this]
      push_cast
      ring

/-- The upper half of the table `SoftClip` builds, and its makeup gain. -/
theorem SoftClip_upper (M : MathFns α) (STEPS : Nat) (e : EffectDistortion α) (n : Nat)
    (h1 : STEPS ≤ n) (h2 : n ≤ 2 * STEPS) :
    (SoftClip M STEPS e).mTable n =
        (if (n : α) < (STEPS : α) * (1 + e.mThreshold) then (n : α) / (STEPS : α) - 1
          else LogCurve M e.mThreshold ((n : α) / (STEPS : α) - 1)
            (M.pow 2 (7 * e.mParams.mParam1 / 100))) ∧
      (SoftClip M STEPS e).mMakeupGain =
        1 / LogCurve M e.mThreshold 1 (M.pow 2 (7 * e.mParams.mParam1 / 100)) := by
  unfold SoftClip
  simp only []
  rw [CopyHalfTable_upper _ _ _ h1, CopyHalfTable_gain]
  rw [forLoop_setTable_config STEPS (TABLESIZE STEPS) _
    (fun n => if (n : α) < (STEPS : α) * (1 + e.mThreshold) then (n : α) / (STEPS : α) - 1
          else LogCurve M e.mThreshold ((n : α) / (STEPS : α) - 1)
            (M.pow 2 (7 * e.mParams.mParam1 / 100))) _ (by unfold TABLESIZE; omega)
    (by
      intro n s hs
      have ht : s.mThreshold = e.mThreshold := hs.2.1
      simp only []
      rw [ht]
      split_ifs <;> rfl)]
  simp only []
  rw [if_pos ⟨h1, by unfold TABLESIZE; omega⟩]
  exact ⟨rfl, rfl⟩

/-- The upper half of the table `ExponentialTable` builds. -/
theorem ExponentialTable_upper (M : MathFns α) (STEPS : Nat) (e : EffectDistortion α) (n : Nat)
    (h1 : STEPS ≤ n) (h2 : n ≤ 2 * STEPS) :
    (ExponentialTable M STEPS e).mTable n =
      -1 / (1 - min (999 / 1000) (DB_TO_LINEAR M (-1 * e.mParams.mParam1))) *
        (M.exp (((n : α) / (STEPS : α) - 1) *
          M.log (min (999 / 1000) (DB_TO_LINEAR M (-1 * e.mParams.mParam1)))) - 1) := by
  unfold ExponentialTable
  simp only []
  rw [CopyHalfTable_upper _ _ _ h1]
  rw [forLoop_setTable STEPS (TABLESIZE STEPS) _ e (by unfold TABLESIZE; omega)]
  simp only []
  rw [if_pos ⟨h1, by unfold TABLESIZE; omega⟩]

/-- The upper half of the table `LogarithmicTable` builds. -/
theorem LogarithmicTable_upper (M : MathFns α) (STEPS : Nat) (e : EffectDistortion α) (n : Nat)
    (h1 : STEPS ≤ n) (h2 : n ≤ 2 * STEPS) :
    (LogarithmicTable M STEPS e).mTable n =
      if e.mParams.mParam1 = 0 then 0 + ((n - STEPS : Nat) : α) * (1 / (STEPS : α))
      else M.log (1 + e.mParams.mParam1 * (0 + ((n - STEPS : Nat) : α) * (1 / (STEPS : α)))) /
        M.log (1 + e.mParams.mParam1) := by
  unfold LogarithmicTable
  simp only []
  rw [CopyHalfTable_upper _ _ _ h1]
  split_ifs with h0
  · rw [forLoop_accum STEPS (TABLESIZE STEPS) (fun x => x) _ _ e (by unfold TABLESIZE; omega)]
    simp only []
    rw [if_pos ⟨h1, by unfold TABLESIZE; omega⟩]
  · rw [forLoop_accum STEPS (TABLESIZE STEPS)
      (fun x => M.log (1 + e.mParams.mParam1 * x) / M.log (1 + e.mParams.mParam1)) _ _ e
      (by unfold TABLESIZE; omega)]
    simp only []
    rw [if_pos ⟨h1, by unfold TABLESIZE; omega⟩]

/-- In a loop whose iteration `n` writes no entry but `mTable[n]`, entry `lo` is the one
the first iteration leaves (state: the effect and an accumulator). -/
theorem forLoop_first_pair (lo hi : Nat) (body : Nat → EffectDistortion α × α → EffectDistortion α × α)
    (s : EffectDistortion α × α) (h : lo < hi)
    (hframe : ∀ n t i, i ≠ n → (body n t).1.mTable i = t.1.mTable i) :
    (forLoop lo hi body s).1.mTable lo = (body lo s).1.mTable lo := by
  rw [forLoop_succ_lo lo hi body s h]
  exact forLoop_induct
    (fun _ (t : EffectDistortion α × α) => t.1.mTable lo = (body lo s).1.mTable lo)
    (lo + 1) hi body (body lo s) (by omega) rfl
    (fun n t hn _ ht => (hframe n t lo (by omega)).trans ht)

/-- The same for a loop whose state is the effect alone. -/
theorem forLoop_first (lo hi : Nat) (body : Nat → EffectDistortion α → EffectDistortion α)
    (s : EffectDistortion α) (h : lo < hi)
    (hframe : ∀ n t i, i ≠ n → (body n t).mTable i = t.mTable i) :
    (forLoop lo hi body s).mTable lo = (body lo s).mTable lo := by
  rw [forLoop_succ_lo lo hi body s h]
  exact forLoop_induct
    (fun _ (t : EffectDistortion α) => t.mTable lo = (body lo s).mTable lo)
    (lo + 1) hi body (body lo s) (by omega) rfl
    (fun n t hn _ ht => (hframe n t lo (by omega)).trans ht)

/-- An inner loop that rewrites `mTable[n]` from its own value: the other entries stay, and a
value the rewriting fixes stays too. -/
theorem forLoop_rewrite (lo hi n : Nat) (f : α → α) (e : EffectDistortion α) :
    (∀ i, i ≠ n →
        (forLoop lo hi (fun _ (e : EffectDistortion α) => e.setTable n (f (e.mTable n))) e).mTable i
          = e.mTable i) ∧
      (∀ c, f c = c → e.mTable n = c →
        (forLoop lo hi (fun _ (e : EffectDistortion α) => e.setTable n (f (e.mTable n))) e).mTable n
          = c) := by
  constructor
  · intro i hi
    exact forLoop_preserve (fun s : EffectDistortion α => s.mTable i = e.mTable i) _ _ _ _ rfl
      (fun m t ht => by
        simp only [EffectDistortion.setTable]
        rw [Function.update_noteq hi]; exact ht)
  · intro c hc he
    exact forLoop_preserve (fun s : EffectDistortion α => s.mTable n = c) _ _ _ _ he
      (fun m t ht => by
        simp only [EffectDistortion.setTable, Function.update_same]
        rw [ht, hc])

theorem setTable_same (e : EffectDistortion α) (n : Nat) (v : α) :
    (e.setTable n v).mTable n = v := by
  simp [EffectDistortion.setTable]

theorem setTable_other (e : EffectDistortion α) (n i : Nat) (v : α) (h : i ≠ n) :
    (e.setTable n v).mTable i = e.mTable i := by
  simp [EffectDistortion.setTable, Function.update_noteq h]

/-- The origin entry of `HalfSinTable`, for a sine that vanishes at 0. -/
theorem HalfSinTable_origin (M : MathFns α) (STEPS : Nat) (e : EffectDistortion α)
    (hsin : M.sin 0 = 0) : (HalfSinTable M STEPS e).mTable STEPS = 0 := by
  unfold HalfSinTable
  simp only []
  rw [CopyHalfTable_upper _ _ _ (le_refl _)]
  rw [forLoop_first_pair STEPS (TABLESIZE STEPS) _ _ (by unfold TABLESIZE; omega) (by
    intro n t i hi
    simp only []
    rw [setTable_other _ _ _ _ hi,
      (forLoop_rewrite 0 _ n (fun v => M.sin (v * M.M_PI_2)) _).1 i hi,
      setTable_other _ _ _ _ hi])]
  simp only []
  have h0 := (forLoop_rewrite 0 (Int.floor (e.mParams.mParam1 / 20)).toNat STEPS
    (fun v => M.sin (v * M.M_PI_2)) (e.setTable STEPS 0)).2 0 (by simp [hsin])
    (setTable_same _ _ _)
  rw [setTable_same, h0]
  simp [hsin]

/-- The origin entry of `SineTable`, for a sine that is -1 at `-M_PI_2`. -/
theorem SineTable_origin (M : MathFns α) (STEPS : Nat) (e : EffectDistortion α)
    (hsin : M.sin (-M.M_PI_2) = -1) : (SineTable M STEPS e).mTable STEPS = 0 := by
  unfold SineTable
  simp only []
  rw [CopyHalfTable_upper _ _ _ (le_refl _)]
  rw [forLoop_first_pair STEPS (TABLESIZE STEPS) _ _ (by unfold TABLESIZE; omega) (by
    intro n t i hi
    simp only []
    rw [setTable_other _ _ _ _ hi,
      (forLoop_rewrite 0 _ n (fun v => (1 + M.sin ((v * M.M_PI) - M.M_PI_2)) / 2) _).1 i hi,
      setTable_other _ _ _ _ hi])]
  simp only []
  have hfix : (1 + M.sin (((0 : α) * M.M_PI) - M.M_PI_2)) / 2 = 0 := by
    rw [zero_mul, zero_sub, hsin]; norm_num
  have h0 := (forLoop_rewrite 0 (Int.floor (e.mParams.mParam1 / 20)).toNat STEPS
    (fun v => (1 + M.sin ((v * M.M_PI) - M.M_PI_2)) / 2) (e.setTable STEPS 0)).2 0 hfix
    (setTable_same _ _ _)
  rw [setTable_same, h0, hfix]
  simp

theorem gainLimits_values (noiseFloor : α) :
    gainLimits noiseFloor 0 = 1 / 10000 ∧ gainLimits noiseFloor 1 = noiseFloor ∧
      gainLimits noiseFloor 2 = 1 / 10 ∧ gainLimits noiseFloor 3 = 3 / 10 ∧
      gainLimits noiseFloor 4 = 5 / 10 ∧ gainLimits noiseFloor 5 = 1 := by
  unfold gainLimits
  refine ⟨?_, ?_, ?_, ?_, ?_, ?_⟩ <;> simp [Function.update]

theorem addOnValues_zero (noiseFloor : α) : addOnValues noiseFloor 0 = 0 := by
  unfold addOnValues
  exact forLoop_preserve (fun a : Nat → α => a 0 = 0) _ _ _ _ (by simp)
    (fun n t ht => by
      simp only []
      rw [Function.update_noteq (by omega)]
      exact ht)

/-- The search of `Leveller` continued below candidate `k`, all limits from `k` up being
above the value: the result is the lowest index from which all limits up to `k - 1` are
above the value. -/
theorem levellerIndex_diag (gl : Nat → α) (v : α) (k : Nat) :
    levellerIndex gl v k k ≤ k ∧
      (∀ j, levellerIndex gl v k k ≤ j → j < k → v < gl j) ∧
      (levellerIndex gl v k k = 0 ∨ gl (levellerIndex gl v k k - 1) ≤ v) := by
  induction k with
  | zero => exact ⟨le_refl _, fun j _ hj => absurd hj (Nat.not_lt_zero j), Or.inl rfl⟩
  | succ k ih =>
    unfold levellerIndex
    by_cases h : v < gl k
    · rw [if_pos h]
      obtain ⟨h1, h2, h3⟩ := ih
      refine ⟨by omega, fun j hj1 hj2 => ?_, h3⟩
      rcases Nat.lt_or_ge j k with hlt | hge
      · exact h2 j hj1 hlt
      · have : j = k := by omega
        rw [this]; exact h
    · rw [if_neg h]
      refine ⟨le_refl _, fun j hj1 hj2 => by omega, Or.inr ?_⟩
      simp only [Nat.add_sub_cancel]
      exact not_lt.mp h

/-- The segment index `Leveller` uses for the value `v`. -/
theorem levellerIndex_top (gl : Nat → α) (v : α) :
    levellerIndex gl v 6 5 ≤ 5 ∧
      (gl 5 ≤ v → levellerIndex gl v 6 5 = 5) ∧
      (v < gl 5 →
        (∀ j, levellerIndex gl v 6 5 ≤ j → j ≤ 5 → v < gl j) ∧
        (levellerIndex gl v 6 5 = 0 ∨ gl (levellerIndex gl v 6 5 - 1) ≤ v)) := by
  have hstep : levellerIndex gl v 6 5 = if v < gl 5 then levellerIndex gl v 5 5 else 5 := by
    rw [levellerIndex]
  obtain ⟨h1, h2, h3⟩ := levellerIndex_diag gl v 5
  rw [hstep]
  by_cases h : v < gl 5
  · rw [if_pos h]
    refine ⟨h1, fun hc => absurd h (not_lt.mpr hc), fun _ => ⟨fun j hj1 hj2 => ?_, h3⟩⟩
    rcases Nat.lt_or_ge j 5 with hlt | hge
    · exact h2 j hj1 hlt
    · have : j = 5 := by omega
      rw [this]; exact h
  · rw [if_neg h]
    exact ⟨le_refl _, fun _ => rfl, fun hc => absurd hc h⟩

/-- At the value 0, below all limits, the segment index is 0. -/
theorem levellerIndex_origin (gl : Nat → α) (hgl : ∀ j, j ≤ 5 → 0 < gl j) :
    levellerIndex gl 0 6 5 = 0 := by
  obtain ⟨h1, -, h3⟩ := levellerIndex_top gl 0
  rcases (h3 (hgl 5 (le_refl _))).2 with h | h
  · exact h
  · exact absurd h (not_le.mpr (hgl _ (by omega)))

/-- The origin entry of `Leveller`, for a positive linear noise floor. -/
theorem Leveller_origin (M : MathFns α) (STEPS : Nat) (e : EffectDistortion α)
    (hnf : 0 < DB_TO_LINEAR M e.mParams.mNoiseFloor) : (Leveller M STEPS e).mTable STEPS = 0 := by
  have hgl : ∀ j, j ≤ 5 → 0 < gainLimits (DB_TO_LINEAR M e.mParams.mNoiseFloor) j := by
    obtain ⟨g0, g1, g2, g3, g4, g5⟩ := gainLimits_values (DB_TO_LINEAR M e.mParams.mNoiseFloor)
    intro j hj
    interval_cases j
    · rw [g0]; norm_num
    · rw [g1]; exact hnf
    · rw [g2]; norm_num
    · rw [g3]; norm_num
    · rw [g4]; norm_num
    · rw [g5]; norm_num
  have hidx := levellerIndex_origin _ hgl
  have hadd := addOnValues_zero (DB_TO_LINEAR M e.mParams.mNoiseFloor)
  unfold Leveller
  simp only []
  rw [CopyHalfTable_upper _ _ _ (le_refl _)]
  rw [forLoop_first STEPS (TABLESIZE STEPS) _ _ (by unfold TABLESIZE; omega) (by
    intro n t i hi
    show ((if _ then _ else _ : EffectDistortion α)).mTable i = _
    have hin := (forLoop_rewrite 0 e.mParams.mRepeats.toNat n
      (fun v => v * gainFactors (levellerIndex (gainLimits (DB_TO_LINEAR M e.mParams.mNoiseFloor))
          v 6 (6 - 1)) +
        addOnValues (DB_TO_LINEAR M e.mParams.mNoiseFloor)
          (levellerIndex (gainLimits (DB_TO_LINEAR M e.mParams.mNoiseFloor)) v 6 (6 - 1)))
      (t.setTable n ((((n - STEPS : Nat) : α)) / (STEPS : α)))).1 i hi
    split_ifs
    · rw [setTable_other _ _ _ _ hi, hin, setTable_other _ _ _ _ hi]
    · rw [hin, setTable_other _ _ _ _ hi])]
  show ((if _ then _ else _ : EffectDistortion α)).mTable STEPS = _
  have hfix : (0 : α) * gainFactors (levellerIndex
      (gainLimits (DB_TO_LINEAR M e.mParams.mNoiseFloor)) 0 6 (6 - 1)) +
        addOnValues (DB_TO_LINEAR M e.mParams.mNoiseFloor)
          (levellerIndex (gainLimits (DB_TO_LINEAR M e.mParams.mNoiseFloor)) 0 6 (6 - 1)) = 0 := by
    rw [hidx, hadd]; simp
  have h0 := (forLoop_rewrite 0 e.mParams.mRepeats.toNat STEPS
      (fun v => v * gainFactors (levellerIndex (gainLimits (DB_TO_LINEAR M e.mParams.mNoiseFloor))
          v 6 (6 - 1)) +
        addOnValues (DB_TO_LINEAR M e.mParams.mNoiseFloor)
          (levellerIndex (gainLimits (DB_TO_LINEAR M e.mParams.mNoiseFloor)) v 6 (6 - 1)))
      (e.setTable STEPS ((((STEPS - STEPS : Nat) : α)) / (STEPS : α)))).2 0 hfix
      (by rw [setTable_same]; simp)
  split_ifs
  · rw [setTable_same, h0, hidx, hadd]
    simp
  · exact h0

theorem ofInt_values :
    kTableType.ofInt 0 = some kTableType.kHardClip ∧
      kTableType.ofInt 1 = some kTableType.kSoftClip ∧
      kTableType.ofInt 2 = some kTableType.kHalfSinCurve ∧
      kTableType.ofInt 3 = some kTableType.kExpCurve ∧
      kTableType.ofInt 4 = some kTableType.kLogCurve ∧
      kTableType.ofInt 5 = some kTableType.kCubic ∧
      kTableType.ofInt 6 = some kTableType.kEvenHarmonics ∧
      kTableType.ofInt 7 = some kTableType.kSinCurve ∧
      kTableType.ofInt 8 = some kTableType.kLeveller ∧
      kTableType.ofInt 9 = some kTableType.kRectifier ∧
      kTableType.ofInt 10 = some kTableType.kHardLimiter := by
  decide

/-- The generator `MakeTable` calls for each curve type. -/
theorem MakeTable_dispatch (M : MathFns α) (STEPS : Nat) (e : EffectDistortion α) :
    (e.mParams.mTableChoiceIndx = 0 → MakeTable M STEPS e = HardClip STEPS e) ∧
      (e.mParams.mTableChoiceIndx = 1 → MakeTable M STEPS e = SoftClip M STEPS e) ∧
      (e.mParams.mTableChoiceIndx = 2 → MakeTable M STEPS e = HalfSinTable M STEPS e) ∧
      (e.mParams.mTableChoiceIndx = 3 → MakeTable M STEPS e = ExponentialTable M STEPS e) ∧
      (e.mParams.mTableChoiceIndx = 4 → MakeTable M STEPS e = LogarithmicTable M STEPS e) ∧
      (e.mParams.mTableChoiceIndx = 5 → MakeTable M STEPS e = CubicTable M STEPS e) ∧
      (e.mParams.mTableChoiceIndx = 6 → MakeTable M STEPS e = EvenHarmonicTable M STEPS e) ∧
      (e.mParams.mTableChoiceIndx = 7 → MakeTable M STEPS e = SineTable M STEPS e) ∧
      (e.mParams.mTableChoiceIndx = 8 → MakeTable M STEPS e = Leveller M STEPS e) ∧
      (e.mParams.mTableChoiceIndx = 9 → MakeTable M STEPS e = Rectifier STEPS e) ∧
      (e.mParams.mTableChoiceIndx = 10 → MakeTable M STEPS e = HardLimiter STEPS e) := by
  obtain ⟨h0, h1, h2, h3, h4, h5, h6, h7, h8, h9, h10⟩ := ofInt_values
  unfold MakeTable
  refine ⟨?_, ?_, ?_, ?_, ?_, ?_, ?_, ?_, ?_, ?_, ?_⟩ <;> intro h <;> rw [h]
  · rw [h0]
  · rw [h1]
  · rw [h2]
  · rw [h3]
  · rw [h4]
  · rw [h5]
  · rw [h6]
  · rw [h7]
  · rw [h8]
  · rw [h9]
  · rw [h10]

/-- A table that went through `CopyHalfTable` with a zero at the origin is odd. -/
theorem CopyHalfTable_odd_all (STEPS : Nat) (e : EffectDistortion α) (h0 : e.mTable STEPS = 0)
    (k : Nat) (hk : k ≤ STEPS) :
    (CopyHalfTable STEPS e).mTable (STEPS + k) = -(CopyHalfTable STEPS e).mTable (STEPS - k) := by
  rcases Nat.eq_zero_or_pos k with hz | hpos
  · subst hz
    simp only [Nat.add_zero, Nat.sub_zero]
    rw [CopyHalfTable_upper _ _ _ (le_refl _), h0, neg_zero]
  · exact CopyHalfTable_odd STEPS e k hpos hk

theorem SoftClip_origin (M : MathFns α) (STEPS : Nat) (hS : 0 < STEPS) (e : EffectDistortion α)
    (ht : 0 < e.mThreshold) : (SoftClip M STEPS e).mTable STEPS = 0 := by
  have hSα : (0 : α) < (STEPS : α) := by exact_mod_cast hS
  rw [(SoftClip_upper M STEPS e STEPS (le_refl _) (by omega)).1, if_pos (by nlinarith),
    div_self (ne_of_gt hSα), sub_self]

theorem ExponentialTable_origin (M : MathFns α) (STEPS : Nat) (hS : 0 < STEPS)
    (e : EffectDistortion α) (hexp : M.exp 0 = 1) : (ExponentialTable M STEPS e).mTable STEPS = 0 := by
  have hSα : (0 : α) < (STEPS : α) := by exact_mod_cast hS
  rw [ExponentialTable_upper M STEPS e STEPS (le_refl _) (by omega), div_self (ne_of_gt hSα),
    sub_self, zero_mul, hexp, sub_self, mul_zero]

theorem LogarithmicTable_origin (M : MathFns α) (STEPS : Nat) (e : EffectDistortion α)
    (hlog : M.log 1 = 0) : (LogarithmicTable M STEPS e).mTable STEPS = 0 := by
  rw [LogarithmicTable_upper M STEPS e STEPS (le_refl _) (by omega)]
  simp only [Nat.sub_self, Nat.cast_zero, zero_mul, add_zero, mul_zero, hlog, zero_div, ite_self]

theorem realMath_facts :
    realMath.sin 0 = 0 ∧ realMath.sin (-realMath.M_PI_2) = -1 ∧ realMath.exp 0 = 1 ∧
      realMath.log 1 = 0 ∧ ∀ x : ℝ, 0 < DB_TO_LINEAR realMath x := by
  refine ⟨Real.sin_zero, ?_, Real.exp_zero, Real.log_one, fun x => ?_⟩
  · show Real.sin (-(Real.pi / 2)) = -1
    rw [Real.sin_neg, Real.sin_pi_div_two]
  · exact Real.rpow_pos_of_pos (by norm_num) _

/-- Each of the six mirrored generators is `CopyHalfTable` applied to a table whose origin
entry is 0 (real functions, positive linear threshold). -/
theorem mirrored_odd (STEPS : Nat) (hS : 0 < STEPS) (e : EffectDistortion ℝ)
    (ht : 0 < e.mThreshold) (k : Nat) (hk : k ≤ STEPS) :
    ((SoftClip realMath STEPS e).mTable (STEPS + k) =
        -(SoftClip realMath STEPS e).mTable (STEPS - k)) ∧
      ((HalfSinTable realMath STEPS e).mTable (STEPS + k) =
        -(HalfSinTable realMath STEPS e).mTable (STEPS - k)) ∧
      ((ExponentialTable realMath STEPS e).mTable (STEPS + k) =
        -(ExponentialTable realMath STEPS e).mTable (STEPS - k)) ∧
      ((LogarithmicTable realMath STEPS e).mTable (STEPS + k) =
        -(LogarithmicTable realMath STEPS e).mTable (STEPS - k)) ∧
      ((SineTable realMath STEPS e).mTable (STEPS + k) =
        -(SineTable realMath STEPS e).mTable (STEPS - k)) ∧
      ((Leveller realMath STEPS e).mTable (STEPS + k) =
        -(Leveller realMath STEPS e).mTable (STEPS - k)) := by
  obtain ⟨r1, r2, r3, r4, r5⟩ := realMath_facts
  have o1 := SoftClip_origin realMath STEPS hS e ht
  have o2 := HalfSinTable_origin realMath STEPS e r1
  have o3 := ExponentialTable_origin realMath STEPS hS e r3
  have o4 := LogarithmicTable_origin realMath STEPS e r4
  have o5 := SineTable_origin realMath STEPS e r2
  have o6 := Leveller_origin realMath STEPS e (r5 _)
  refine ⟨?_, ?_, ?_, ?_, ?_, ?_⟩
  · rw [SoftClip, CopyHalfTable_upper _ _ _ (le_refl _)] at o1
    exact CopyHalfTable_odd_all STEPS _ o1 k hk
  · rw [HalfSinTable, CopyHalfTable_upper _ _ _ (le_refl _)] at o2
    exact CopyHalfTable_odd_all STEPS _ o2 k hk
  · rw [ExponentialTable, CopyHalfTable_upper _ _ _ (le_refl _)] at o3
    exact CopyHalfTable_odd_all STEPS _ o3 k hk
  · rw [LogarithmicTable, CopyHalfTable_upper _ _ _ (le_refl _)] at o4
    exact CopyHalfTable_odd_all STEPS _ o4 k hk
  · rw [SineTable, CopyHalfTable_upper _ _ _ (le_refl _)] at o5
    exact CopyHalfTable_odd_all STEPS _ o5 k hk
  · rw [Leveller, CopyHalfTable_upper _ _ _ (le_refl _)] at o6
    exact CopyHalfTable_odd_all STEPS _ o6 k hk

/-- The entry of `HardClip` is the identity ramp clipped to `±t`. -/
theorem hardClipEntry_clamp (STEPS : Nat) (hS : 0 < STEPS) (t : α) (ht : 0 < t) (n : Nat) :
    hardClipEntry STEPS t n = min (max ((n : α) / (STEPS : α) - 1) (-t)) t := by
  have hSα : (0 : α) < (STEPS : α) := by exact_mod_cast hS
  have hx : (n : α) = ((n : α) / (STEPS : α) - 1) * (STEPS : α) + (STEPS : α) := by
    field_simp
  set x := (n : α) / (STEPS : α) - 1 with hxdef
  unfold hardClipEntry
  by_cases c1 : (n : α) < (STEPS : α) * (1 - t)
  · rw [if_pos c1]
    have hlt : x < -t := by
      by_contra hc
      push_neg at hc
      have := mul_le_mul_of_nonneg_right hc hSα.le
      rw [hx] at c1
      linarith
    rw [max_eq_right hlt.le, min_eq_left (by linarith)]
  · rw [if_neg c1]
    have hge : -t ≤ x := by
      by_contra hc
      push_neg at hc
      have := mul_lt_mul_of_pos_right hc hSα
      rw [hx] at c1
      apply c1
      linarith
    by_cases c2 : (n : α) > (STEPS : α) * (1 + t)
    · rw [if_pos c2]
      have hgt : t < x := by
        by_contra hc
        push_neg at hc
        have := mul_le_mul_of_nonneg_right hc hSα.le
        rw [hx] at c2
        linarith
      rw [max_eq_left hge, min_eq_right hgt.le]
    · rw [if_neg c2]
      have hle : x ≤ t := by
        by_contra hc
        push_neg at hc
        have := mul_lt_mul_of_pos_right hc hSα
        rw [hx] at c2
        apply c2
        linarith
      rw [max_eq_left hge, min_eq_left hle]

/-- The entries of the table `Rectifier` builds. -/
theorem Rectifier_entries (STEPS : Nat) (e : EffectDistortion α) (n : Nat) (hn : n ≤ STEPS) :
    (Rectifier STEPS e).mTable (STEPS + n) = (n : α) / (STEPS : α) ∧
      (1 ≤ n → (Rectifier STEPS e).mTable (STEPS - n) =
        (n : α) / (STEPS : α) * (e.mParams.mParam1 / 50 - 1)) := by
  rw [Rectifier_eq]
  simp only []
  constructor
  · rw [if_pos (by omega)]
    unfold rectifierEntry
    rw [if_pos (by omega), Nat.add_sub_cancel_left, mul_one_div]
  · intro h1
    rw [if_pos (by omega)]
    unfold rectifierEntry
    rw [if_neg (by omega)]
    have : STEPS - (STEPS - n) = n := by omega
    rw [this, mul_one_div]

/-- With `param1 = 0` the table of `Rectifier` is the identity ramp. -/
theorem Rectifier_identity (STEPS : Nat) (hS : 0 < STEPS) (e : EffectDistortion α)
    (h0 : e.mParams.mParam1 = 0) (i : Nat) (hi : i ≤ 2 * STEPS) :
    (Rectifier STEPS e).mTable i = (i : α) / (STEPS : α) - 1 := by
  have hSα : (0 : α) < (STEPS : α) := by exact_mod_cast hS
  rw [Rectifier_eq]
  simp only []
  rw [if_pos hi, h0]
  unfold rectifierEntry
  by_cases h : STEPS ≤ i
  · rw [if_pos h, Nat.cast_sub h]
    field_simp
  · rw [if_neg h, Nat.cast_sub (by omega)]
    field_simp

/-- With `param1 = 0` `LogarithmicTable` stores `k/STEPS` at `STEPS + k` and calls no
function of `<cmath>`. -/
theorem LogarithmicTable_zero (M : MathFns α) (STEPS : Nat) (e : EffectDistortion α)
    (h0 : e.mParams.mParam1 = 0) :
    (∀ k, k ≤ STEPS → (LogarithmicTable M STEPS e).mTable (STEPS + k) = (k : α) / (STEPS : α)) ∧
      ∀ M' : MathFns α, LogarithmicTable M' STEPS e = LogarithmicTable M STEPS e := by
  constructor
  · intro k hk
    rw [LogarithmicTable_upper M STEPS e (STEPS + k) (by omega) (by omega), if_pos h0,
      Nat.add_sub_cancel_left, zero_add, mul_one_div]
  · intro M'
    unfold LogarithmicTable
    simp only [h0, if_true]

/-- The segment index of `Leveller` for limits that do not decrease. -/
theorem levellerIndex_lowest (noiseFloor v : α) (h1 : 1 / 10000 ≤ noiseFloor)
    (h2 : noiseFloor ≤ 1 / 10) :
    levellerIndex (gainLimits noiseFloor) v 6 5 ≤ 5 ∧
      (1 ≤ v → levellerIndex (gainLimits noiseFloor) v 6 5 = 5) ∧
      (v < 1 →
        v < gainLimits noiseFloor (levellerIndex (gainLimits noiseFloor) v 6 5) ∧
        ∀ j, j < levellerIndex (gainLimits noiseFloor) v 6 5 → gainLimits noiseFloor j ≤ v) := by
  obtain ⟨g0, g1, g2, g3, g4, g5⟩ := gainLimits_values noiseFloor
  obtain ⟨t1, t2, t3⟩ := levellerIndex_top (gainLimits noiseFloor) v
  have hmono : ∀ i j, i ≤ j → j ≤ 5 → gainLimits noiseFloor i ≤ gainLimits noiseFloor j := by
    intro i j hij hj
    have hstep : ∀ m, m < 5 → gainLimits noiseFloor m ≤ gainLimits noiseFloor (m + 1) := by
      intro m hm
      interval_cases m
      · rw [g0, g1]; exact h1
      · rw [g1, g2]; exact h2
      · rw [g2, g3]; norm_num
      · rw [g3, g4]; norm_num
      · rw [g4, g5]; norm_num
    induction j with
    | zero =>
      have : i = 0 := by omega
      rw [this]
    | succ j ih =>
      rcases Nat.eq_or_lt_of_le hij with heq | hlt
      · rw [heq]
      · exact le_trans (ih (by omega) (by omega)) (hstep j (by omega))
  refine ⟨t1, fun hv => t2 (by rw [g5]; exact hv), fun hv => ?_⟩
  obtain ⟨a1, a2⟩ := t3 (by rw [g5]; exact hv)
  refine ⟨a1 _ (le_refl _) t1, fun j hj => ?_⟩
  rcases a2 with hz | hle
  · omega
  · exact le_trans (hmono j _ (by omega) (by omega)) hle

/-- A block of length 0: the sample loop does not run, the five cache assignments do. -/
theorem ProcessBlock_nil (M : MathFns α) (STEPS : Nat) (e : EffectDistortion α) :
    (ProcessBlock M STEPS e []).2 = ([], 0) ∧ (ProcessBlock M STEPS e []).1.mParams = e.mParams ∧
      (ProcessBlock M STEPS e []).1.mTable = e.mTable ∧
      (ProcessBlock M STEPS e []).1.mMakeupGain = e.mMakeupGain ∧
      (ProcessBlock M STEPS e []).1.mMaster = InstanceProcess.cache e e.mMaster :=
  ⟨rfl, rfl, rfl, rfl, rfl⟩

theorem emptyEdit_fields :
    emptyEdit.mParams = preset 9 false (-6) (-70) 100 50 0 ∧ emptyEdit.mMaster = staleStart.mMaster ∧
      emptyEdit.mTable = staleStart.mTable := by
  unfold emptyEdit
  refine ⟨?_, OnParam1Slider_master _ _, OnParam1Slider_table _ _⟩
  rw [OnParam1Slider_params, staleStart_params]
  simp [preset]

theorem emptyEdit_update : InstanceProcess.update emptyEdit emptyEdit.mMaster = true := by
  obtain ⟨hp, hm, -⟩ := emptyEdit_fields
  obtain ⟨m1, -⟩ := staleStart_master
  unfold InstanceProcess.update
  rw [if_neg]
  rintro ⟨-, -, -, h, -⟩
  rw [hp, hm, m1] at h
  simp [preset] at h

/-- The cached values after the assignments at the top of `InstanceProcess`. -/
theorem cache_fields (e : EffectDistortion α) (data : EffectDistortionState α) :
    (InstanceProcess.cache e data).param1 = e.mParams.mParam1 ∧
      (InstanceProcess.cache e data).param2 = data.param2 ∧
      (InstanceProcess.cache e data).skipcount = data.skipcount ∧
      (InstanceProcess.cache e data).queuesamples = data.queuesamples ∧
      (InstanceProcess.cache e data).queuetotal = data.queuetotal :=
  ⟨rfl, rfl, rfl, rfl, rfl⟩

theorem emptyBlock_fields :
    emptyBlock.2 = ([], 0) ∧ emptyBlock.1.mParams = preset 9 false (-6) (-70) 100 50 0 ∧
      emptyBlock.1.mTable = staleStart.mTable ∧
      emptyBlock.1.mMaster = InstanceProcess.cache emptyEdit staleStart.mMaster := by
  obtain ⟨hp, hm, ht⟩ := emptyEdit_fields
  obtain ⟨a, b, c, -, d⟩ := ProcessBlock_nil realMath 1024 emptyEdit
  unfold emptyBlock
  exact ⟨a, b.trans hp, c.trans ht, d.trans (by rw [hm])⟩

theorem emptyBlock_clean : InstanceProcess.update emptyBlock.1 emptyBlock.1.mMaster = false := by
  obtain ⟨hp, hm, -⟩ := emptyEdit_fields
  obtain ⟨-, m2, -⟩ := staleStart_master
  unfold emptyBlock
  rw [update_after_ProcessBlock, if_pos]
  rw [hp, hm, m2]
  rfl

theorem automationStart_fields :
    automationStart.mParams = preset 0 false (-12) (-70) 0 80 0 ∧
      automationStart.mThreshold = DB_TO_LINEAR realMath (-6) ∧
      automationStart.mMakeupGain = 1 / DB_TO_LINEAR realMath (-6) ∧
      ∀ i, i ≤ 2048 → automationStart.mTable i = hardClipEntry 1024 (DB_TO_LINEAR realMath (-6)) i := by
  obtain ⟨e, he⟩ : ∃ e, e = (SetAutomationParameters (EffectDistortion.new realMath 44100)
      (some (preset 0 false (-12) (-70) 0 80 0))).1 := ⟨_, rfl⟩
  have hS : ∀ (x : EffectDistortion ℝ) (p : Params ℝ),
      (SetAutomationParameters x (some p)).1.mParams = p ∧
      (SetAutomationParameters x (some p)).1.mThreshold = x.mThreshold := fun _ _ => ⟨rfl, rfl⟩
  have hp : e.mParams = preset 0 false (-12) (-70) 0 80 0 := by rw [he]; exact (hS _ _).1
  have ht : e.mThreshold = DB_TO_LINEAR realMath (-6) := by
    rw [he, (hS _ _).2]; exact (new_fields realMath 44100).2.2
  have hidx : e.mParams.mTableChoiceIndx = 0 := by rw [hp]; rfl
  have hM := MakeTable_hardClip realMath 1024 e hidx
  have ha : automationStart = ProcessInitialize realMath 1024 e := by rw [he]; unfold automationStart; rfl
  have hmk : ∀ x : EffectDistortion ℝ, (ProcessInitialize realMath 1024 x).mThreshold =
      (MakeTable realMath 1024 x).mThreshold ∧
      (ProcessInitialize realMath 1024 x).mMakeupGain = (MakeTable realMath 1024 x).mMakeupGain :=
    fun _ => ⟨rfl, rfl⟩
  rw [ha]
  refine ⟨?_, ?_, ?_, ?_⟩
  · rw [(ProcessInitialize_fields realMath 1024 e).1, hp]
  · rw [(hmk e).1, hM]
    exact ht
  · rw [(hmk e).2, hM]
    show 1 / e.mThreshold = _
    rw [ht]
  · intro i hi
    rw [(ProcessInitialize_fields realMath 1024 e).2.1, hM]
    show (if i ≤ 2 * 1024 then hardClipEntry 1024 e.mThreshold i else e.mTable i) = _
    rw [if_pos (by omega), ht]

theorem presetStart_fields :
    presetStart.mParams = preset 0 false (-12) (-70) 0 80 0 ∧
      presetStart.mThreshold = DB_TO_LINEAR realMath (-12) := by
  obtain ⟨e, he⟩ : ∃ e, e = (LoadFactoryPreset realMath (EffectDistortion.new realMath 44100) 0).1 :=
    ⟨_, rfl⟩
  have hL : (LoadFactoryPreset realMath (EffectDistortion.new realMath 44100) 0) =
      ({ (EffectDistortion.new realMath 44100) with
          mParams := preset 0 false (-12) (-70) 0 80 0
          mThreshold := DB_TO_LINEAR realMath (preset 0 false (-12) (-70) 0 80 0 : Params ℝ).mThreshold_dB },
        true) := by
    unfold LoadFactoryPreset
    rw [if_neg (by simp [FactoryPresets])]
    rfl
  have hp : e.mParams = preset 0 false (-12) (-70) 0 80 0 := by rw [he, hL]
  have ht : e.mThreshold = DB_TO_LINEAR realMath (-12) := by rw [he, hL]; rfl
  have ha : presetStart = ProcessInitialize realMath 1024 e := by rw [he]; unfold presetStart; rfl
  rw [ha]
  refine ⟨?_, ?_⟩
  · rw [(ProcessInitialize_fields realMath 1024 e).1, hp]
  · have := (MakeTable_config realMath 1024 e).2.1
    exact this.trans ht

/-- The linear value of a dB figure increases with it. -/
theorem DB_TO_LINEAR_lt (x y : ℝ) (h : x < y) :
    DB_TO_LINEAR realMath x < DB_TO_LINEAR realMath y := by
  show (10 : ℝ) ^ (x / 20) < (10 : ℝ) ^ (y / 20)
  rw [Real.rpow_lt_rpow_left_iff (by norm_num)]
  linarith

/-- The roll-off of `LogCurve` over the reals, written with a positive denominator. -/
theorem LogCurve_real (t v a : ℝ) :
    LogCurve realMath t v a = t + (1 - Real.exp (-a * (v - t))) / a := by
  show t + ((Real.exp (a * (t - v)) - 1) / -a) = t + (1 - Real.exp (-a * (v - t))) / a
  have h : -a * (v - t) = a * (t - v) := by ring
  rw [h, div_neg, ← neg_div, neg_sub]

/-- The roll-off of `LogCurve` at a value above the threshold lies between the threshold and
the value. -/
theorem LogCurve_bounds (t v a : ℝ) (ha : 0 < a) (hv : t ≤ v) :
    t ≤ LogCurve realMath t v a ∧ LogCurve realMath t v a ≤ v := by
  rw [LogCurve_real]
  have hy : 0 ≤ a * (v - t) := mul_nonneg ha.le (by linarith)
  have hneg : -a * (v - t) = -(a * (v - t)) := by ring
  have h1 : Real.exp (-a * (v - t)) ≤ 1 := by
    rw [hneg, Real.exp_le_one_iff]
    linarith
  have h2 : 1 - a * (v - t) ≤ Real.exp (-a * (v - t)) := by
    have := Real.add_one_le_exp (-(a * (v - t)))
    rw [hneg]
    linarith
  constructor
  · have : 0 ≤ (1 - Real.exp (-a * (v - t))) / a := div_nonneg (by linarith) ha.le
    linarith
  · have : (1 - Real.exp (-a * (v - t))) / a ≤ v - t := by
      rw [div_le_iff₀ ha]
      linarith
    linarith

/-- The table and the makeup gain of `SoftClip` over the reals. -/
theorem SoftClip_real (STEPS : Nat) (hS : 0 < STEPS) (e : EffectDistortion ℝ)
    (ht : 0 < e.mThreshold) (ht1 : e.mThreshold ≤ 1) :
    0 < (2 : ℝ) ^ (7 * e.mParams.mParam1 / 100) ∧
      (∀ n : Nat, STEPS ≤ n → n ≤ 2 * STEPS →
        ((n : ℝ) < (STEPS : ℝ) * (1 + e.mThreshold) →
          (SoftClip realMath STEPS e).mTable n = (n : ℝ) / (STEPS : ℝ) - 1) ∧
        (¬ (n : ℝ) < (STEPS : ℝ) * (1 + e.mThreshold) →
          (SoftClip realMath STEPS e).mTable n =
            e.mThreshold +
              (1 - Real.exp (-(2 : ℝ) ^ (7 * e.mParams.mParam1 / 100) *
                ((n : ℝ) / (STEPS : ℝ) - 1 - e.mThreshold))) /
                (2 : ℝ) ^ (7 * e.mParams.mParam1 / 100))) ∧
      (SoftClip realMath STEPS e).mMakeupGain =
        1 / (e.mThreshold +
          (1 - Real.exp (-(2 : ℝ) ^ (7 * e.mParams.mParam1 / 100) * (1 - e.mThreshold))) /
            (2 : ℝ) ^ (7 * e.mParams.mParam1 / 100)) ∧
      (SoftClip realMath STEPS e).mTable (2 * STEPS) =
        e.mThreshold +
          (1 - Real.exp (-(2 : ℝ) ^ (7 * e.mParams.mParam1 / 100) * (1 - e.mThreshold))) /
            (2 : ℝ) ^ (7 * e.mParams.mParam1 / 100) ∧
      (SoftClip realMath STEPS e).mMakeupGain * (SoftClip realMath STEPS e).mTable (2 * STEPS) = 1 ∧
      (SoftClip realMath STEPS e).mTable (2 * STEPS) ≤ 1 := by
  have hSr : (0 : ℝ) < (STEPS : ℝ) := by exact_mod_cast hS
  have ha : 0 < (2 : ℝ) ^ (7 * e.mParams.mParam1 / 100) := Real.rpow_pos_of_pos (by norm_num) _
  have hpow : realMath.pow 2 (7 * e.mParams.mParam1 / 100) = (2 : ℝ) ^ (7 * e.mParams.mParam1 / 100) :=
    rfl
  have hgain := (SoftClip_upper realMath STEPS e STEPS (le_refl _) (by omega)).2
  rw [hpow, LogCurve_real] at hgain
  have htop : (SoftClip realMath STEPS e).mTable (2 * STEPS) =
      e.mThreshold +
        (1 - Real.exp (-(2 : ℝ) ^ (7 * e.mParams.mParam1 / 100) * (1 - e.mThreshold))) /
          (2 : ℝ) ^ (7 * e.mParams.mParam1 / 100) := by
    have h := (SoftClip_upper realMath STEPS e (2 * STEPS) (by omega) (le_refl _)).1
    have hc : ¬ (((2 * STEPS : Nat) : ℝ) < (STEPS : ℝ) * (1 + e.mThreshold)) := by
      push_cast
      intro hlt
      have : (STEPS : ℝ) * (1 + e.mThreshold) ≤ (STEPS : ℝ) * 2 :=
        mul_le_mul_of_nonneg_left (by linarith) hSr.le
      linarith
    rw [if_neg hc, hpow, LogCurve_real] at h
    have hx : ((2 * STEPS : Nat) : ℝ) / (STEPS : ℝ) - 1 = 1 := by
      push_cast
      field_simp
      ring
    rw [hx] at h
    exact h
  have hb := LogCurve_bounds e.mThreshold 1 _ ha ht1
  rw [LogCurve_real] at hb
  refine ⟨ha, ?_, hgain, htop, ?_, ?_⟩
  · intro n h1 h2
    have h := (SoftClip_upper realMath STEPS e n h1 h2).1
    constructor
    · intro hc
      rw [if_pos hc] at h
      exact h
    · intro hc
      rw [if_neg hc, hpow, LogCurve_real] at h
      exact h
  · rw [hgain, htop]
    exact one_div_mul_cancel (by linarith [hb.1])
  · rw [htop]
    exact hb.2

/-- The table of `ExponentialTable` over the reals. -/
theorem ExponentialTable_real (STEPS : Nat) (hS : 0 < STEPS) (e : EffectDistortion ℝ) :
    0 < min (999 / 1000) ((10 : ℝ) ^ (-e.mParams.mParam1 / 20)) ∧
      0 < 1 - min (999 / 1000) ((10 : ℝ) ^ (-e.mParams.mParam1 / 20)) ∧
      (∀ k : Nat, k ≤ STEPS →
        (ExponentialTable realMath STEPS e).mTable (STEPS + k) =
          (1 - (min (999 / 1000) ((10 : ℝ) ^ (-e.mParams.mParam1 / 20))) ^ ((k : ℝ) / (STEPS : ℝ))) /
            (1 - min (999 / 1000) ((10 : ℝ) ^ (-e.mParams.mParam1 / 20)))) ∧
      (ExponentialTable realMath STEPS e).mTable (2 * STEPS) = 1 := by
  have hSr : (0 : ℝ) < (STEPS : ℝ) := by exact_mod_cast hS
  have hdb : DB_TO_LINEAR realMath (-1 * e.mParams.mParam1) = (10 : ℝ) ^ (-e.mParams.mParam1 / 20) := by
    show (10 : ℝ) ^ (-1 * e.mParams.mParam1 / 20) = _
    rw [neg_one_mul]
  obtain ⟨am, ham⟩ : ∃ am, am = min (999 / 1000) ((10 : ℝ) ^ (-e.mParams.mParam1 / 20)) := ⟨_, rfl⟩
  have hpos : 0 < am := by
    rw [ham]
    exact lt_min (by norm_num) (Real.rpow_pos_of_pos (by norm_num) _)
  have hlt : 0 < 1 - am := by
    have : am ≤ 999 / 1000 := by rw [ham]; exact min_le_left _ _
    linarith
  have hent : ∀ k : Nat, k ≤ STEPS →
      (ExponentialTable realMath STEPS e).mTable (STEPS + k) =
        (1 - am ^ ((k : ℝ) / (STEPS : ℝ))) / (1 - am) := by
    intro k hk
    rw [ExponentialTable_upper realMath STEPS e (STEPS + k) (by omega) (by omega), hdb, ← ham]
    show -1 / (1 - am) * (Real.exp ((((STEPS + k : Nat) : ℝ) / (STEPS : ℝ) - 1) * Real.log am) - 1) = _
    have hx : ((STEPS + k : Nat) : ℝ) / (STEPS : ℝ) - 1 = (k : ℝ) / (STEPS : ℝ) := by
      push_cast
      field_simp
    rw [hx, Real.rpow_def_of_pos hpos, mul_comm (Real.log am)]
    field_simp
  rw [← ham]
  refine ⟨hpos, hlt, hent, ?_⟩
  have h := hent STEPS (le_refl _)
  have h2 : STEPS + STEPS = 2 * STEPS := by omega
  rw [h2, div_self hSr.ne', Real.rpow_one] at h
  rw [h]
  exact div_self hlt.ne'

/-- The preset "Blues drive sustain" selects the half-sine curve and the threshold of -6 dB. -/
theorem bluesPreset_fields :
    (LoadFactoryPreset realMath (EffectDistortion.new realMath 44100) 4).1.mParams.mTableChoiceIndx = 2 ∧
      (LoadFactoryPreset realMath (EffectDistortion.new realMath 44100) 4).1.mThreshold =
        DB_TO_LINEAR realMath (-6) := by
  constructor
  · simp [LoadFactoryPreset, FactoryPresets, preset]
  · simp [LoadFactoryPreset, FactoryPresets, preset]

/-- A noise floor between -80 dB and -20 dB has a linear value between 0.0001 and 0.1. -/
theorem noiseFloor_bounds (x : ℝ) (h1 : -80 ≤ x) (h2 : x ≤ -20) :
    1 / 10000 ≤ DB_TO_LINEAR realMath x ∧ DB_TO_LINEAR realMath x ≤ 1 / 10 := by
  have h10 : (1 : ℝ) < 10 := by norm_num
  have e4 : (10 : ℝ) ^ (-(4 : ℝ)) = 1 / 10000 := by
    rw [Real.rpow_neg (by norm_num), show (4 : ℝ) = ((4 : ℕ) : ℝ) by norm_num, Real.rpow_natCast]
    norm_num
  have e1 : (10 : ℝ) ^ (-(1 : ℝ)) = 1 / 10 := by
    rw [Real.rpow_neg (by norm_num), Real.rpow_one]
    norm_num
  constructor
  · rw [← e4]
    show (10 : ℝ) ^ (-(4 : ℝ)) ≤ (10 : ℝ) ^ (x / 20)
    rw [Real.rpow_le_rpow_left_iff h10]
    linarith
  · rw [← e1]
    show (10 : ℝ) ^ (x / 20) ≤ (10 : ℝ) ^ (-(1 : ℝ))
    rw [Real.rpow_le_rpow_left_iff h10]
    linarith

/-- The entries of `FactoryPresets` named "Half-wave Rectifier" and "Full-wave Rectifier". -/
theorem rectifier_presets :
    (FactoryPresets : List (Params α)).get? 16 = some (preset 9 false (-6) (-70) 50 50 0) ∧
      (FactoryPresets : List (Params α)).get? 17 = some (preset 9 false (-6) (-70) 100 50 0) :=
  ⟨rfl, rfl⟩

/-- What `InstanceInit` stores in the instance. -/
theorem InstanceInit_cached (M : MathFns α) (STEPS : Nat) (e : EffectDistortion α)
    (data : EffectDistortionState α) (sampleRate : α) :
    (InstanceInit M STEPS e data sampleRate).1 = MakeTable M STEPS e ∧
      (InstanceInit M STEPS e data sampleRate).2.tablechoiceindx = e.mParams.mTableChoiceIndx ∧
      (InstanceInit M STEPS e data sampleRate).2.dcblock = e.mParams.mDCBlock ∧
      (InstanceInit M STEPS e data sampleRate).2.threshold = e.mParams.mThreshold_dB ∧
      (InstanceInit M STEPS e data sampleRate).2.noisefloor = e.mParams.mNoiseFloor ∧
      (InstanceInit M STEPS e data sampleRate).2.param1 = e.mParams.mParam1 ∧
      (InstanceInit M STEPS e data sampleRate).2.param2 = e.mParams.mParam2 ∧
      (InstanceInit M STEPS e data sampleRate).2.repeats = e.mParams.mRepeats :=
  ⟨rfl, rfl, rfl, rfl, rfl, rfl, rfl, rfl⟩

/-- A block processed with `emptyEdit` right after the edit rebuilds the table. -/
theorem emptyEdit_rebuild (x : ℝ) :
    (ProcessBlock realMath 1024 emptyEdit [x]).1.mTable 0 = 1 ∧
      (MakeTable realMath 1024 emptyBlock.1).mTable 0 = 1 := by
  obtain ⟨hp, hm, -⟩ := emptyEdit_fields
  obtain ⟨-, hp', -, -⟩ := emptyBlock_fields
  obtain ⟨-, -, m3, -⟩ := staleStart_master
  constructor
  · rw [ProcessBlock_table, InstanceProcess_single _ _ _ _ _ emptyEdit_update, hm, m3,
      if_pos (by decide), MakeTable_rectifier _ _ _ (by rw [hp]; rfl), hp]
    simp [rectifierEntry, preset]
    norm_num
  · rw [MakeTable_rectifier _ _ _ (by rw [hp']; rfl), hp']
    simp [rectifierEntry, preset]
    norm_num

/-- Without pre-gain `WaveShaper` looks up the sample itself. -/
theorem WaveShaperSample_plain (e : EffectDistortion α) (sample : α)
    (h : e.mParams.mTableChoiceIndx ≠ 0 ∨ e.mParams.mParam1 = 0) :
    WaveShaperSample e sample = sample := by
  rcases h with h | h
  · exact WaveShaperSample_other e sample h
  · by_cases h0 : e.mParams.mTableChoiceIndx = 0
    · unfold WaveShaperSample
      rw [h0, ofInt_values.1]
      show sample * (1 + e.mParams.mParam1 / 100) = sample
      rw [h, zero_div, add_zero, mul_one]
    · exact WaveShaperSample_other e sample h0

/-- Two assignments to the same entry: the second one counts. -/
theorem setTable_setTable (e : EffectDistortion α) (n : Nat) (v w : α) :
    (e.setTable n v).setTable n w = e.setTable n w := by
  simp [EffectDistortion.setTable]

/-- A loop of `k` iterations that rewrites `mTable[n]` from its own value applies the
rewriting `k` times. -/
theorem forLoop_iterate (k n : Nat) (g : α → α) (s : EffectDistortion α) (v : α) :
    forLoop 0 k (fun _ (e : EffectDistortion α) => e.setTable n (g (e.mTable n)))
      (s.setTable n v) = s.setTable n (g^[k] v) := by
  induction k with
  | zero => rw [forLoop_empty _ _ _ _ (le_refl _)]; rfl
  | succ k ih =>
    rw [forLoop_succ_hi _ _ _ _ (Nat.zero_le _), ih]
    show (s.setTable n (g^[k] v)).setTable n (g ((s.setTable n (g^[k] v)).mTable n)) = _
    rw [setTable_same, setTable_setTable, Function.iterate_succ_apply']

/-- The table `Leveller` builds, entry by entry. -/
theorem Leveller_eq (M : MathFns α) (STEPS : Nat) (e : EffectDistortion α) :
    Leveller M STEPS e =
      { e with mTable := fun i =>
                if i < STEPS then
                  -(levellerEntry (DB_TO_LINEAR M e.mParams.mNoiseFloor)
                    e.mParams.mRepeats.toNat (e.mParams.mParam1 / 100) STEPS (2 * STEPS - i))
                else if i ≤ 2 * STEPS then
                  levellerEntry (DB_TO_LINEAR M e.mParams.mNoiseFloor)
                    e.mParams.mRepeats.toNat (e.mParams.mParam1 / 100) STEPS i
                else e.mTable i } := by
  unfold Leveller
  simp only []
  rw [forLoop_setTable_config STEPS (TABLESIZE STEPS) _
    (fun n => levellerEntry (DB_TO_LINEAR M e.mParams.mNoiseFloor) e.mParams.mRepeats.toNat
      (e.mParams.mParam1 / 100) STEPS n) e (by unfold TABLESIZE; omega) (by
    intro n s _
    have hin := forLoop_iterate e.mParams.mRepeats.toNat n
      (levellerPass (DB_TO_LINEAR M e.mParams.mNoiseFloor)) s
      ((((n - STEPS : Nat) : α)) / (STEPS : α))
    unfold levellerPass at hin
    rw [hin]
    unfold levellerEntry levellerFraction levellerPass
    split_ifs
    · rw [setTable_same, setTable_setTable]
    · rfl)]
  rw [CopyHalfTable_eq]
  simp only [EffectDistortion.mk.injEq, true_and, and_true]
  funext i
  unfold TABLESIZE
  by_cases h1 : i < STEPS
  · rw [if_pos h1, if_pos h1, if_pos (by omega)]
  · rw [if_neg h1, if_neg h1]
    by_cases h2 : i ≤ 2 * STEPS
    · rw [if_pos (by omega), if_pos h2]
    · rw [if_neg (by omega), if_neg h2]

/-- The fractional pass at full weight is a whole pass. -/
theorem levellerFraction_one (noiseFloor v : α) :
    levellerFraction noiseFloor 1 v = levellerPass noiseFloor v := by
  unfold levellerFraction levellerPass
  ring

/-- The entries for `r` whole passes with the fractional pass at full weight are those for
`r + 1` whole passes with no fractional pass. -/
theorem levellerEntry_full (noiseFloor : α) (r STEPS n : Nat) :
    levellerEntry noiseFloor r 1 STEPS n = levellerEntry noiseFloor (r + 1) 0 STEPS n := by
  unfold levellerEntry
  rw [if_pos (by norm_num), if_neg (by norm_num), levellerFraction_one,
    Function.iterate_succ_apply']

/-- With the same noise floor, `r` passes and `param1 = 100` give the table of `r + 1` passes
and `param1 = 0`. -/
theorem Leveller_full_weight (M : MathFns α) (STEPS : Nat) (e1 e2 : EffectDistortion α) (r : Nat)
    (hnf : e1.mParams.mNoiseFloor = e2.mParams.mNoiseFloor)
    (hr1 : e1.mParams.mRepeats = (r : Int)) (hp1 : e1.mParams.mParam1 = 100)
    (hr2 : e2.mParams.mRepeats = (r : Int) + 1) (hp2 : e2.mParams.mParam1 = 0)
    (i : Nat) (hi : i ≤ 2 * STEPS) :
    (Leveller M STEPS e1).mTable i = (Leveller M STEPS e2).mTable i := by
  rw [Leveller_eq, Leveller_eq]
  have h1 : e1.mParams.mRepeats.toNat = r := by rw [hr1]; exact Int.toNat_ofNat r
  have h2 : e2.mParams.mRepeats.toNat = r + 1 := by rw [hr2]; omega
  have f1 : e1.mParams.mParam1 / 100 = 1 := by rw [hp1]; norm_num
  have f2 : e2.mParams.mParam1 / 100 = 0 := by rw [hp2]; norm_num
  show (if i < STEPS then _ else if i ≤ 2 * STEPS then _ else _) =
    (if i < STEPS then _ else if i ≤ 2 * STEPS then _ else _)
  rw [h1, h2, f1, f2, hnf]
  by_cases hlt : i < STEPS
  · rw [if_pos hlt, if_pos hlt, levellerEntry_full]
  · rw [if_neg hlt, if_neg hlt, if_pos hi, if_pos hi, levellerEntry_full]

/-- The model's `WaveShaper` is the code after the assignment of `index`, run on the exact
value `floor(sample * STEPS) + STEPS`. -/
theorem WaveShaper_from (STEPS : Nat) (e : EffectDistortion α) (sample : α) :
    WaveShaper STEPS e sample =
      WaveShaperFrom STEPS e sample
        (Int.floor (WaveShaperSample e sample * (STEPS : α)) + (STEPS : Int)) := rfl

/-- When the conversion to `int` is defined it delivers the exact value, which lies in the
range of a 32-bit `int`, and `WaveShaper` is the code run on it. -/
theorem WaveShaperRaw_some (STEPS : Nat) (e : EffectDistortion α) (sample : α) (v : Int)
    (h : WaveShaperRaw STEPS e sample = some v) :
    v = Int.floor (WaveShaperSample e sample * (STEPS : α)) + (STEPS : Int) ∧
      -2147483648 ≤ v ∧ v ≤ 2147483647 ∧
      WaveShaper STEPS e sample = WaveShaperFrom STEPS e sample v := by
  unfold WaveShaperRaw at h
  simp only [] at h
  split_ifs at h with hr
  have hv : Int.floor (WaveShaperSample e sample * (STEPS : α)) + (STEPS : Int) = v :=
    Option.some.inj h
  rw [← hv]
  exact ⟨rfl, hr.1, hr.2, WaveShaper_from STEPS e sample⟩

/-- The conversion to `int` for a pre-gained sample whose position is the integer `z`. -/
theorem WaveShaperRaw_int (STEPS : Nat) (e : EffectDistortion α) (sample : α) (z : Int)
    (h : WaveShaperSample e sample * (STEPS : α) = (z : α)) :
    WaveShaperRaw STEPS e sample =
      if -2147483648 ≤ z + (STEPS : Int) ∧ z + (STEPS : Int) ≤ 2147483647 then
        some (z + (STEPS : Int)) else none := by
  unfold WaveShaperRaw
  simp only []
  rw [h, Int.floor_intCast]

/-- On the Rectifier effect `staleStart` the sample 2097152 has a position that a 32-bit
`int` cannot hold; with the value -2147483648 in `index` the code returns `mTable[1]`. -/
theorem staleStart_overflow :
    WaveShaperSample staleStart 2097152 = 2097152 ∧
      WaveShaperRaw 1024 staleStart 2097152 = none ∧
      WaveShaperFrom 1024 staleStart 2097152 (-2147483648) = staleStart.mTable 1 := by
  have hs : ∀ x : ℝ, WaveShaperSample staleStart x = x := fun x =>
    WaveShaperSample_other _ _ (by rw [staleStart_params]; decide)
  refine ⟨hs _, ?_, ?_⟩
  · rw [WaveShaperRaw_int 1024 staleStart 2097152 2147483648 (by rw [hs]; norm_num)]
    rw [if_neg (by decide)]
  · unfold WaveShaperFrom
    simp only []
    rw [hs]
    have hi : max (min (-2147483648 : Int) (2 * ((1024 : Nat) : Int) - 1)) 0 = 0 := by decide
    rw [hi]
    have ho : min (max ((1 + (2097152 : ℝ)) * ((1024 : Nat) : ℝ) - ((0 : Int) : ℝ)) 0) 1 = 1 := by
      norm_num
    rw [ho]
    have h1 : ((0 : Int) + 1).toNat = 1 := by decide
    have h0 : (0 : Int).toNat = 0 := by decide
    rw [h1, h0]
    ring

/-- On `staleStart` the sample 2097150 is the last multiple of 2 whose position an `int`
holds: the conversion is defined and the code returns `mTable[2*STEPS]`. -/
theorem staleStart_in_range :
    WaveShaperRaw 1024 staleStart 2097150 = some 2147482624 ∧
      WaveShaper 1024 staleStart 2097150 = staleStart.mTable (2 * 1024) := by
  have hs : ∀ x : ℝ, WaveShaperSample staleStart x = x := fun x =>
    WaveShaperSample_other _ _ (by rw [staleStart_params]; decide)
  constructor
  · rw [WaveShaperRaw_int 1024 staleStart 2097150 2147481600 (by rw [hs]; norm_num)]
    rw [if_pos (by decide)]
    rfl
  · exact WaveShaper_at_high 1024 (by decide) staleStart _ (by rw [hs]; norm_num)

/-- The top and the second entry of the table of `staleStart`. -/
theorem staleStart_entries : staleStart.mTable 1 = 0 ∧ staleStart.mTable (2 * 1024) = 1 := by
  constructor
  · rw [staleStart_table 1 (by decide)]
    simp [rectifierEntry]
  · rw [staleStart_table (2 * 1024) (by decide)]
    simp [rectifierEntry]

/-- The pre-gained sample of a HardClip effect. -/
theorem WaveShaperSample_hardClip (e : EffectDistortion α) (sample : α)
    (h : e.mParams.mTableChoiceIndx = 0) :
    WaveShaperSample e sample = sample * (1 + e.mParams.mParam1 / 100) := by
  unfold WaveShaperSample
  rw [h, ofInt_values.1]

/-- On the default HardClip effect (drive 50) the sample 2 has the position 4096, which an
`int` holds. -/
theorem hardClip_raw_two :
    WaveShaperRaw 1024 (MakeTable realMath 1024 (EffectDistortion.new realMath 44100)) 2 =
      some 4096 := by
  obtain ⟨n1, n2, -⟩ := new_fields realMath (44100 : ℝ)
  have hp := (MakeTable_config realMath 1024 (EffectDistortion.new realMath 44100)).1
  rw [WaveShaperRaw_int 1024 _ 2 3072 (by
    rw [WaveShaperSample_hardClip _ _ (by rw [hp]; exact n1), hp, n2]
    norm_num)]
  rw [if_pos (by decide)]
  rfl

end Lemmas


/-! ## The claims -/

section Claims

set_option linter.unusedSectionVars false

variable {α : Type} [LinearOrderedField α] [FloorRing α]

/-- C1, the code at the failing input.  Preset "Half-wave Rectifier", `ProcessInitialize`,
the `param1` slider moved to 0, one sample processed (skip counter 0: the table is rebuilt),
the slider moved to 100, one sample processed (Dirty at skip counter 1: no rebuild, yet the
cached `param1` becomes 100), then any further block `ibuf`, of 1000 samples or more: the
live `param1` is 100, entry 0 of the lookup table is still -1, its value for `param1 = 0`,
and the table the generator produces for the live parameters has 1 there. -/
theorem table_stays_stale (ibuf : List ℝ) :
    (staleRun ibuf).mParams.mParam1 = 100 ∧ (staleRun ibuf).mTable 0 = -1 ∧
      (MakeTable realMath 1024 (staleRun ibuf)).mTable 0 = 1 := by
  have hp : (staleRun ibuf).mParams = preset 9 false (-6) (-70) 100 50 0 := by
    unfold staleRun
    rw [ProcessBlock_params, staleSecond_params]
  refine ⟨by rw [hp]; rfl, ?_, ?_⟩
  · unfold staleRun
    rw [ProcessBlock_table, InstanceProcess_clean _ _ _ _ _ staleSecond_clean]
    exact staleSecond_table
  · rw [MakeTable_rectifier _ _ _ (by rw [hp]; rfl), hp]
    simp [rectifierEntry, preset]
    norm_num

/-- C2, the code at the failing input.  After the constructor, `ProcessInitialize` and a
move of the `param2` slider from 50 to 60, whatever blocks are then processed with no further
edit: the cached `param2` is still 50 and the live one 60 (`InstanceProcess` refreshes the
five other cached values, not `param2`), so `update` is true for the next block too, and the
skip counter has advanced by every sample processed. -/
theorem param2_edit_never_stable (blocks : List (List ℝ)) :
    (param2Run blocks).mParams.mParam2 = 60 ∧ (param2Run blocks).mMaster.param2 = 50 ∧
      InstanceProcess.update (param2Run blocks) (param2Run blocks).mMaster = true ∧
      (param2Run blocks).mMaster.skipcount = (blocks.map List.length).sum := by
  obtain ⟨f1, f2, f3⟩ := param2Start_fields
  have hne : param2Start.mParams.mParam2 ≠ param2Start.mMaster.param2 := by
    rw [f1, f2]; norm_num
  obtain ⟨h1, h2, h3⟩ := param2_never_cached realMath 1024 blocks param2Start hne
  have g1 : (param2Run blocks).mParams.mParam2 = 60 := by
    unfold param2Run; rw [h1, f1]
  have g2 : (param2Run blocks).mMaster.param2 = 50 := by
    unfold param2Run; rw [h2, f2]
  refine ⟨g1, g2, ?_, ?_⟩
  · apply update_of_param2_ne
    rw [g1, g2]; norm_num
  · unfold param2Run
    rw [h3, f3, Nat.zero_add]

/-- C3 fails: preset "Half-wave Rectifier" and `ProcessInitialize`, then the `param1`
slider moves to 100.  The table in place maps the sample -1 to 0, and the first output sample
of the next block is already 1, the value of the table for `param1 = 100`: the rebuild
happened after 0 samples in the Dirty state. -/
theorem refresh_lag_counterexample :
    WaveShaper 1024 (OnParam1Slider staleStart 100) (-1) = 0 ∧
      (ProcessBlock realMath 1024 (OnParam1Slider staleStart 100) [-1]).2.1 = [some 1] := by
  have hk : (OnParam1Slider staleStart 100).mParams.mTableChoiceIndx = 9 := by
    rw [OnParam1Slider_params, staleStart_params]; rfl
  have hdc : (OnParam1Slider staleStart 100).mParams.mDCBlock = false := by
    rw [OnParam1Slider_params, staleStart_params]; rfl
  have hp1 : (OnParam1Slider staleStart 100).mParams.mParam1 = 100 := by
    rw [OnParam1Slider_params]; norm_num
  have hu : InstanceProcess.update (OnParam1Slider staleStart 100)
      (OnParam1Slider staleStart 100).mMaster = true := by
    unfold InstanceProcess.update
    rw [if_neg]
    intro hc
    have := hc.2.2.2.1
    rw [OnParam1Slider_master, staleStart_master.1, hp1] at this
    norm_num at this
  constructor
  · rw [WaveShaper_at_low 1024 (by decide) _ _ (by
      rw [WaveShaperSample_other _ _ (by rw [hk]; decide)]),
      OnParam1Slider_table, staleStart_table 0 (by decide)]
    simp [rectifierEntry]
  · rw [ProcessBlock_obuf, rectifier_single_output 1024 (by decide) _ _ _ _ hk hdc (le_refl _),
      InstanceProcess_single _ _ _ _ _ hu, OnParam1Slider_master, staleStart_master.2.2.1,
      if_pos (by decide), MakeTable_rectifier _ _ _ hk, hp1]
    simp [rectifierEntry]
    norm_num

/-- C3, amended.  In a Dirty block (`update` true) that starts at skip counter
`data.skipcount`, the counter counting the samples of Dirty blocks since `InstanceInit`: as
long as no sample position meets a multiple of `skipsamples` (1000) the effect, table and
makeup gain included, is untouched, and the first sample at which the counter is a multiple
of 1000 rebuilds the table from the live parameters; a sample at which it is not leaves the
table alone.  At counter 0 the rebuild is immediate. -/
theorem rebuild_at_counter_multiples (M : MathFns α) (STEPS : Nat) (e : EffectDistortion α)
    (data : EffectDistortionState α) (pre : List α) (x : α)
    (hu : InstanceProcess.update e data = true)
    (hpre : ∀ i, i < pre.length → (data.skipcount + i) % skipsamples ≠ 0) :
    (InstanceProcess M STEPS e data pre).effect = e ∧
      ((data.skipcount + pre.length) % skipsamples = 0 →
        (InstanceProcess M STEPS e data (pre ++ [x])).effect = MakeTable M STEPS e) ∧
      ((data.skipcount + pre.length) % skipsamples ≠ 0 →
        (InstanceProcess M STEPS e data (pre ++ [x])).effect = e) :=
  InstanceProcess_dirty M STEPS e data pre x hu hpre

/-- C3, amended, at the first block after an edit on a freshly initialized instance. -/
theorem rebuild_at_counter_multiples_witness :
    InstanceProcess.update (OnParam1Slider staleStart 0) (OnParam1Slider staleStart 0).mMaster =
        true ∧
      (InstanceProcess realMath 1024 (OnParam1Slider staleStart 0)
        (OnParam1Slider staleStart 0).mMaster ([] ++ [0])).effect =
          MakeTable realMath 1024 (OnParam1Slider staleStart 0) :=
  ⟨staleFirst_update,
    (rebuild_at_counter_multiples realMath 1024 (OnParam1Slider staleStart 0)
      (OnParam1Slider staleStart 0).mMaster [] 0 staleFirst_update (by simp)).2.1 (by
        rw [OnParam1Slider_master, staleStart_master.2.2.1]; rfl)⟩

/-- C4 fails: a Rectifier effect with a master and one real-time instance, the master at
skip counter 1 with the identity table, then `param1` moved to 100.  Processed right away the
master maps -1 to -1; processed after a block of the real-time instance, whose skip counter 0
triggers a rebuild, the master maps -1 to 1. -/
theorem shared_table_counterexample :
    (ProcessBlock realMath 1024 shareEdit [-1]).2.1 = [some (-1)] ∧
      ∃ r, RealtimeProcess realMath 1024 shareEdit 0 [0] = some r ∧
        (ProcessBlock realMath 1024 r.1 [-1]).2.1 = [some 1] := by
  obtain ⟨f1, f2, f3, f4, slave, f5, f6, f7⟩ := shareEdit_fields
  constructor
  · rw [rectifier_master_output shareEdit f1 f2 f3, f4]
  · have hget : shareEdit.mSlaves.get? 0 = some slave := by rw [f5]; rfl
    obtain ⟨r, hr⟩ : ∃ r, RealtimeProcess realMath 1024 shareEdit 0 [0] = some r :=
      ⟨_, RealtimeProcess_eq realMath 1024 shareEdit 0 [0] slave hget⟩
    refine ⟨r, hr, ?_⟩
    obtain ⟨r1, r2, -, -, -, r6⟩ := RealtimeProcess_frame realMath 1024 shareEdit 0 [0] r hr
    have hu : InstanceProcess.update shareEdit slave = true := by
      unfold InstanceProcess.update
      rw [if_neg]
      intro hc
      have := hc.2.2.2.1
      rw [f6, f1] at this
      simp [preset] at this
    have ht := (r6 slave 0 hget rfl hu (by rw [f7]; rfl)).1
    rw [rectifier_master_output r.1 (by rw [r1, f1]) (by rw [r2, f2]) (by rw [r2, f3]), ht,
      MakeTable_rectifier _ _ _ (by rw [f1]; rfl), f1]
    simp [rectifierEntry, preset]
    norm_num

/-- C4, amended.  `RealtimeProcess` on one group leaves the parameters, the master
instance and every other group's instance state unchanged, and `ProcessBlock` leaves all
real-time instances unchanged; the lookup table and makeup gain are members of the effect,
shared by all instances: a rebuild triggered by the group's block leaves the rebuilt table
and makeup gain in the effect, where the next block of any instance reads them. -/
theorem shared_table_private_state (M : MathFns α) (STEPS : Nat) (e : EffectDistortion α)
    (group : Nat) (ibuf : List α) (r : EffectDistortion α × List (Option α) × Nat)
    (h : RealtimeProcess M STEPS e group ibuf = some r) :
    r.1.mParams = e.mParams ∧ r.1.mMaster = e.mMaster ∧
      r.1.mSlaves.length = e.mSlaves.length ∧
      (∀ j, j ≠ group → r.1.mSlaves.get? j = e.mSlaves.get? j) ∧
      (ProcessBlock M STEPS e ibuf).1.mSlaves = e.mSlaves ∧
      (∀ data x, e.mSlaves.get? group = some data → ibuf = [x] →
        InstanceProcess.update e data = true → data.skipcount % skipsamples = 0 →
        r.1.mTable = (MakeTable M STEPS e).mTable ∧
          r.1.mMakeupGain = (MakeTable M STEPS e).mMakeupGain) :=
  RealtimeProcess_frame M STEPS e group ibuf r h

/-- C4, amended, at the effect of the counterexample. -/
theorem shared_table_private_state_witness :
    ∃ r, RealtimeProcess realMath 1024 shareEdit 0 [0] = some r ∧
      r.1.mMaster = shareEdit.mMaster := by
  obtain ⟨-, -, -, -, slave, f5, -, -⟩ := shareEdit_fields
  have hget : shareEdit.mSlaves.get? 0 = some slave := by rw [f5]; rfl
  have hr := RealtimeProcess_eq realMath 1024 shareEdit 0 [0] slave hget
  exact ⟨_, hr, (shared_table_private_state realMath 1024 shareEdit 0 [0] _ hr).2.1⟩

/-- C6 fails: at sample rate 0 with the preset "Full-wave Rectifier (DC blocked)", the queue
is empty again when `DCFilter` divides, so the division is by zero: the result for the sample
1 is not the sample, and the block `[1]` yields no number. -/
theorem zero_window_counterexample :
    (DCFilter dcZero.mMaster 1).2 = none ∧
      (ProcessBlock realMath 1024 dcZero [1]).2.1 = [none] := by
  obtain ⟨h1, -, h3⟩ := ProcessInitialize_fields realMath 1024
    (LoadFactoryPreset realMath (EffectDistortion.new realMath 0) 18).1
  have hsr : dcZero.mMaster.samplerate = 0 := by
    unfold dcZero
    rw [h3, (InstanceInit_queue _ _ _ _ _).1]
    rfl
  have hq : dcZero.mMaster.queuesamples = [] := by
    unfold dcZero
    rw [h3, (InstanceInit_queue _ _ _ _ _).2.1]
  have hW : queueLength dcZero.mMaster.samplerate = 0 := by
    rw [hsr]
    simp [queueLength]
  have hdc : dcZero.mParams.mDCBlock = true := by
    unfold dcZero
    rw [h1]
    simp [LoadFactoryPreset, FactoryPresets, preset]
  exact ⟨(DCFilter_none _ _ hW hq).1,
    by rw [ProcessBlock_obuf]; exact InstanceProcess_single_none _ _ _ _ _ hdc hW hq⟩

/-- C6, amended.  `DCFilter` has no guard for an empty window.  In a state reachable from
`InstanceInit`: when the window `floor(sampleRate/20)` is 0, that is when
`0 ≤ sampleRate < 20`, the pushed sample is popped again, the queue is empty at the division
and the division is by zero (`none`); when `1 ≤ floor(sampleRate/20) ≤ 4294967295` the queue
holds at least one sample at the division and the result is the sample minus the running
total over the queue length.  For the other sample rates the conversion of the window to
`unsigned int` is undefined and nothing is stated. -/
theorem DCFilter_zero_window (sampleRate : α) (d : EffectDistortionState α)
    (hd : DCReachable sampleRate d) (x : α) :
    (Int.floor (sampleRate / 20) = 0 ↔ 0 ≤ sampleRate ∧ sampleRate < 20) ∧
      (Int.floor (sampleRate / 20) = 0 →
        (DCFilter d x).1.queuesamples = [] ∧ (DCFilter d x).2 = none) ∧
      (1 ≤ Int.floor (sampleRate / 20) → Int.floor (sampleRate / 20) ≤ 4294967295 →
        1 ≤ (DCFilter d x).1.queuesamples.length ∧
        (DCFilter d x).2 =
          some (x - (DCFilter d x).1.queuetotal / ((DCFilter d x).1.queuesamples.length : α))) := by
  obtain ⟨h1, h2⟩ := DCFilter_division sampleRate d hd x
  refine ⟨?_, fun h0 => h1 (by omega), fun hw _ => h2 hw⟩
  rw [Int.floor_eq_iff, Int.cast_zero, zero_add, le_div_iff₀ (by norm_num), zero_mul,
    div_lt_iff₀ (by norm_num), one_mul]

/-- C6, amended, at sample rate 0 on a freshly initialized instance. -/
theorem DCFilter_zero_window_witness :
    (DCFilter (InstanceInit realMath 1024 (EffectDistortion.new realMath 0)
        EffectDistortionState.fresh 0).2 (1 : ℝ)).2 = none :=
  ((DCFilter_zero_window (0 : ℝ) _
    (DCReachable.init realMath 1024 (EffectDistortion.new realMath 0) EffectDistortionState.fresh)
    1).2.1 (by simp)).2

/-- C7, the code at the failing input.  Preset "Half-wave Rectifier" after
`ProcessInitialize` (no pre-gain), `STEPS = 1024`, and the sample 2097152, which is `≥ 1`.
The value `floor(sample * STEPS) + STEPS` is 2147484672, which the 32-bit `int index` cannot
hold: the conversion, which comes before the clamp, is undefined.  With -2147483648 in
`index`, the value an x86-64 conversion delivers, the clamp gives the index 0, the offset is
clamped to 1 and the result is `mTable[1] = 0`, not `mTable[2*STEPS] = 1`.  The sample
2097150, whose position an `int` holds, yields `mTable[2*STEPS]`. -/
theorem WaveShaper_index_overflow :
    1 ≤ WaveShaperSample staleStart 2097152 ∧
      WaveShaperRaw 1024 staleStart 2097152 = none ∧
      WaveShaperFrom 1024 staleStart 2097152 (-2147483648) = staleStart.mTable 1 ∧
      staleStart.mTable 1 = 0 ∧ staleStart.mTable (2 * 1024) = 1 ∧
      WaveShaperRaw 1024 staleStart 2097150 = some 2147482624 ∧
      WaveShaper 1024 staleStart 2097150 = staleStart.mTable (2 * 1024) := by
  obtain ⟨o1, o2, o3⟩ := staleStart_overflow
  obtain ⟨r1, r2⟩ := staleStart_in_range
  obtain ⟨t1, t2⟩ := staleStart_entries
  refine ⟨?_, o2, o3, t1, t2, r1, r2⟩
  rw [o1]
  norm_num

/-- C8 fails, with `t` the linear threshold for -6 dB.  With the default drive
`param1 = 50` the sample 1/4, below `t`, is mapped to 3/8.  Without pre-gain (`param1 = 0`)
the sample 0.5011, below `t`, is mapped to less than itself, and the sample 0.5015, at least
`t*(1 + 1/10000)`, to less than `t`: both lie between the knots 513/1024 and 514/1024, where
the table is interpolated. -/
theorem hardClip_counterexample :
    (|(1 / 4 : ℝ)| < DB_TO_LINEAR realMath (-6) ∧ WaveShaper 1024 hardStart (1 / 4) = 3 / 8) ∧
      (|(5011 / 10000 : ℝ)| < DB_TO_LINEAR realMath (-6) ∧
        WaveShaper 1024 hardPlain (5011 / 10000) < 5011 / 10000) ∧
      (DB_TO_LINEAR realMath (-6) * (1 + 1 / 10000) ≤ |(5015 / 10000 : ℝ)| ∧
        WaveShaper 1024 hardPlain (5015 / 10000) < DB_TO_LINEAR realMath (-6)) := by
  obtain ⟨hb1, hb2⟩ := threshold_bounds
  refine ⟨⟨?_, hardStart_quarter⟩, ⟨?_, ?_⟩, ⟨?_, ?_⟩⟩
  · rw [abs_of_nonneg (by norm_num)]; linarith
  · rw [abs_of_nonneg (by norm_num)]; exact hb1
  · rw [hardPlain_between _ (by norm_num) (by norm_num)]
    linarith
  · rw [abs_of_nonneg (by norm_num)]; linarith
  · rw [hardPlain_between _ (by norm_num) (by norm_num)]
    linarith

/-- C8, amended.  HardClip with a linear threshold `0 < t ≤ 1`, after the table is built,
with `g = 1 + param1/100` the pre-gain and `m = floor(STEPS*t)`: a sample `x` with
`|g*x| ≤ m/STEPS` is mapped to `g*x` exactly; a sample with `g*x ≥ (m+1)/STEPS` is mapped to
`t` and a sample with `g*x ≤ -(m+1)/STEPS` to `-t`, provided the 32-bit `int index` holds
the position `floor(g*x*STEPS) + STEPS` (`WaveShaperRaw` is not `none`). -/
theorem hardClip_waveshaper_regions (M : MathFns α) (STEPS : Nat) (hS : 0 < STEPS)
    (e : EffectDistortion α) (hk : e.mParams.mTableChoiceIndx = 0)
    (ht0 : 0 < e.mThreshold) (ht1 : e.mThreshold ≤ 1) (x : α) :
    (|x * (1 + e.mParams.mParam1 / 100)| ≤
          (Int.floor ((STEPS : α) * e.mThreshold) : α) / (STEPS : α) →
        WaveShaper STEPS (MakeTable M STEPS e) x = x * (1 + e.mParams.mParam1 / 100)) ∧
      (((Int.floor ((STEPS : α) * e.mThreshold) : α) + 1) / (STEPS : α) ≤
          x * (1 + e.mParams.mParam1 / 100) →
        WaveShaperRaw STEPS (MakeTable M STEPS e) x ≠ none →
        WaveShaper STEPS (MakeTable M STEPS e) x = e.mThreshold) ∧
      (x * (1 + e.mParams.mParam1 / 100) ≤
          -(((Int.floor ((STEPS : α) * e.mThreshold) : α) + 1) / (STEPS : α)) →
        WaveShaperRaw STEPS (MakeTable M STEPS e) x ≠ none →
        WaveShaper STEPS (MakeTable M STEPS e) x = -e.mThreshold) :=
  ⟨(HardClip_through_WaveShaper M STEPS hS e hk ht0 ht1 x).1,
    fun h _ => (HardClip_through_WaveShaper M STEPS hS e hk ht0 ht1 x).2.1 h,
    fun h _ => (HardClip_through_WaveShaper M STEPS hS e hk ht0 ht1 x).2.2 h⟩

/-- C8, amended, at the default effect (HardClip, -6 dB, drive 50): the sample 1/4 is
mapped to its pre-gained value 3/8, and the sample 2, whose position 4096 an `int` holds, to
the threshold. -/
theorem hardClip_waveshaper_regions_witness :
    0 < 1024 ∧ (EffectDistortion.new realMath (44100 : ℝ)).mParams.mTableChoiceIndx = 0 ∧
      0 < (EffectDistortion.new realMath (44100 : ℝ)).mThreshold ∧
      (EffectDistortion.new realMath (44100 : ℝ)).mThreshold ≤ 1 ∧
      WaveShaper 1024 (MakeTable realMath 1024 (EffectDistortion.new realMath 44100)) (1 / 4) =
        1 / 4 * (1 + (EffectDistortion.new realMath (44100 : ℝ)).mParams.mParam1 / 100) ∧
      WaveShaper 1024 (MakeTable realMath 1024 (EffectDistortion.new realMath 44100)) 2 =
        (EffectDistortion.new realMath (44100 : ℝ)).mThreshold := by
  obtain ⟨n1, n2, n3⟩ := new_fields realMath (44100 : ℝ)
  obtain ⟨hpos, -⟩ := threshold_pow
  obtain ⟨hb1, hb2⟩ := threshold_bounds
  have ht0 : 0 < (EffectDistortion.new realMath (44100 : ℝ)).mThreshold := by rw [n3]; exact hpos
  have ht1 : (EffectDistortion.new realMath (44100 : ℝ)).mThreshold ≤ 1 := by rw [n3]; linarith
  refine ⟨by decide, n1, ht0, ht1,
    (hardClip_waveshaper_regions realMath 1024 (by decide)
      (EffectDistortion.new realMath 44100) n1 ht0 ht1 (1 / 4)).1 ?_,
    (hardClip_waveshaper_regions realMath 1024 (by decide)
      (EffectDistortion.new realMath 44100) n1 ht0 ht1 2).2.1 ?_ ?_⟩
  · rw [n2, n3, threshold_floor, abs_of_nonneg (by norm_num)]
    norm_num
  · rw [n2, n3, threshold_floor]
    norm_num
  · rw [hardClip_raw_two]
    exact Option.some_ne_none _

/-- C9 fails: on the table of the preset "Half-wave Rectifier" the breakpoint value for
`k = 1` is mapped to `mTable[1]`, not `mTable[STEPS+1]`; and on the default HardClip effect,
whose drive pre-gains the sample, the breakpoint value of knot 1280 is not even mapped to
`mTable[1280]`. -/
theorem round_trip_counterexample :
    WaveShaper 1024 staleStart (-1 + 2 * ((1 : Int) : ℝ) / (2 * ((1024 : Nat) : ℝ))) ≠
        staleStart.mTable (1024 + 1) ∧
      WaveShaper 1024 hardStart (-1 + 2 * ((1280 : Int) : ℝ) / (2 * ((1024 : Nat) : ℝ))) ≠
        hardStart.mTable 1280 := by
  constructor
  · rw [WaveShaper_at_knot 1024 (by decide) staleStart _ 1 (by decide) (by
      rw [WaveShaperSample_other _ _ (by rw [staleStart_params]; decide)]
      norm_num),
      staleStart_table 1 (by decide), staleStart_table (1024 + 1) (by decide)]
    simp [rectifierEntry]
  · have hx : (-1 + 2 * ((1280 : Int) : ℝ) / (2 * ((1024 : Nat) : ℝ))) = 1 / 4 := by norm_num
    obtain ⟨hpos, -⟩ := threshold_pow
    rw [hx, hardStart_quarter, hardStart_table 1280 (by decide),
      hardClipEntry_mid 1024 _ _ (by rw [threshold_floor]; decide)
        (by rw [threshold_floor]; decide)]
    norm_num

/-- C9, amended.  For `0 ≤ k ≤ 2*STEPS`, `WaveShaper` applied to a sample whose value after
the HardClip pre-gain (the sample itself for every other curve type) is the breakpoint
`-1 + 2k/(2*STEPS)` returns exactly `mTable[k]`. -/
theorem WaveShaper_breakpoint (STEPS : Nat) (hS : 0 < STEPS) (e : EffectDistortion α)
    (sample : α) (k : Nat) (hk : k ≤ 2 * STEPS)
    (h : WaveShaperSample e sample = -1 + 2 * (k : α) / (2 * (STEPS : α))) :
    WaveShaper STEPS e sample = e.mTable k := by
  apply WaveShaper_at_knot STEPS hS e sample k hk
  rw [h, mul_div_mul_left _ _ (two_ne_zero)]
  ring

/-- C9, amended, at knot 1 of a Rectifier table. -/
theorem WaveShaper_breakpoint_witness :
    0 < 1024 ∧ 1 ≤ 2 * 1024 ∧
      WaveShaper 1024 staleStart (-1 + 2 * ((1 : Nat) : ℝ) / (2 * ((1024 : Nat) : ℝ))) =
        staleStart.mTable 1 :=
  ⟨by decide, by decide, WaveShaper_breakpoint 1024 (by decide) staleStart _ 1 (by decide)
    (WaveShaperSample_other _ _ (by rw [staleStart_params]; decide))⟩

/-- C10 fails: Cubic with `param1 = 0` (identity table) and `param2 = 60`, DC blocking off:
the waveshaper maps the sample 1 to 1 and the output sample is 3/5. -/
theorem cubic_output_counterexample :
    WaveShaper 1024 cubicStart 1 = 1 ∧
      (ProcessBlock realMath 1024 cubicStart [1]).2.1 = [some (3 / 5)] := by
  obtain ⟨f1, f2, f3⟩ := cubicStart_fields
  have hw : WaveShaper 1024 cubicStart 1 = 1 := by
    rw [WaveShaper_at_high 1024 (by decide) _ _ (by
      rw [WaveShaperSample_other _ _ (by rw [f1]; decide)]), f2 _ (by decide)]
    norm_num
  refine ⟨hw, ?_⟩
  have h := InstanceProcess_obuf_snoc realMath 1024 cubicStart cubicStart.mMaster [] 1
    (by rw [f1]; rfl)
  rw [List.nil_append] at h
  rw [ProcessBlock_obuf, h, InstanceProcess_clean _ _ _ _ _ f3,
    shape_cubic _ _ _ _ _ (by rw [f1]; rfl), hw, f1]
  simp [InstanceProcess, preset]
  norm_num

/-- C10, amended.  With DC blocking disabled, output sample `i` of a block is, for
EvenHarmonics, Leveller and Rectifier, the waveshaper result for input sample `i` on the table
in place at that sample, with no further scaling; for Cubic it is that waveshaper result
multiplied by `param2/100`. -/
theorem output_post_processing (M : MathFns α) (STEPS : Nat) (e : EffectDistortion α)
    (data : EffectDistortionState α) (ibuf : List α) (i : Nat) (hi : i < ibuf.length)
    (hdc : e.mParams.mDCBlock = false) :
    ((e.mParams.mTableChoiceIndx = 6 ∨ e.mParams.mTableChoiceIndx = 8 ∨
        e.mParams.mTableChoiceIndx = 9) →
      (InstanceProcess M STEPS e data ibuf).obuf.get? i =
        some (some (WaveShaper STEPS
          (InstanceProcess M STEPS e data (ibuf.take (i + 1))).effect (ibuf.get ⟨i, hi⟩)))) ∧
    (e.mParams.mTableChoiceIndx = 5 →
      (InstanceProcess M STEPS e data ibuf).obuf.get? i =
        some (some (WaveShaper STEPS
          (InstanceProcess M STEPS e data (ibuf.take (i + 1))).effect (ibuf.get ⟨i, hi⟩) *
            (e.mParams.mParam2 / 100)))) := by
  have hc : (InstanceProcess M STEPS e data (ibuf.take (i + 1))).effect.mParams = e.mParams :=
    (InstanceProcess_config M STEPS e data _).1
  have hg := InstanceProcess_obuf_get M STEPS e data ibuf i hi hdc
  constructor
  · intro hk
    rw [hg, shape_plain _ _ _ _ _ (by rw [hc]; exact hk)]
  · intro hk
    rw [hg, shape_cubic _ _ _ _ _ (by rw [hc]; exact hk)]

/-- C10, amended, at the Cubic effect of the counterexample. -/
theorem output_post_processing_witness :
    0 < [(1 : ℝ)].length ∧ cubicStart.mParams.mDCBlock = false ∧
      (InstanceProcess realMath 1024 cubicStart cubicStart.mMaster [1]).obuf.get? 0 =
        some (some (WaveShaper 1024
          (InstanceProcess realMath 1024 cubicStart cubicStart.mMaster ([(1 : ℝ)].take (0 + 1))).effect
            ([(1 : ℝ)].get ⟨0, by decide⟩) * (cubicStart.mParams.mParam2 / 100))) :=
  ⟨by decide, by rw [cubicStart_fields.1]; rfl,
    (output_post_processing realMath 1024 cubicStart cubicStart.mMaster [1] 0 (by decide)
      (by rw [cubicStart_fields.1]; rfl)).2 (by rw [cubicStart_fields.1]; rfl)⟩

/-- C11.  Over the reals, for `STEPS ≥ 1`, a positive linear threshold and a curve type among
SoftClip (1), HalfSin (2), Exponential (3), Logarithmic (4), Sine (7) and Leveller (8): the
table `MakeTable` generates satisfies `table[STEPS+k] = -table[STEPS-k]` for every
`0 ≤ k ≤ STEPS`, and the origin entry `table[STEPS]` is 0. -/
theorem mirrored_tables_odd (STEPS : Nat) (hS : 0 < STEPS) (e : EffectDistortion ℝ)
    (ht : 0 < e.mThreshold)
    (hc : e.mParams.mTableChoiceIndx = 1 ∨ e.mParams.mTableChoiceIndx = 2 ∨
      e.mParams.mTableChoiceIndx = 3 ∨ e.mParams.mTableChoiceIndx = 4 ∨
      e.mParams.mTableChoiceIndx = 7 ∨ e.mParams.mTableChoiceIndx = 8)
    (k : Nat) (hk : k ≤ STEPS) :
    (MakeTable realMath STEPS e).mTable (STEPS + k) =
        -(MakeTable realMath STEPS e).mTable (STEPS - k) ∧
      (MakeTable realMath STEPS e).mTable STEPS = 0 := by
  obtain ⟨-, d1, d2, d3, d4, -, -, d7, d8, -, -⟩ := MakeTable_dispatch realMath STEPS e
  obtain ⟨a1, a2, a3, a4, a7, a8⟩ := mirrored_odd STEPS hS e ht k hk
  obtain ⟨b1, b2, b3, b4, b7, b8⟩ := mirrored_odd STEPS hS e ht 0 (Nat.zero_le _)
  have hz : ∀ x : ℝ, x = -x → x = 0 := fun x hx => by linarith
  rcases hc with h | h | h | h | h | h
  · rw [d1 h]; exact ⟨a1, hz _ b1⟩
  · rw [d2 h]; exact ⟨a2, hz _ b2⟩
  · rw [d3 h]; exact ⟨a3, hz _ b3⟩
  · rw [d4 h]; exact ⟨a4, hz _ b4⟩
  · rw [d7 h]; exact ⟨a7, hz _ b7⟩
  · rw [d8 h]; exact ⟨a8, hz _ b8⟩

/-- C11 at the preset "Blues drive sustain" (half-sine curve), `STEPS = 1024`, `k = 1`. -/
theorem mirrored_tables_odd_witness :
    (MakeTable realMath 1024
        (LoadFactoryPreset realMath (EffectDistortion.new realMath 44100) 4).1).mTable (1024 + 1) =
      -(MakeTable realMath 1024
        (LoadFactoryPreset realMath (EffectDistortion.new realMath 44100) 4).1).mTable (1024 - 1) :=
  (mirrored_tables_odd 1024 (by decide)
    (LoadFactoryPreset realMath (EffectDistortion.new realMath 44100) 4).1
    (by rw [bluesPreset_fields.2]; exact threshold_pow.1)
    (Or.inr (Or.inl bluesPreset_fields.1)) 1 (by decide)).1

/-- C12.  For `STEPS ≥ 1`, a linear threshold `t > 0` and every index `n` in `0..2*STEPS`:
`HardClip` sets `table[n] = min(max(n/STEPS - 1, -t), t)`, the identity ramp clipped to `±t`,
and sets the makeup gain to `1/t`. -/
theorem HardClip_table (STEPS : Nat) (hS : 0 < STEPS) (e : EffectDistortion α)
    (ht : 0 < e.mThreshold) (n : Nat) (hn : n ≤ 2 * STEPS) :
    (HardClip STEPS e).mTable n =
        min (max ((n : α) / (STEPS : α) - 1) (-e.mThreshold)) e.mThreshold ∧
      (HardClip STEPS e).mMakeupGain = 1 / e.mThreshold := by
  rw [HardClip_eq]
  refine ⟨?_, rfl⟩
  show (if n ≤ 2 * STEPS then hardClipEntry STEPS e.mThreshold n else e.mTable n) = _
  rw [if_pos hn]
  exact hardClipEntry_clamp STEPS hS e.mThreshold ht n

/-- C12 at the effect the constructor leaves (threshold -6 dB), `STEPS = 1024`, index 0. -/
theorem HardClip_table_witness :
    (HardClip 1024 (EffectDistortion.new realMath 44100)).mTable 0 =
        min (max (((0 : Nat) : ℝ) / ((1024 : Nat) : ℝ) - 1)
          (-(EffectDistortion.new realMath 44100).mThreshold))
          (EffectDistortion.new realMath 44100).mThreshold ∧
      (HardClip 1024 (EffectDistortion.new realMath 44100)).mMakeupGain =
        1 / (EffectDistortion.new realMath 44100).mThreshold :=
  HardClip_table 1024 (by decide) (EffectDistortion.new realMath 44100)
    (by rw [(new_fields realMath 44100).2.2]; exact threshold_pow.1) 0 (by decide)

/-- C13, the code at the failing input.  Preset "Half-wave Rectifier", `ProcessInitialize`,
the `param1` slider moved from 50 to 100, then `ProcessBlock` with a block of length 0.  The
call returns 0 and writes no output; the table is the one of `param1 = 50`; but the cached
`param1`, 50 before the call, is 100 after it, and the comparison of live and cached
parameters finds no difference any more.  Hence whatever block `ibuf` follows, entry 0 of the
table stays 0, its value for `param1 = 50`, while the generator gives 1 for the live
parameters; without the empty block the first sample `x` after the edit rebuilds the table. -/
theorem empty_block_refreshes_cache (ibuf : List ℝ) (x : ℝ) :
    emptyBlock.2 = ([], 0) ∧ emptyBlock.1.mTable = emptyEdit.mTable ∧
      emptyEdit.mMaster.param1 = 50 ∧ emptyBlock.1.mMaster.param1 = 100 ∧
      InstanceProcess.update emptyEdit emptyEdit.mMaster = true ∧
      InstanceProcess.update emptyBlock.1 emptyBlock.1.mMaster = false ∧
      (ProcessBlock realMath 1024 emptyBlock.1 ibuf).1.mTable 0 = 0 ∧
      (MakeTable realMath 1024 emptyBlock.1).mTable 0 = 1 ∧
      (ProcessBlock realMath 1024 emptyEdit [x]).1.mTable 0 = 1 := by
  obtain ⟨hp, hm, ht⟩ := emptyEdit_fields
  obtain ⟨b1, -, b3, b4⟩ := emptyBlock_fields
  obtain ⟨m1, -⟩ := staleStart_master
  obtain ⟨r1, r2⟩ := emptyEdit_rebuild x
  refine ⟨b1, b3.trans ht.symm, by rw [hm, m1], ?_, emptyEdit_update, emptyBlock_clean, ?_, r2, r1⟩
  · rw [b4, (cache_fields emptyEdit staleStart.mMaster).1, hp]
    rfl
  · rw [ProcessBlock_table, InstanceProcess_clean _ _ _ _ _ emptyBlock_clean, b3,
      staleStart_table 0 (by decide)]
    simp [rectifierEntry]

/-- C14.  After `InstanceInit` the skip counter is 0, the DC-filter queue is empty with sum 0,
the sample rate is the given one, every cached parameter equals the live one, and the effect
is the result of `MakeTable`, which is the generator that the live curve type selects.  The
comparison of live and cached parameters then finds no difference, so a block processed next
leaves the effect (and with it the table) and the skip counter as they are. -/
theorem InstanceInit_postcondition (M : MathFns α) (STEPS : Nat) (e : EffectDistortion α)
    (data : EffectDistortionState α) (sampleRate : α) :
    ((InstanceInit M STEPS e data sampleRate).2.skipcount = 0 ∧
        (InstanceInit M STEPS e data sampleRate).2.queuesamples = [] ∧
        (InstanceInit M STEPS e data sampleRate).2.queuetotal = 0 ∧
        (InstanceInit M STEPS e data sampleRate).2.samplerate = sampleRate) ∧
      ((InstanceInit M STEPS e data sampleRate).2.tablechoiceindx = e.mParams.mTableChoiceIndx ∧
        (InstanceInit M STEPS e data sampleRate).2.dcblock = e.mParams.mDCBlock ∧
        (InstanceInit M STEPS e data sampleRate).2.threshold = e.mParams.mThreshold_dB ∧
        (InstanceInit M STEPS e data sampleRate).2.noisefloor = e.mParams.mNoiseFloor ∧
        (InstanceInit M STEPS e data sampleRate).2.param1 = e.mParams.mParam1 ∧
        (InstanceInit M STEPS e data sampleRate).2.param2 = e.mParams.mParam2 ∧
        (InstanceInit M STEPS e data sampleRate).2.repeats = e.mParams.mRepeats) ∧
      ((InstanceInit M STEPS e data sampleRate).1 = MakeTable M STEPS e ∧
        (MakeTable M STEPS e).mParams = e.mParams ∧
        (e.mParams.mTableChoiceIndx = 0 → MakeTable M STEPS e = HardClip STEPS e) ∧
        (e.mParams.mTableChoiceIndx = 1 → MakeTable M STEPS e = SoftClip M STEPS e) ∧
        (e.mParams.mTableChoiceIndx = 2 → MakeTable M STEPS e = HalfSinTable M STEPS e) ∧
        (e.mParams.mTableChoiceIndx = 3 → MakeTable M STEPS e = ExponentialTable M STEPS e) ∧
        (e.mParams.mTableChoiceIndx = 4 → MakeTable M STEPS e = LogarithmicTable M STEPS e) ∧
        (e.mParams.mTableChoiceIndx = 5 → MakeTable M STEPS e = CubicTable M STEPS e) ∧
        (e.mParams.mTableChoiceIndx = 6 → MakeTable M STEPS e = EvenHarmonicTable M STEPS e) ∧
        (e.mParams.mTableChoiceIndx = 7 → MakeTable M STEPS e = SineTable M STEPS e) ∧
        (e.mParams.mTableChoiceIndx = 8 → MakeTable M STEPS e = Leveller M STEPS e) ∧
        (e.mParams.mTableChoiceIndx = 9 → MakeTable M STEPS e = Rectifier STEPS e) ∧
        (e.mParams.mTableChoiceIndx = 10 → MakeTable M STEPS e = HardLimiter STEPS e)) ∧
      InstanceProcess.update (InstanceInit M STEPS e data sampleRate).1
        (InstanceInit M STEPS e data sampleRate).2 = false ∧
      ∀ ibuf : List α,
        (InstanceProcess M STEPS (InstanceInit M STEPS e data sampleRate).1
          (InstanceInit M STEPS e data sampleRate).2 ibuf).effect =
            (InstanceInit M STEPS e data sampleRate).1 ∧
        (InstanceProcess M STEPS (InstanceInit M STEPS e data sampleRate).1
          (InstanceInit M STEPS e data sampleRate).2 ibuf).data.skipcount = 0 := by
  obtain ⟨q1, q2, q3⟩ := InstanceInit_queue M STEPS e data sampleRate
  obtain ⟨c0, c1, c2, c3, c4, c5, c6, c7⟩ := InstanceInit_cached M STEPS e data sampleRate
  have hclean := InstanceInit_clean M STEPS e data sampleRate
  refine ⟨⟨(InstanceInit_data M STEPS e data sampleRate).2, q2, q3, q1⟩,
    ⟨c1, c2, c3, c4, c5, c6, c7⟩,
    ⟨c0, (MakeTable_config M STEPS e).1, MakeTable_dispatch M STEPS e⟩, hclean, fun ibuf => ⟨?_, ?_⟩⟩
  · exact InstanceProcess_clean M STEPS _ _ ibuf hclean
  · rw [InstanceProcess_skipcount, hclean]
    exact (InstanceInit_data M STEPS e data sampleRate).2

/-- C15, the code at the failing input.  After the constructor (threshold -6 dB), a successful
`SetAutomationParameters` with the values of the preset "Hard clip -12dB, 80% make-up gain"
and `ProcessInitialize`: the live threshold is -12 dB, but the linear threshold with which
`HardClip` built the table is still that of -6 dB, which is larger than that of -12 dB; the
makeup gain is its reciprocal and the top entry of the table is this stale threshold.  After
`LoadFactoryPreset` with the same values the linear threshold is that of -12 dB. -/
theorem automation_threshold_stale :
    (SetAutomationParameters (EffectDistortion.new realMath 44100)
        (some (preset 0 false (-12) (-70) 0 80 0))).2 = true ∧
      automationStart.mParams = preset 0 false (-12) (-70) 0 80 0 ∧
      automationStart.mThreshold = DB_TO_LINEAR realMath (-6) ∧
      DB_TO_LINEAR realMath automationStart.mParams.mThreshold_dB < automationStart.mThreshold ∧
      automationStart.mMakeupGain = 1 / DB_TO_LINEAR realMath (-6) ∧
      automationStart.mTable 2048 = DB_TO_LINEAR realMath (-6) ∧
      presetStart.mParams = automationStart.mParams ∧
      presetStart.mThreshold = DB_TO_LINEAR realMath presetStart.mParams.mThreshold_dB := by
  obtain ⟨a1, a2, a3, a4⟩ := automationStart_fields
  obtain ⟨p1, p2⟩ := presetStart_fields
  obtain ⟨hb1, hb2⟩ := threshold_bounds
  refine ⟨rfl, a1, a2, ?_, a3, ?_, p1.trans a1.symm, ?_⟩
  · rw [a1, a2]
    exact DB_TO_LINEAR_lt (-12) (-6) (by norm_num)
  · rw [a4 2048 (by decide)]
    unfold hardClipEntry
    rw [if_neg (by push_cast; nlinarith), if_pos (by push_cast; nlinarith)]
  · rw [p1, p2]
    rfl

/-- C16.  For `STEPS ≥ 1`, every `param1` and every `0 ≤ n ≤ STEPS`: `Rectifier` sets
`table[STEPS+n] = n/STEPS` and, for `n ≥ 1`, `table[STEPS-n] = (n/STEPS)*(param1/50 - 1)`.
So `param1 = 50` gives 0 on the negative half, `param1 = 100` maps the negative input
`-n/STEPS` to its absolute value, and `param1 = 0` gives the identity ramp `i/STEPS - 1` at
every index; the presets "Half-wave Rectifier" and "Full-wave Rectifier" are the Rectifier
type with `param1 = 50` and `param1 = 100`. -/
theorem Rectifier_table (STEPS : Nat) (hS : 0 < STEPS) (e : EffectDistortion α) (n : Nat)
    (hn : n ≤ STEPS) :
    (Rectifier STEPS e).mTable (STEPS + n) = (n : α) / (STEPS : α) ∧
      (1 ≤ n → (Rectifier STEPS e).mTable (STEPS - n) =
        (n : α) / (STEPS : α) * (e.mParams.mParam1 / 50 - 1)) ∧
      (1 ≤ n → e.mParams.mParam1 = 50 → (Rectifier STEPS e).mTable (STEPS - n) = 0) ∧
      (1 ≤ n → e.mParams.mParam1 = 100 →
        (Rectifier STEPS e).mTable (STEPS - n) = |(-((n : α) / (STEPS : α)))|) ∧
      (e.mParams.mParam1 = 0 →
        ∀ i, i ≤ 2 * STEPS → (Rectifier STEPS e).mTable i = (i : α) / (STEPS : α) - 1) ∧
      (FactoryPresets : List (Params α)).get? 16 = some (preset 9 false (-6) (-70) 50 50 0) ∧
      (FactoryPresets : List (Params α)).get? 17 = some (preset 9 false (-6) (-70) 100 50 0) := by
  obtain ⟨h1, h2⟩ := Rectifier_entries STEPS e n hn
  have hSα : (0 : α) < (STEPS : α) := by exact_mod_cast hS
  have hnn : (0 : α) ≤ (n : α) / (STEPS : α) := div_nonneg (Nat.cast_nonneg n) hSα.le
  refine ⟨h1, h2, ?_, ?_, ?_, rectifier_presets.1, rectifier_presets.2⟩
  · intro hn1 hp
    rw [h2 hn1, hp]
    norm_num
  · intro hn1 hp
    rw [h2 hn1, hp, abs_neg, abs_of_nonneg hnn]
    norm_num
  · intro hp i hi
    exact Rectifier_identity STEPS hS e hp i hi

/-- C16 at the preset "Half-wave Rectifier" after `ProcessInitialize`, `STEPS = 1024`,
`n = 1024`. -/
theorem Rectifier_table_witness :
    (Rectifier 1024 staleStart).mTable (1024 + 1024) = ((1024 : Nat) : ℝ) / ((1024 : Nat) : ℝ) ∧
      (Rectifier 1024 staleStart).mTable (1024 - 1024) = 0 :=
  ⟨(Rectifier_table 1024 (by decide) staleStart 1024 (le_refl _)).1,
    (Rectifier_table 1024 (by decide) staleStart 1024 (le_refl _)).2.2.1 (by decide)
      (by rw [staleStart_params]; rfl)⟩

/-- C17.  For `STEPS ≥ 1` and `param1 = 0`: `CubicTable` produces `table[i] = i/STEPS - 1` at
every index `i` in `0..2*STEPS`, whatever `repeats` is; `LogarithmicTable` produces
`table[STEPS+k] = k/STEPS` for `0 ≤ k ≤ STEPS`, and its result does not depend on the
`<cmath>` functions: the branch taken calls no logarithm and divides by nothing but `STEPS`. -/
theorem zero_amount_bypass (M : MathFns α) (STEPS : Nat) (hS : 0 < STEPS)
    (e : EffectDistortion α) (h0 : e.mParams.mParam1 = 0) :
    (∀ i, i ≤ 2 * STEPS → (CubicTable M STEPS e).mTable i = (i : α) / (STEPS : α) - 1) ∧
      (∀ k, k ≤ STEPS → (LogarithmicTable M STEPS e).mTable (STEPS + k) = (k : α) / (STEPS : α)) ∧
      (LogarithmicTable M STEPS e).mTable STEPS = 0 ∧
      (LogarithmicTable M STEPS e).mTable (2 * STEPS) = 1 ∧
      (STEPS : α) ≠ 0 ∧
      ∀ M2 : MathFns α, LogarithmicTable M2 STEPS e = LogarithmicTable M STEPS e := by
  obtain ⟨l1, l2⟩ := LogarithmicTable_zero M STEPS e h0
  have hSα : (0 : α) < (STEPS : α) := by exact_mod_cast hS
  refine ⟨?_, l1, ?_, ?_, hSα.ne', l2⟩
  · intro i hi
    rw [CubicTable_zero M STEPS e h0]
    show (if i ≤ 2 * STEPS then (i : α) / (STEPS : α) - 1 else e.mTable i) = _
    rw [if_pos hi]
  · have := l1 0 (Nat.zero_le _)
    rw [Nat.add_zero, Nat.cast_zero, zero_div] at this
    exact this
  · have := l1 STEPS (le_refl _)
    rw [← two_mul, div_self hSα.ne'] at this
    exact this

/-- C17 at the constructor's effect with the `param1` slider at 0, `STEPS = 1024`: the top
entries of both tables. -/
theorem zero_amount_bypass_witness :
    (CubicTable realMath 1024 (OnParam1Slider (EffectDistortion.new realMath 44100) 0)).mTable
        (2 * 1024) = (((2 * 1024 : Nat)) : ℝ) / ((1024 : Nat) : ℝ) - 1 ∧
      (LogarithmicTable realMath 1024
        (OnParam1Slider (EffectDistortion.new realMath 44100) 0)).mTable (2 * 1024) = 1 :=
  ⟨(zero_amount_bypass realMath 1024 (by decide)
      (OnParam1Slider (EffectDistortion.new realMath 44100) 0) Int.cast_zero).1 (2 * 1024)
      (le_refl _),
    (zero_amount_bypass realMath 1024 (by decide)
      (OnParam1Slider (EffectDistortion.new realMath 44100) 0) Int.cast_zero).2.2.2.1⟩

/-- C18.  Over the reals, for `STEPS ≥ 1`, a linear threshold `t` in `(0, 1]` and
`a = 2^(7*param1/100)`, which is positive: for every index `n` in `STEPS..2*STEPS`, `SoftClip`
sets `table[n] = n/STEPS - 1` when `n < STEPS*(1+t)` and
`table[n] = t + (1 - exp(-a*(x - t)))/a` with `x = n/STEPS - 1` otherwise; the makeup gain is
the reciprocal of the curve value at `x = 1`, which is `table[2*STEPS]`, so
`makeupGain * table[2*STEPS] = 1`, and `table[2*STEPS] ≤ 1`. -/
theorem SoftClip_curve (STEPS : Nat) (hS : 0 < STEPS) (e : EffectDistortion ℝ)
    (ht : 0 < e.mThreshold) (ht1 : e.mThreshold ≤ 1) :
    0 < (2 : ℝ) ^ (7 * e.mParams.mParam1 / 100) ∧
      (∀ n : Nat, STEPS ≤ n → n ≤ 2 * STEPS →
        ((n : ℝ) < (STEPS : ℝ) * (1 + e.mThreshold) →
          (SoftClip realMath STEPS e).mTable n = (n : ℝ) / (STEPS : ℝ) - 1) ∧
        (¬ (n : ℝ) < (STEPS : ℝ) * (1 + e.mThreshold) →
          (SoftClip realMath STEPS e).mTable n =
            e.mThreshold +
              (1 - Real.exp (-(2 : ℝ) ^ (7 * e.mParams.mParam1 / 100) *
                ((n : ℝ) / (STEPS : ℝ) - 1 - e.mThreshold))) /
                (2 : ℝ) ^ (7 * e.mParams.mParam1 / 100))) ∧
      (SoftClip realMath STEPS e).mMakeupGain =
        1 / (e.mThreshold +
          (1 - Real.exp (-(2 : ℝ) ^ (7 * e.mParams.mParam1 / 100) * (1 - e.mThreshold))) /
            (2 : ℝ) ^ (7 * e.mParams.mParam1 / 100)) ∧
      (SoftClip realMath STEPS e).mTable (2 * STEPS) =
        e.mThreshold +
          (1 - Real.exp (-(2 : ℝ) ^ (7 * e.mParams.mParam1 / 100) * (1 - e.mThreshold))) /
            (2 : ℝ) ^ (7 * e.mParams.mParam1 / 100) ∧
      (SoftClip realMath STEPS e).mMakeupGain * (SoftClip realMath STEPS e).mTable (2 * STEPS) = 1 ∧
      (SoftClip realMath STEPS e).mTable (2 * STEPS) ≤ 1 :=
  SoftClip_real STEPS hS e ht ht1

/-- C18 at the constructor's effect (threshold -6 dB, `param1 = 50`), `STEPS = 1024`. -/
theorem SoftClip_curve_witness :
    (SoftClip realMath 1024 (EffectDistortion.new realMath 44100)).mMakeupGain *
        (SoftClip realMath 1024 (EffectDistortion.new realMath 44100)).mTable (2 * 1024) = 1 ∧
      (SoftClip realMath 1024 (EffectDistortion.new realMath 44100)).mTable (2 * 1024) ≤ 1 :=
  (SoftClip_curve 1024 (by decide) (EffectDistortion.new realMath 44100)
    (by rw [(new_fields realMath 44100).2.2]; exact threshold_pow.1)
    (by rw [(new_fields realMath 44100).2.2]; linarith [threshold_bounds.2])).2.2.2.2

/-- C19.  Over the reals, for `STEPS ≥ 1` and every `param1`, with
`amount = min(0.999, 10^(-param1/20))`: `amount` is positive and the divisor `1 - amount` of
`ExponentialTable` is positive; `table[STEPS+k] = (1 - amount^(k/STEPS)) / (1 - amount)` for
every `0 ≤ k ≤ STEPS`, and `table[2*STEPS] = 1`. -/
theorem ExponentialTable_curve (STEPS : Nat) (hS : 0 < STEPS) (e : EffectDistortion ℝ) :
    0 < min (999 / 1000) ((10 : ℝ) ^ (-e.mParams.mParam1 / 20)) ∧
      0 < 1 - min (999 / 1000) ((10 : ℝ) ^ (-e.mParams.mParam1 / 20)) ∧
      (∀ k : Nat, k ≤ STEPS →
        (ExponentialTable realMath STEPS e).mTable (STEPS + k) =
          (1 - (min (999 / 1000) ((10 : ℝ) ^ (-e.mParams.mParam1 / 20))) ^ ((k : ℝ) / (STEPS : ℝ))) /
            (1 - min (999 / 1000) ((10 : ℝ) ^ (-e.mParams.mParam1 / 20)))) ∧
      (ExponentialTable realMath STEPS e).mTable (2 * STEPS) = 1 :=
  ExponentialTable_real STEPS hS e

/-- C19 at the constructor's effect (`param1 = 50`), `STEPS = 1024`: the full-scale entry. -/
theorem ExponentialTable_curve_witness :
    (ExponentialTable realMath 1024 (EffectDistortion.new realMath 44100)).mTable (2 * 1024) = 1 :=
  (ExponentialTable_curve 1024 (by decide) (EffectDistortion.new realMath 44100)).2.2.2

/-- C20 fails: with the noise floor of -70 dB and the current value 0.6, the index the search
of `Leveller` delivers is 5, whose limit 1.0 is not `≤ 0.6`; the highest index whose limit
is `≤ 0.6` is 4 (limit 0.5). -/
theorem leveller_lookup_counterexample :
    levellerIndex (gainLimits (DB_TO_LINEAR realMath (-70))) (6 / 10) 6 5 = 5 ∧
      ¬ (gainLimits (DB_TO_LINEAR realMath (-70)) 5 ≤ 6 / 10) ∧
      gainLimits (DB_TO_LINEAR realMath (-70)) 4 ≤ 6 / 10 := by
  obtain ⟨-, -, -, -, g4, g5⟩ := gainLimits_values (DB_TO_LINEAR realMath (-70))
  refine ⟨?_, ?_, ?_⟩
  · have e1 : levellerIndex (gainLimits (DB_TO_LINEAR realMath (-70))) (6 / 10) 6 5 =
        if (6 / 10 : ℝ) < gainLimits (DB_TO_LINEAR realMath (-70)) 5 then
          (if (6 / 10 : ℝ) < gainLimits (DB_TO_LINEAR realMath (-70)) 4 then
            levellerIndex (gainLimits (DB_TO_LINEAR realMath (-70))) (6 / 10) 4 4 else 5)
        else 5 := rfl
    rw [e1, g5, g4, if_pos (by norm_num), if_neg (by norm_num)]
  · rw [g5]; norm_num
  · rw [g4]; norm_num

/-- C20, amended.  For a linear noise floor between 0.0001 and 0.1 (noise floor -80 dB to
-20 dB) and every current value `v`, the index delivered by the search of `Leveller`, which
both the whole passes and the fractional pass use, is at most 5; it is 5 when `v ≥ 1`; and
when `v < 1` it is the lowest index whose limit is above `v`: its own limit is above `v` and
the limit of every lower index is `≤ v`. -/
theorem leveller_segment_lookup (noiseFloor v : α) (h1 : 1 / 10000 ≤ noiseFloor)
    (h2 : noiseFloor ≤ 1 / 10) :
    levellerIndex (gainLimits noiseFloor) v 6 5 ≤ 5 ∧
      (1 ≤ v → levellerIndex (gainLimits noiseFloor) v 6 5 = 5) ∧
      (v < 1 →
        v < gainLimits noiseFloor (levellerIndex (gainLimits noiseFloor) v 6 5) ∧
        ∀ j, j < levellerIndex (gainLimits noiseFloor) v 6 5 → gainLimits noiseFloor j ≤ v) :=
  levellerIndex_lowest noiseFloor v h1 h2

/-- C20, amended, at the noise floor of -70 dB and the current value 0.6: the limit of the
index found is above 0.6. -/
theorem leveller_segment_lookup_witness :
    (6 / 10 : ℝ) < gainLimits (DB_TO_LINEAR realMath (-70))
      (levellerIndex (gainLimits (DB_TO_LINEAR realMath (-70))) (6 / 10) 6 5) :=
  ((leveller_segment_lookup (DB_TO_LINEAR realMath (-70)) (6 / 10)
    (noiseFloor_bounds (-70) (by norm_num) (by norm_num)).1
    (noiseFloor_bounds (-70) (by norm_num) (by norm_num)).2).2.2 (by norm_num)).1

/-- C21.  For `STEPS ≥ 1` and an effect without pre-gain (curve type other than HardClip, or
`param1 = 0`), for every `0 ≤ j ≤ 2*STEPS`: `WaveShaper` applied to the sample `j/STEPS - 1`
returns exactly `mTable[j]`.  Below the last knot the index is `j` and the offset 0; at the
last knot `j = 2*STEPS` the index is clamped to `2*STEPS - 1` and the offset is 1. -/
theorem WaveShaper_exact_at_knots (STEPS : Nat) (hS : 0 < STEPS) (e : EffectDistortion α)
    (h : e.mParams.mTableChoiceIndx ≠ 0 ∨ e.mParams.mParam1 = 0) (j : Nat)
    (hj : j ≤ 2 * STEPS) :
    WaveShaper STEPS e ((j : α) / (STEPS : α) - 1) = e.mTable j ∧
      (j < 2 * STEPS →
        WaveShaperIndex STEPS e ((j : α) / (STEPS : α) - 1) = (j : Int) ∧
        WaveShaperOffset STEPS e ((j : α) / (STEPS : α) - 1) = 0) ∧
      (j = 2 * STEPS →
        WaveShaperIndex STEPS e ((j : α) / (STEPS : α) - 1) = 2 * (STEPS : Int) - 1 ∧
        WaveShaperOffset STEPS e ((j : α) / (STEPS : α) - 1) = 1) := by
  have hs := WaveShaperSample_plain e ((j : α) / (STEPS : α) - 1) h
  have hSα : (0 : α) < (STEPS : α) := by exact_mod_cast hS
  refine ⟨WaveShaper_at_knot STEPS hS e _ j hj hs, fun hlt => WaveShaper_knot STEPS hS e _ j hlt hs,
    fun heq => WaveShaper_high STEPS hS e _ ?_⟩
  rw [hs, heq]
  push_cast
  rw [mul_div_assoc, div_self hSα.ne']
  norm_num

/-- C21 at the last knot of the Rectifier table of `staleStart`, `STEPS = 1024`. -/
theorem WaveShaper_exact_at_knots_witness :
    WaveShaper 1024 staleStart (((2 * 1024 : Nat) : ℝ) / ((1024 : Nat) : ℝ) - 1) =
      staleStart.mTable (2 * 1024) :=
  (WaveShaper_exact_at_knots 1024 (by decide) staleStart
    (Or.inl (by rw [staleStart_params]; decide)) (2 * 1024) (le_refl _)).1

/-- C22.  For two effects with the same noise floor, one with `repeats = r` and
`param1 = 100`, the other with `repeats = r + 1` and `param1 = 0`: the tables `Leveller`
generates are equal at every index `0..2*STEPS`. -/
theorem Leveller_fractional_full_weight (M : MathFns α) (STEPS : Nat)
    (e1 e2 : EffectDistortion α) (r : Nat)
    (hnf : e1.mParams.mNoiseFloor = e2.mParams.mNoiseFloor)
    (hr1 : e1.mParams.mRepeats = (r : Int)) (hp1 : e1.mParams.mParam1 = 100)
    (hr2 : e2.mParams.mRepeats = (r : Int) + 1) (hp2 : e2.mParams.mParam1 = 0)
    (i : Nat) (hi : i ≤ 2 * STEPS) :
    (Leveller M STEPS e1).mTable i = (Leveller M STEPS e2).mTable i :=
  Leveller_full_weight M STEPS e1 e2 r hnf hr1 hp1 hr2 hp2 i hi

/-- C22 at the constructor's effect with `repeats = 1`, `param1 = 100` against `repeats = 2`,
`param1 = 0` (the values of the preset "Leveller, Moderate, -70dB noise floor"), at the top
entry of the table, `STEPS = 1024`. -/
theorem Leveller_fractional_full_weight_witness :
    (Leveller realMath 1024
        (SetAutomationParameters (EffectDistortion.new realMath 44100)
          (some (preset 8 false (-6) (-70) 100 50 1))).1).mTable (2 * 1024) =
      (Leveller realMath 1024
        (SetAutomationParameters (EffectDistortion.new realMath 44100)
          (some (preset 8 false (-6) (-70) 0 50 2))).1).mTable (2 * 1024) :=
  Leveller_fractional_full_weight realMath 1024
    (SetAutomationParameters (EffectDistortion.new realMath 44100)
      (some (preset 8 false (-6) (-70) 100 50 1))).1
    (SetAutomationParameters (EffectDistortion.new realMath 44100)
      (some (preset 8 false (-6) (-70) 0 50 2))).1
    1 rfl rfl rfl rfl rfl (2 * 1024) (le_refl _)

end Claims

end Distortion
